import Mathlib

/-!
# CardKyng Telegram bot: conversation engine and transaction workflow

A shallow embedding of `src/index.js` (with the schemas of `src/models/`).

Modelling conventions.

* JavaScript strings are lists of code units (`Str`).
* JavaScript numbers are written as exact decimals `num / 10 ^ scale`, together
  with `NaN` and the two infinities (`JSNum`).  `parseFloat` rounds the value
  that a literal writes to the nearest binary64 number, ties to even, with
  overflow to `Infinity` and underflow to `0` (`JSNum.toBinary64`); every
  binary64 number is an exact decimal.  Comparisons are exact.  A product is
  the exact product of its factors: the rounding of products is not modelled.
* The three in-memory `Map`s are functions from keys to optional values.  A key
  is a JavaScript value: the number `msg.chat.id` and the string
  `user.telegramId` are different keys (`Map` compares with SameValueZero).
* The durable store is a list of users and a list of transactions; the `_id`
  of a document is its position in the list, written in decimal in callback
  data.  Store calls succeed, except where the schema rejects a document.
* Every listener registered with `bot.on('message', ...)` receives every
  message, in registration order.  Each listener is run to completion before
  the next one starts: a listener reads its session entry before its first
  store call, and the listeners after it test for other states, so the order
  in which the asynchronous tails finish does not change the stores.  Two
  submissions of different messages that alternate at their awaited store
  calls are modelled apart (`interleave`).
* Outbound messages (`bot.sendMessage`, `bot.answerCallbackQuery`) do not touch
  the stores and are left out of the state.  Where a property is about what is
  sent, the messages are given beside the listener that sends them
  (`rejectReasonReplies`, `showTransactionHistory`).
* Creation times are not stored: records are kept in the order of their
  creation, so newest first is the reverse of the store order.
-/

namespace CardKyng

/-! ## Strings -/

/-- JavaScript strings: lists of code units. -/
abbrev Str := List Char

/-- Code units that `trim` and `parseFloat` skip: WhiteSpace and LineTerminator. -/
def isWhiteSpace (c : Char) : Bool :=
  c.toNat ∈ [0x09, 0x0A, 0x0B, 0x0C, 0x0D, 0x20, 0xA0, 0x1680, 0x2028, 0x2029,
    0x202F, 0x205F, 0x3000, 0xFEFF] || (0x2000 ≤ c.toNat && c.toNat ≤ 0x200A)

/-- `String.prototype.trim`. -/
def trim (s : Str) : Str :=
  ((s.dropWhile isWhiteSpace).reverse.dropWhile isWhiteSpace).reverse

/-- `String.prototype.toLowerCase`, on the ASCII letters.  The bot only compares
the result with the ASCII word `cancel`, and no code unit outside ASCII
lower-cases to one of its letters. -/
def toLowerCase (s : Str) : Str := s.map Char.toLower

/-- `String.prototype.toUpperCase`, on the ASCII letters: a text of ASCII code
units gets the upper case that JavaScript gives it.  Code units outside ASCII
are left as they are, while JavaScript maps the letters among them too; a
statement that names the upper case of a text is made for ASCII texts. -/
def toUpperCase (s : Str) : Str := s.map Char.toUpper

/-- `String.prototype.startsWith`. -/
def startsWith (s p : Str) : Bool := p.isPrefixOf s

/-- The regular expression class `\d`. -/
def isDigit (c : Char) : Bool := 48 ≤ c.toNat && c.toNat ≤ 57

/-- Value of a decimal digit. -/
def digitVal (c : Char) : Nat := c.toNat - 48

/-- Value of a run of decimal digits. -/
def digitsVal (ds : Str) : Nat := ds.foldl (fun acc c => acc * 10 + digitVal c) 0

/-- Scanner behind `text.replace(/<[^>]*>/g, '')`.  With `skipping` set the
scanner is inside a match and drops code units up to and including the next
`>`; a `<` opens a match only when a `>` follows somewhere later. -/
def stripTagsAux : Bool → Str → Str
  | _, [] => []
  | true, c :: cs => if c = '>' then stripTagsAux false cs else stripTagsAux true cs
  | false, c :: cs =>
    if c = '<' ∧ '>' ∈ cs then stripTagsAux true cs else c :: stripTagsAux false cs

/-- The replacement `text.replace(/<[^>]*>/g, '')`. -/
def stripTags (s : Str) : Str := stripTagsAux false s

/-- `sanitizeText` (index.js 64-68); `none` is an absent (`undefined`) text. -/
def sanitizeText (text : Option Str) : Str :=
  match text with
  | none => []
  | some t => if t = [] then [] else (stripTags t).take 1000

/-! ## Numbers -/

/-- JavaScript numbers: `NaN`, plus or minus `Infinity`, or the exact decimal
`num / 10 ^ scale`. -/
inductive JSNum where
  | nan
  | inf (neg : Bool)
  | fin (num : Int) (scale : Nat)
  deriving DecidableEq, Repr

namespace JSNum

/-- Global `isNaN` on a number. -/
def isNaN : JSNum → Bool
  | nan => true
  | _ => false

/-- The comparison `a < b`; false when an operand is `NaN`. -/
def lt : JSNum → JSNum → Bool
  | nan, _ => false
  | _, nan => false
  | inf n, inf m => n && !m
  | inf n, fin _ _ => n
  | fin _ _, inf m => !m
  | fin a s, fin b t => decide (a * 10 ^ t < b * 10 ^ s)

/-- The comparison `a <= b`; false when an operand is `NaN`. -/
def le : JSNum → JSNum → Bool
  | nan, _ => false
  | _, nan => false
  | inf n, inf m => n || !m
  | inf n, fin _ _ => n
  | fin _ _, inf m => !m
  | fin a s, fin b t => decide (a * 10 ^ t ≤ b * 10 ^ s)

/-- The product `a * b`. -/
def mul : JSNum → JSNum → JSNum
  | nan, _ => nan
  | _, nan => nan
  | inf n, inf m => inf (xor n m)
  | inf n, fin b _ => if b = 0 then nan else inf (xor n (decide (b < 0)))
  | fin a _, inf m => if a = 0 then nan else inf (xor (decide (a < 0)) m)
  | fin a s, fin b t => fin (a * b) (s + t)

/-- A natural number literal. -/
def ofNat (n : Nat) : JSNum := fin n 0

/-- The rational value of a finite number. -/
def toRat : JSNum → Option ℚ
  | fin a s => some ((a : ℚ) / (10 : ℚ) ^ s)
  | _ => none

end JSNum

/-- Number of binary digits of `n` added to `acc`, counted in at most `fuel`
steps that drop 64 digits where there are more, and one digit else. -/
def bitLengthAux : Nat → Nat → Nat → Nat
  | 0, _, acc => acc
  | fuel + 1, n, acc =>
    if n = 0 then acc
    else if 2 ^ 64 ≤ n then bitLengthAux fuel (n / 2 ^ 64) (acc + 64)
    else bitLengthAux fuel (n / 2) (acc + 1)

/-- Number of binary digits of a natural number. -/
def bitLength (n : Nat) : Nat := bitLengthAux n n 0

/-- The integer nearest to `x / q`; of two that are equally near, the even
one. -/
def roundDiv (x q : Nat) : Nat :=
  if q < 2 * (x % q) ∨ (2 * (x % q) = q ∧ (x / q) % 2 = 1) then x / q + 1 else x / q

/-- The fraction `m / 2 ^ k` in lowest terms: the pair of the new exponent and
the new numerator. -/
def dyadic : Nat → Nat → Nat × Nat
  | 0, m => (0, m)
  | k + 1, m => if m % 2 = 0 then dyadic k (m / 2) else (k + 1, m)

/-- The Number value of a mathematical value: the binary64 number nearest to
it, of two that are equally near the one with the even significand, and an
infinity from `2 ^ 1024` on.  Every finite binary64 number is a multiple of
`2 ^ -1074`.  With `x / d` the magnitude in that unit and `s` the number of
binary digits of its integer part beyond 53, the significand is `x / d`
divided by `2 ^ s` and rounded.  The result is written as an exact decimal
with the least scale.  The sign of a zero is not kept: no comparison and no
product tells the two zeros apart. -/
def JSNum.toBinary64 : JSNum → JSNum
  | JSNum.nan => JSNum.nan
  | JSNum.inf neg => JSNum.inf neg
  | JSNum.fin a sc =>
    let x := a.natAbs * 2 ^ 1074
    let d := 10 ^ sc
    let s := bitLength (x / d) - 53
    let m := roundDiv x (d * 2 ^ s)
    if 2 ^ 2098 ≤ m * 2 ^ s then JSNum.inf (decide (a < 0))
    else
      let r := dyadic (1074 - s) m
      JSNum.fin ((if a < 0 then -1 else 1) * ((r.2 * 2 ^ (s - 1074) * 5 ^ r.1 : Nat) : Int)) r.1

/-- A product with a possibly `undefined` operand: `x * undefined` is `NaN`. -/
def mulUndef (a : JSNum) (b : Option JSNum) : JSNum :=
  match b with
  | none => JSNum.nan
  | some r => JSNum.mul a r

/-- The exponent part of a numeric literal: `e` or `E`, an optional sign and at
least one digit.  The result is the exponent, or `0` when there is no
well-formed exponent part. -/
def parseExponent (s : Str) : Int :=
  match s with
  | [] => 0
  | c :: r =>
    if c = 'e' ∨ c = 'E' then
      let neg := r.head? = some '-'
      let r1 := if r.head? = some '-' ∨ r.head? = some '+' then r.tail else r
      let ds := r1.takeWhile isDigit
      if ds = [] then 0 else if neg then -(digitsVal ds : Int) else (digitsVal ds : Int)
    else 0

/-- The unsigned part of a decimal literal, read from the front of `s2`:
`Infinity`, or digits with an optional fraction and exponent; `NaN` when there
is none.  `neg` tells whether a minus sign came before. -/
def parseDecimal (neg : Bool) (s2 : Str) : JSNum :=
  if startsWith s2 "Infinity".toList then JSNum.inf neg
  else
    let ip := s2.takeWhile isDigit
    let r1 := s2.dropWhile isDigit
    let hasDot := r1.head? = some '.'
    let fp := if hasDot then r1.tail.takeWhile isDigit else []
    let r2 := if hasDot then r1.tail.dropWhile isDigit else r1
    if ip = [] ∧ fp = [] then JSNum.nan
    else
      let m : Int := digitsVal (ip ++ fp)
      let sm : Int := if neg then -m else m
      let e := parseExponent r2
      if 0 ≤ e then JSNum.fin (sm * 10 ^ e.toNat) fp.length
      else JSNum.fin sm (fp.length + (-e).toNat)

/-- The mathematical value of the longest prefix of a text that is a decimal
literal: skip leading white space, then read an optional sign and the unsigned
part. -/
def parseLiteral (s : Str) : JSNum :=
  let s1 := s.dropWhile isWhiteSpace
  let neg : Bool := decide (s1.head? = some '-')
  let s2 := if s1.head? = some '-' ∨ s1.head? = some '+' then s1.tail else s1
  parseDecimal neg s2

/-- Global `parseFloat`: the Number value of the mathematical value that the
literal writes. -/
def parseFloat (s : Str) : JSNum := (parseLiteral s).toBinary64

/-- The test `!isNaN(num) && num > 0 && num <= 1000000` of `validateAmount`. -/
def amountInRange (num : JSNum) : Bool :=
  !num.isNaN && JSNum.lt (JSNum.ofNat 0) num && JSNum.le num (JSNum.ofNat 1000000)

/-- `validateAmount` (index.js 51-54). -/
def validateAmount (amount : Str) : Bool :=
  let num := parseFloat amount
  amountInRange num

/-- `validateCryptoType` (index.js 56-58). -/
def validateCryptoType (type : Str) : Bool :=
  type ∈ ["BTC".toList, "ETH".toList, "USDT".toList]

/-- `validateGiftCardType` (index.js 60-62). -/
def validateGiftCardType (type : Str) : Bool :=
  type ∈ ["Amazon".toList, "Apple".toList, "Google Play".toList, "Steam".toList]

/-! ## Maps and the rate limiter -/

/-- A key of a JavaScript `Map`: a number or a string. -/
inductive Key where
  | num (n : Int)
  | str (s : Str)
  deriving DecidableEq, Repr

/-- A JavaScript `Map` from keys to values. -/
abbrev JSMap (V : Type) := Key → Option V

namespace JSMap

/-- The empty map, `new Map()`. -/
def empty {V : Type} : JSMap V := fun _ => none

/-- `Map.prototype.set`. -/
def set {V : Type} (m : JSMap V) (k : Key) (v : V) : JSMap V :=
  fun k1 => if k1 = k then some v else m k1

/-- `Map.prototype.delete`. -/
def delete {V : Type} (m : JSMap V) (k : Key) : JSMap V :=
  fun k1 => if k1 = k then none else m k1

end JSMap

/-- `RATE_LIMIT` (index.js 47): messages per window. -/
def RATE_LIMIT : Nat := 10

/-- `RATE_WINDOW` (index.js 48): one minute, in milliseconds. -/
def RATE_WINDOW : Nat := 60 * 1000

/-- A value of `userMessageCounts`. -/
structure RateEntry where
  count : Nat
  resetTime : Nat
  deriving DecidableEq, Repr

/-- `checkRateLimit` (index.js 70-86), with `Date.now()` passed as `now`.
Returns the verdict and the map afterwards.  A rejected call leaves the map as
it was: the entry is written in place only when the window has expired, and
then the count is `0` and the call is admitted. -/
def checkRateLimit (m : JSMap RateEntry) (chatId : Key) (now : Nat) :
    Bool × JSMap RateEntry :=
  let userData : RateEntry :=
    match m chatId with
    | some e => e
    | none => { count := 0, resetTime := now + RATE_WINDOW }
  let userData : RateEntry :=
    if now > userData.resetTime then { count := 0, resetTime := now + RATE_WINDOW }
    else userData
  if userData.count ≥ RATE_LIMIT then (false, m)
  else (true, m.set chatId { userData with count := userData.count + 1 })

/-- Successive calls of `checkRateLimit` for one chat at the times `ts`: the
verdicts in order, and the map afterwards. -/
def rateCalls (m : JSMap RateEntry) (chatId : Key) : List Nat → List Bool × JSMap RateEntry
  | [] => ([], m)
  | t :: ts =>
    let r := checkRateLimit m chatId t
    let rest := rateCalls r.2 chatId ts
    (r.1 :: rest.1, rest.2)

/-- Number of calls of `rateCalls` that are admitted at a time in the closed
interval from `a` to `a + RATE_WINDOW`. -/
def admittedIn (m : JSMap RateEntry) (chatId : Key) (a : Nat) : List Nat → Nat
  | [] => 0
  | t :: ts =>
    let r := checkRateLimit m chatId t
    (if r.1 = true ∧ a ≤ t ∧ t ≤ a + RATE_WINDOW then 1 else 0) + admittedIn r.2 chatId a ts

/-! ## Inbound events -/

/-- One size of a photo, as Telegram delivers it. -/
structure PhotoSize where
  file_id : Str
  file_size : Option Nat
  deriving DecidableEq, Repr

/-- A document attached to a message. -/
structure Document where
  file_id : Str
  file_size : Option Nat
  mime_type : Option Str
  deriving DecidableEq, Repr

/-- An inbound message: `chatId` is `msg.chat.id`, `username` the display name
that `/start` stores. -/
structure Message where
  chatId : Int
  username : Str
  text : Option Str
  photo : Option (List PhotoSize)
  document : Option Document
  deriving DecidableEq, Repr

/-- A button press: `fromId` is `query.from.id`, `chatId` is
`query.message.chat.id`, `data` is `query.data`. -/
structure CallbackQuery where
  fromId : Int
  chatId : Int
  data : Str
  deriving DecidableEq, Repr

/-- A string that is present and not empty, as the test `if (x)` sees it. -/
def truthy (t : Option Str) : Option Str :=
  match t with
  | some x => if x = [] then none else some x
  | none => none

/-- The test `msg.text && msg.text.toLowerCase() === 'cancel'`. -/
def isCancel (text : Option Str) : Bool :=
  match text with
  | some t => toLowerCase t = "cancel".toList
  | none => false

/-- `MAX_FILE_SIZE` (index.js 89). -/
def MAX_FILE_SIZE : Nat := 10 * 1024 * 1024

/-- `ALLOWED_MIME_TYPES` (index.js 90-93). -/
def ALLOWED_MIME_TYPES : List Str :=
  ["image/jpeg".toList, "image/png".toList, "image/gif".toList, "image/webp".toList,
   "application/pdf".toList, "text/plain".toList]

/-- The comparison `file_size > MAX_FILE_SIZE`; false for an absent size. -/
def tooLarge (size : Option Nat) : Bool :=
  match size with
  | some n => decide (n > MAX_FILE_SIZE)
  | none => false

/-- `validateFileUpload` (index.js 88-108).  `none` is the `TypeError` raised
when `msg.photo` is an empty array. -/
def validateFileUpload (msg : Message) : Option Bool :=
  match msg.photo with
  | some photos =>
    match photos.getLast? with
    | none => none
    | some photo => if tooLarge photo.file_size then some false else some true
  | none =>
    match msg.document with
    | some doc =>
      if tooLarge doc.file_size then some false
      else
        match truthy doc.mime_type with
        | some mime => if mime ∈ ALLOWED_MIME_TYPES then some true else some false
        | none => some true
    | none => some false

/-- The file id the upload handlers keep (index.js 566-570, 663-667, 855-859):
the last photo size, else the document. -/
def uploadFileId (msg : Message) : Option Str :=
  match msg.photo with
  | some (p :: ps) => some ((p :: ps).getLast (List.cons_ne_nil p ps)).file_id
  | _ =>
    match msg.document with
    | some doc => some doc.file_id
    | none => none

/-! ## Stored records -/

/-- The `status` enumeration of the Transaction schema. -/
inductive Status where
  | PENDING
  | COMPLETED
  | CANCELLED
  | REJECTED
  deriving DecidableEq, Repr

/-- Modelled from the spec: the User schema, `models/User.js`, is missing from
the sources.  The spec gives the identity key of a user as a string, and every
query of index.js passes `chatId.toString()` (lines 116, 214, 579, 677, 869),
so `telegramId` is a string.  The `_id` of a User document is its position in
the store. -/
structure User where
  telegramId : Str
  username : Str
  deriving DecidableEq, Repr

/-- A Transaction document (models/Transaction.js).  Its `_id` is its position
in the store; `user` is the `_id` of the owner.  `createdAt` and `updatedAt`
are left out. -/
structure Transaction where
  user : Nat
  type : Str
  cryptoType : Str
  amount : JSNum
  rate : Option JSNum
  fiatAmount : JSNum
  status : Status
  paymentProof : Option Str
  txHash : Option Str
  screenshot : Option Str
  giftType : Option Str
  cardValue : Option JSNum
  country : Option Str
  cardImage : Option Str
  cardCode : Option Str
  paymentDetails : Option Str
  rejectReason : Option Str
  deriving DecidableEq, Repr

/-- A required `Number` path with `min: 0`: present, not `NaN`, at least `0`. -/
def numberPathOk (x : Option JSNum) : Bool :=
  match x with
  | some v => !v.isNaN && JSNum.le (JSNum.ofNat 0) v
  | none => false

/-- Validation of a document against `TransactionSchema`
(models/Transaction.js 9-33), as `save()` runs it. -/
def validateTransaction (tx : Transaction) : Bool :=
  decide (tx.type ∈ ["buy".toList, "sell".toList]) &&
  decide (tx.cryptoType ∈ ["BTC".toList, "ETH".toList, "USDT".toList]) &&
  numberPathOk (some tx.amount) && numberPathOk tx.rate && numberPathOk (some tx.fiatAmount)

/-- `new Transaction(doc).save()`: the new list, or `none` when validation
throws. -/
def createTransaction (txs : List Transaction) (tx : Transaction) : Option (List Transaction) :=
  if validateTransaction tx then some (txs ++ [tx]) else none

/-- `transaction.save()` on the document loaded from position `i`. -/
def saveTransaction (txs : List Transaction) (i : Nat) (tx : Transaction) :
    Option (List Transaction) :=
  if validateTransaction tx then some (txs.set i tx) else none

/-- The `_id` named by a string of callback data: decimal digits. -/
def parseObjectId (txId : Str) : Option Nat :=
  if txId ≠ [] ∧ txId.all isDigit = true then some (digitsVal txId) else none

/-- `Transaction.findById(txId)`: position and document.  An ill-formed id
raises a cast error, which every caller handles as it handles a miss as far as
the stores go. -/
def findById (txs : List Transaction) (txId : Str) : Option (Nat × Transaction) :=
  match parseObjectId txId with
  | none => none
  | some i =>
    match txs[i]? with
    | some tx => some (i, tx)
    | none => none

/-- `Transaction.findOne({ user, type, status: 'PENDING' })`. -/
def findPending (txs : List Transaction) (user : Nat) (type : Str) : Option Transaction :=
  txs.find? (fun tx => decide (tx.user = user ∧ tx.type = type ∧ tx.status = Status.PENDING))

/-- Search of the user list from position `i` on. -/
def findUserFrom (telegramId : Str) : List User → Nat → Option Nat
  | [], _ => none
  | u :: us, i => if u.telegramId = telegramId then some i else findUserFrom telegramId us (i + 1)

/-- `User.findOne({ telegramId })`: the `_id` of the user. -/
def findUser (users : List User) (telegramId : Str) : Option Nat :=
  findUserFrom telegramId users 0

/-- `chatId.toString()`. -/
def idToString (n : Int) : Str := (toString n).toList

/-- The settings held in memory, `globalSettings` (index.js 9-13): three
objects from names to values. -/
structure Settings where
  cryptoRates : List (Str × JSNum)
  giftCardRates : List (Str × JSNum)
  wallets : List (Str × Str)
  deriving DecidableEq, Repr

/-- The Settings document of the durable store (models/Settings.js). -/
structure SettingsDoc where
  cryptoRates : List (Str × JSNum)
  giftCardRates : List (Str × JSNum)
  wallets : List (Str × Str)
  updatedBy : Option Str
  deriving DecidableEq, Repr

/-- The schema defaults of a Settings document (models/Settings.js 4-19). -/
def defaultSettingsDoc : SettingsDoc :=
  { cryptoRates := [("BTC".toList, JSNum.fin 50000 0), ("ETH".toList, JSNum.fin 3000 0),
      ("USDT".toList, JSNum.fin 1 0)],
    giftCardRates := [("Amazon".toList, JSNum.fin 85 2), ("Apple".toList, JSNum.fin 80 2),
      ("Google Play".toList, JSNum.fin 82 2), ("Steam".toList, JSNum.fin 88 2)],
    wallets := [("BTC".toList, []), ("ETH".toList, []), ("USDT".toList, [])],
    updatedBy := none }

/-- Property assignment `obj[key] = value` on an object held as a list of
pairs. -/
def setProp {V : Type} (obj : List (Str × V)) (key : Str) (value : V) : List (Str × V) :=
  match obj with
  | [] => [(key, value)]
  | (k, v) :: rest => if k = key then (k, value) :: rest else (k, v) :: setProp rest key value

/-! ## Dialogue state -/

/-- A value of `userStates`: the `state` tag with the fields stored beside it. -/
inductive UserState where
  | waiting_amount (cryptoType type : Str)
  | waiting_amount_sell (cryptoType type : Str)
  | waiting_proof (cryptoType type : Str) (amount : JSNum) (rate : Option JSNum)
      (fiatAmount : JSNum)
  | waiting_tx_sell (cryptoType type : Str) (amount : JSNum)
  | waiting_gift_details (giftType : Str)
  | waiting_gift_upload (giftType : Str) (cardValue : JSNum) (country : Str) (payout : JSNum)
  | waiting_payment_details (txId : Str)
  deriving DecidableEq, Repr

/-- A value of `adminStates`. -/
inductive AdminState where
  | setting_crypto_rates (step : Str) (rates : List (Str × JSNum))
  | setting_gift_rates (step : Str) (rates : List (Str × JSNum))
  | updating_wallets (step : Str) (wallets : List (Str × Str))
  | waiting_reject_reason (txId : Str)
  deriving DecidableEq, Repr

/-- The whole state of the bot: the three maps and `globalSettings` held in
memory, and the durable store (users, transactions, the Settings document). -/
structure BotState where
  userMessageCounts : JSMap RateEntry
  userStates : JSMap UserState
  adminStates : JSMap AdminState
  globalSettings : Settings
  users : List User
  transactions : List Transaction
  settings : Option SettingsDoc

/-- Operator configuration: the entries of `process.env.ADMIN_IDS.split(',')`. -/
structure Config where
  adminIds : List Str

/-- `userStates.delete(chatId)`. -/
def clearUser (s : BotState) (chatId : Key) : BotState :=
  { s with userStates := s.userStates.delete chatId }

/-- `userStates.set(chatId, st)`. -/
def setUser (s : BotState) (chatId : Key) (st : UserState) : BotState :=
  { s with userStates := s.userStates.set chatId st }

/-- `adminStates.delete(chatId)`. -/
def clearAdmin (s : BotState) (chatId : Key) : BotState :=
  { s with adminStates := s.adminStates.delete chatId }

/-- `adminStates.set(chatId, st)`. -/
def setAdmin (s : BotState) (chatId : Key) (st : AdminState) : BotState :=
  { s with adminStates := s.adminStates.set chatId st }

/-! ## Message listeners, in registration order -/

/-- Body of the first listener once the state is `waiting_amount` or
`waiting_amount_sell` and the message has a text (index.js 471-540). -/
def amountInput (s : BotState) (chatId : Key) (cryptoType type text : Str) : BotState :=
  if toLowerCase text = "cancel".toList then clearUser s chatId
  else
    let sanitizedText := sanitizeText (some text)
    let amount := parseFloat sanitizedText
    if validateAmount sanitizedText = false then s
    else if type = "sell".toList then
      match truthy (s.globalSettings.wallets.lookup cryptoType) with
      | none => clearUser s chatId
      | some _ => setUser s chatId (UserState.waiting_tx_sell cryptoType type amount)
    else
      let rate := s.globalSettings.cryptoRates.lookup cryptoType
      let fiatAmount := mulUndef amount rate
      setUser s chatId (UserState.waiting_proof cryptoType type amount rate fiatAmount)

/-- First listener (index.js 460-542): the rate-limit gate, then the amount
step of the buy and sell dialogues. -/
def onAmountMessage (now : Nat) (s : BotState) (msg : Message) : BotState :=
  let chatId := Key.num msg.chatId
  let r := checkRateLimit s.userMessageCounts chatId now
  let s1 : BotState := { s with userMessageCounts := r.2 }
  if r.1 = false then s1
  else
    match s1.userStates chatId, truthy msg.text with
    | some (UserState.waiting_amount cryptoType type), some text =>
      amountInput s1 chatId cryptoType type text
    | some (UserState.waiting_amount_sell cryptoType type), some text =>
      amountInput s1 chatId cryptoType type text
    | _, _ => s1

/-- The `try` block shared by the three submitting listeners (index.js 577-628,
675-750, 867-946): look the user up, refuse a duplicate, else save the new
document; the session entry is removed on every path. -/
def submit (s : BotState) (chatId : Key) (chat : Int) (type : Str)
    (doc : Nat → Transaction) : BotState :=
  match findUser s.users (idToString chat) with
  | none => clearUser s chatId
  | some user =>
    match findPending s.transactions user type with
    | some _ => clearUser s chatId
    | none =>
      match createTransaction s.transactions (doc user) with
      | none => clearUser s chatId
      | some txs => clearUser { s with transactions := txs } chatId

/-- Second listener (index.js 545-630): payment proof of a buy. -/
def onProofMessage (s : BotState) (msg : Message) : BotState :=
  let chatId := Key.num msg.chatId
  match s.userStates chatId with
  | some (UserState.waiting_proof cryptoType type amount rate fiatAmount) =>
    if isCancel msg.text then clearUser s chatId
    else
      let fileId := uploadFileId msg
      match validateFileUpload msg with
      | some true =>
        submit s chatId msg.chatId type (fun user =>
          { user := user, type := type, cryptoType := cryptoType, amount := amount,
            rate := rate, fiatAmount := fiatAmount, status := Status.PENDING,
            paymentProof := fileId, txHash := none, screenshot := none, giftType := none,
            cardValue := none, country := none, cardImage := none, cardCode := none,
            paymentDetails := none, rejectReason := none })
      | _ => s
  | _ => s

/-- The evidence a message carries in `waiting_tx_sell` and
`waiting_gift_upload` (index.js 653-668, 845-860): the sanitized text when
there is a text that does not start with `/`, else the file id of a valid
upload.  The outer `none` is the early return on an invalid upload. -/
def evidence (msg : Message) : Option (Option Str × Option Str) :=
  match truthy msg.text with
  | some text =>
    if startsWith text "/".toList then
      (if msg.photo.isSome ∨ msg.document.isSome then
        match validateFileUpload msg with
        | some true => some (none, uploadFileId msg)
        | _ => none
      else some (none, none))
    else some (some (sanitizeText (some text)), none)
  | none =>
    if msg.photo.isSome ∨ msg.document.isSome then
      match validateFileUpload msg with
      | some true => some (none, uploadFileId msg)
      | _ => none
    else some (none, none)

/-- Third listener (index.js 633-752): transaction hash or screenshot of a
sell. -/
def onSellMessage (s : BotState) (msg : Message) : BotState :=
  let chatId := Key.num msg.chatId
  match s.userStates chatId with
  | some (UserState.waiting_tx_sell cryptoType type amount) =>
    if isCancel msg.text then clearUser s chatId
    else
      match evidence msg with
      | none => s
      | some (txHash, screenshot) =>
        if (truthy txHash).isNone ∧ (truthy screenshot).isNone then s
        else
          submit s chatId msg.chatId type (fun user =>
            { user := user, type := type, cryptoType := cryptoType, amount := amount,
              rate := some (JSNum.ofNat 0), fiatAmount := JSNum.ofNat 0,
              status := Status.PENDING, paymentProof := none, txHash := txHash,
              screenshot := screenshot, giftType := none, cardValue := none, country := none,
              cardImage := none, cardCode := none, paymentDetails := none,
              rejectReason := none })
  | _ => s

/-- First match of `/(\d+(?:\.\d+)?)/` in a text: the text before the match,
the match, and the text after it. -/
def numberMatch (text : Str) : Option (Str × Str × Str) :=
  let before := text.takeWhile (fun c => !isDigit c)
  let rest := text.dropWhile (fun c => !isDigit c)
  if rest = [] then none
  else
    let ip := rest.takeWhile isDigit
    let r1 := rest.dropWhile isDigit
    if r1.head? = some '.' ∧ r1.tail.head?.map isDigit = some true then
      some (before, ip ++ '.' :: r1.tail.takeWhile isDigit, r1.tail.dropWhile isDigit)
    else some (before, ip, r1)

/-- Fourth listener (index.js 755-822): value and country of a gift card.
`validateAmount(value.toString())` is the range test on `value`, since the
decimal text of a number parses back to it; `text.replace(numberMatch[0], '')`
removes the match itself, the first place where its text occurs. -/
def onGiftDetailsMessage (s : BotState) (msg : Message) : BotState :=
  let chatId := Key.num msg.chatId
  match s.userStates chatId, truthy msg.text with
  | some (UserState.waiting_gift_details giftType), some msgText =>
    if toLowerCase msgText = "cancel".toList then clearUser s chatId
    else
      let text := trim msgText
      match numberMatch text with
      | none => s
      | some (before, m, after) =>
        let value := parseFloat m
        if amountInRange value = false then s
        else
          let currencyPart := toUpperCase (trim (before ++ after))
          if currencyPart = [] then s
          else
            let rate := s.globalSettings.giftCardRates.lookup giftType
            let payout := mulUndef value rate
            setUser s chatId (UserState.waiting_gift_upload giftType value currencyPart payout)
  | _, _ => s

/-- Fifth listener (index.js 825-948): image or code of a gift card. -/
def onGiftUploadMessage (s : BotState) (msg : Message) : BotState :=
  let chatId := Key.num msg.chatId
  match s.userStates chatId with
  | some (UserState.waiting_gift_upload giftType cardValue country payout) =>
    if isCancel msg.text then clearUser s chatId
    else
      match evidence msg with
      | none => s
      | some (cardCode, cardImage) =>
        if (truthy cardCode).isNone ∧ (truthy cardImage).isNone then s
        else
          submit s chatId msg.chatId "sell_gift_card".toList (fun user =>
            { user := user, type := "sell_gift_card".toList, cryptoType := [],
              amount := JSNum.ofNat 0,
              rate := s.globalSettings.giftCardRates.lookup giftType,
              fiatAmount := payout, status := Status.PENDING, paymentProof := none,
              txHash := none, screenshot := none, giftType := some giftType,
              cardValue := some cardValue, country := some country, cardImage := cardImage,
              cardCode := cardCode, paymentDetails := none, rejectReason := none })
  | _ => s

/-- `Array.prototype.indexOf`, counting from `i`: `-1` when absent. -/
def indexOfFrom (x : Str) : List Str → Int → Int
  | [], _ => -1
  | y :: ys, i => if y = x then i else indexOfFrom x ys (i + 1)

/-- `giftTypes` (index.js 999). -/
def giftTypes : List Str :=
  ["amazon".toList, "apple".toList, "google_play".toList, "steam".toList]

/-- `displayNames` (index.js 1001). -/
def displayNames : List (Str × Str) :=
  [("amazon".toList, "Amazon".toList), ("apple".toList, "Apple".toList),
   ("google_play".toList, "Google Play".toList), ("steam".toList, "Steam".toList)]

/-- `Settings.findOneAndUpdate({}, update, { upsert: true })`: the update is
applied to the stored document, or to the schema defaults when there is none. -/
def updateSettingsDoc (doc : Option SettingsDoc) (update : SettingsDoc → SettingsDoc) :
    Option SettingsDoc :=
  match doc with
  | some d => some (update d)
  | none => some (update defaultSettingsDoc)

/-- Step of the crypto-rate wizard (index.js 956-991). -/
def cryptoRatesInput (s : BotState) (chatId : Key) (chat : Int) (step : Str)
    (rates : List (Str × JSNum)) (text : Str) : BotState :=
  let rate := parseFloat (trim text)
  if rate.isNaN ∨ JSNum.le rate (JSNum.ofNat 0) = true then s
  else
    let rates1 := setProp rates (toUpperCase step) rate
    if step = "btc".toList then
      setAdmin s chatId (AdminState.setting_crypto_rates "eth".toList rates1)
    else if step = "eth".toList then
      setAdmin s chatId (AdminState.setting_crypto_rates "usdt".toList rates1)
    else if step = "usdt".toList then
      clearAdmin
        { s with
          settings := updateSettingsDoc s.settings (fun d =>
            { d with cryptoRates := rates1, updatedBy := some (idToString chat) }),
          globalSettings := { s.globalSettings with cryptoRates := rates1 } }
        chatId
    else setAdmin s chatId (AdminState.setting_crypto_rates step rates1)

/-- Step of the gift-card-rate wizard (index.js 992-1028). -/
def giftRatesInput (s : BotState) (chatId : Key) (chat : Int) (step : Str)
    (rates : List (Str × JSNum)) (text : Str) : BotState :=
  let rate := parseFloat (trim text)
  if rate.isNaN ∨ JSNum.le rate (JSNum.ofNat 0) = true ∨ JSNum.lt (JSNum.ofNat 1) rate = true
  then s
  else
    let currentIndex := indexOfFrom step giftTypes 0
    let name : Str :=
      match displayNames.lookup step with
      | some n => n
      | none => "undefined".toList
    let rates1 := setProp rates name rate
    if currentIndex < (giftTypes.length : Int) - 1 then
      let next : Str :=
        match giftTypes[(currentIndex + 1).toNat]? with
        | some n => n
        | none => step
      setAdmin s chatId (AdminState.setting_gift_rates next rates1)
    else
      clearAdmin
        { s with
          settings := updateSettingsDoc s.settings (fun d =>
            { d with giftCardRates := rates1, updatedBy := some (idToString chat) }),
          globalSettings := { s.globalSettings with giftCardRates := rates1 } }
        chatId

/-- Step of the wallet wizard (index.js 1029-1064). -/
def walletsInput (s : BotState) (chatId : Key) (chat : Int) (step : Str)
    (wallets : List (Str × Str)) (text : Str) : BotState :=
  let address := trim text
  if address = [] then s
  else
    let wallets1 := setProp wallets (toUpperCase step) address
    if step = "btc".toList then
      setAdmin s chatId (AdminState.updating_wallets "eth".toList wallets1)
    else if step = "eth".toList then
      setAdmin s chatId (AdminState.updating_wallets "usdt".toList wallets1)
    else if step = "usdt".toList then
      clearAdmin
        { s with
          settings := updateSettingsDoc s.settings (fun d =>
            { d with wallets := wallets1, updatedBy := some (idToString chat) }),
          globalSettings := { s.globalSettings with wallets := wallets1 } }
        chatId
    else setAdmin s chatId (AdminState.updating_wallets step wallets1)

/-- Sixth listener (index.js 951-1067): the three configuration wizards. -/
def onAdminSettingsMessage (s : BotState) (msg : Message) : BotState :=
  let chatId := Key.num msg.chatId
  match s.adminStates chatId, truthy msg.text with
  | some (AdminState.setting_crypto_rates step rates), some text =>
    cryptoRatesInput s chatId msg.chatId step rates text
  | some (AdminState.setting_gift_rates step rates), some text =>
    giftRatesInput s chatId msg.chatId step rates text
  | some (AdminState.updating_wallets step wallets), some text =>
    walletsInput s chatId msg.chatId step wallets text
  | _, _ => s

/-- Seventh listener (index.js 1070-1103): payment details of an approved
transaction. -/
def onPaymentDetailsMessage (s : BotState) (msg : Message) : BotState :=
  let chatId := Key.num msg.chatId
  match s.userStates chatId, truthy msg.text with
  | some (UserState.waiting_payment_details txId), some text =>
    match findById s.transactions txId with
    | none => clearUser s chatId
    | some (i, transaction) =>
      match saveTransaction s.transactions i
          { transaction with paymentDetails := some (trim text),
                             status := Status.COMPLETED } with
      | none => clearUser s chatId
      | some txs => clearUser { s with transactions := txs } chatId
  | _, _ => s

/-- Eighth listener (index.js 1106-1136): the reason of a rejection. -/
def onRejectReasonMessage (s : BotState) (msg : Message) : BotState :=
  let chatId := Key.num msg.chatId
  match s.adminStates chatId, truthy msg.text with
  | some (AdminState.waiting_reject_reason txId), some text =>
    match findById s.transactions txId with
    | none => clearAdmin s chatId
    | some (i, transaction) =>
      match saveTransaction s.transactions i
          { transaction with rejectReason := some (trim text),
                             status := Status.REJECTED } with
      | none => clearAdmin s chatId
      | some txs => clearAdmin { s with transactions := txs } chatId
  | _, _ => s

/-- Whether `p` occurs in the text: the search of a literal regular
expression. -/
def containsSub (p : Str) : Str → Bool
  | [] => p.isPrefixOf []
  | c :: cs => p.isPrefixOf (c :: cs) || containsSub p cs

/-- `User.findOneAndUpdate({ telegramId }, { username }, { upsert: true })`. -/
def upsertUser (users : List User) (telegramId username : Str) : List User :=
  match findUser users telegramId with
  | some i => users.set i { telegramId := telegramId, username := username }
  | none => users ++ [{ telegramId := telegramId, username := username }]

/-- The `/start` command (index.js 195-224), which the library runs after the
message listeners. -/
def onStart (s : BotState) (msg : Message) : BotState :=
  match msg.text with
  | some text =>
    if containsSub "/start".toList text then
      { s with users := upsertUser s.users (idToString msg.chatId) msg.username }
    else s
  | none => s

/-- One inbound message at time `now`: every listener in registration order,
then the text commands. -/
def onMessage (now : Nat) (s : BotState) (msg : Message) : BotState :=
  let s1 := onAmountMessage now s msg
  let s2 := onProofMessage s1 msg
  let s3 := onSellMessage s2 msg
  let s4 := onGiftDetailsMessage s3 msg
  let s5 := onGiftUploadMessage s4 msg
  let s6 := onAdminSettingsMessage s5 msg
  let s7 := onPaymentDetailsMessage s6 msg
  let s8 := onRejectReasonMessage s7 msg
  onStart s8 msg

/-! ## Button presses -/

/-- A menu entry that only sends a message. -/
def showMenu (s : BotState) (_q : CallbackQuery) : BotState := s

/-- A menu entry that opens a user dialogue at `query.message.chat.id`. -/
def openDialogue (st : UserState) (s : BotState) (q : CallbackQuery) : BotState :=
  setUser s (Key.num q.chatId) st

/-- A menu entry that opens a configuration wizard at `query.message.chat.id`. -/
def openWizard (st : AdminState) (s : BotState) (q : CallbackQuery) : BotState :=
  setAdmin s (Key.num q.chatId) st

/-- The `handlers` table (index.js 227-409). -/
def handlers : List (Str × (BotState → CallbackQuery → BotState)) :=
  [("buy_crypto".toList, showMenu),
   ("sell_crypto".toList, showMenu),
   ("sell_gift_cards".toList, showMenu),
   ("help".toList, showMenu),
   ("main_menu".toList, showMenu),
   ("transaction_history".toList, showMenu),
   ("admin_panel".toList, showMenu),
   ("set_crypto_rates".toList,
     openWizard (AdminState.setting_crypto_rates "btc".toList [])),
   ("set_gift_card_rates".toList,
     openWizard (AdminState.setting_gift_rates "amazon".toList [])),
   ("update_wallets".toList,
     openWizard (AdminState.updating_wallets "btc".toList [])),
   ("buy_btc".toList,
     openDialogue (UserState.waiting_amount "BTC".toList "buy".toList)),
   ("buy_eth".toList,
     openDialogue (UserState.waiting_amount "ETH".toList "buy".toList)),
   ("buy_usdt".toList,
     openDialogue (UserState.waiting_amount "USDT".toList "buy".toList)),
   ("sell_btc".toList,
     openDialogue (UserState.waiting_amount_sell "BTC".toList "sell".toList)),
   ("sell_eth".toList,
     openDialogue (UserState.waiting_amount_sell "ETH".toList "sell".toList)),
   ("sell_usdt".toList,
     openDialogue (UserState.waiting_amount_sell "USDT".toList "sell".toList)),
   ("sell_amazon".toList,
     openDialogue (UserState.waiting_gift_details "Amazon".toList)),
   ("sell_apple".toList,
     openDialogue (UserState.waiting_gift_details "Apple".toList)),
   ("sell_google".toList,
     openDialogue (UserState.waiting_gift_details "Google Play".toList)),
   ("sell_steam".toList,
     openDialogue (UserState.waiting_gift_details "Steam".toList))]

/-- `action.split('_')[1]` for an action that contains an underscore. -/
def secondSegment (action : Str) : Str :=
  ((action.dropWhile (fun c => c ≠ '_')).tail).takeWhile (fun c => c ≠ '_')

/-- The `approve_` branch (index.js 423-440).  The dialogue entry is stored
under `transaction.user.telegramId`, a string. -/
def approve (s : BotState) (txId : Str) : BotState :=
  match findById s.transactions txId with
  | none => s
  | some (_, transaction) =>
    if transaction.status ≠ Status.PENDING then s
    else
      match s.users[transaction.user]? with
      | none => s
      | some user =>
        setUser s (Key.str user.telegramId) (UserState.waiting_payment_details txId)

/-- The `callback_query` listener (index.js 412-457). -/
def onCallbackQuery (cfg : Config) (s : BotState) (q : CallbackQuery) : BotState :=
  let action := q.data
  let isAdmin : Bool := decide (idToString q.fromId ∈ cfg.adminIds)
  match handlers.lookup action with
  | some handler => handler s q
  | none =>
    if startsWith action "approve_".toList && isAdmin then
      approve s (secondSegment action)
    else if startsWith action "reject_".toList && isAdmin then
      setAdmin s (Key.num q.fromId) (AdminState.waiting_reject_reason (secondSegment action))
    else s

/-! ## Runs -/

/-- An inbound event: a message with the clock reading at its arrival, or a
button press. -/
inductive Event where
  | message (now : Nat) (msg : Message)
  | callbackQuery (q : CallbackQuery)

/-- Handling of one event. -/
def onEvent (cfg : Config) (s : BotState) : Event → BotState
  | Event.message now msg => onMessage now s msg
  | Event.callbackQuery q => onCallbackQuery cfg s q

/-- Handling of a sequence of events, each fully handled before the next. -/
def run (cfg : Config) (s : BotState) (events : List Event) : BotState :=
  events.foldl (onEvent cfg) s

/-- The state after boot on an empty store: `globalSettings` as written in
index.js 9-13 with the three wallet addresses of the environment, and the
Settings document that `loadSettings` creates from it. -/
def bootState (walletBTC walletETH walletUSDT : Str) : BotState :=
  { userMessageCounts := JSMap.empty,
    userStates := JSMap.empty,
    adminStates := JSMap.empty,
    globalSettings :=
      { cryptoRates := defaultSettingsDoc.cryptoRates,
        giftCardRates := defaultSettingsDoc.giftCardRates,
        wallets := [("BTC".toList, walletBTC), ("ETH".toList, walletETH),
          ("USDT".toList, walletUSDT)] },
    users := [],
    transactions := [],
    settings := some
      { cryptoRates := defaultSettingsDoc.cryptoRates,
        giftCardRates := defaultSettingsDoc.giftCardRates,
        wallets := [("BTC".toList, walletBTC), ("ETH".toList, walletETH),
          ("USDT".toList, walletUSDT)],
        updatedBy := none } }

/-- Number of stored transactions of a user and type that are PENDING. -/
def pendingCount (txs : List Transaction) (user : Nat) (type : Str) : Nat :=
  txs.countP (fun tx => decide (tx.user = user ∧ tx.type = type ∧ tx.status = Status.PENDING))

/-- A text message. -/
def textMessage (chat : Int) (text : Str) : Message :=
  { chatId := chat, username := "user".toList, text := some text, photo := none,
    document := none }

/-- A photo message with one size. -/
def photoMessage (chat : Int) (fileId : Str) (size : Nat) : Message :=
  { chatId := chat, username := "user".toList, text := none,
    photo := some [{ file_id := fileId, file_size := some size }], document := none }

/-- A button press in a private chat. -/
def press (chat : Int) (data : Str) : CallbackQuery :=
  { fromId := chat, chatId := chat, data := data }

/-! ## Decimal texts -/

/-- The code unit of a decimal digit. -/
def digitChar (d : Fin 10) : Char := Char.ofNat (48 + d.val)

/-- The number written by a list of decimal digits. -/
def digitsNat (ds : List (Fin 10)) : Nat := ds.foldl (fun acc d => acc * 10 + d.val) 0

/-- The decimal text of an amount: an optional minus sign, the integer digits
`d0 :: ip`, and, when `fp` is not empty, a point and the fraction digits. -/
def decimalText (neg : Bool) (d0 : Fin 10) (ip fp : List (Fin 10)) : Str :=
  (if neg then ['-'] else []) ++ ((d0 :: ip).map digitChar ++
    (if fp = [] then [] else '.' :: fp.map digitChar))

/-- The amount that `decimalText` writes. -/
def decimalValue (neg : Bool) (d0 : Fin 10) (ip fp : List (Fin 10)) : ℚ :=
  (if neg then -1 else 1) *
    ((digitsNat (d0 :: ip) : ℚ) + (digitsNat fp : ℚ) / (10 : ℚ) ^ fp.length)

/-! ## Concrete scenarios -/

/-- A configuration with one admin, whose chat id is `1`. -/
def demoConfig : Config := { adminIds := ["1".toList] }

/-- Boot on an empty store with a BTC wallet configured. -/
def demoBoot : BotState := bootState "bc1qwallet".toList [] []

/-- User `42` registers, chooses to sell BTC and enters the amount `0.5`. -/
def sellEvents : List Event :=
  [Event.message 0 (textMessage 42 "/start".toList),
   Event.callbackQuery (press 42 "sell_btc".toList),
   Event.message 1000 (textMessage 42 "0.5".toList)]

/-- User `42` registers, chooses to buy BTC, enters the amount `0.5` and then
sends eight more texts within the same minute. -/
def busyBuyEvents : List Event :=
  [Event.message 0 (textMessage 42 "/start".toList),
   Event.callbackQuery (press 42 "buy_btc".toList),
   Event.message 1 (textMessage 42 "0.5".toList),
   Event.message 2 (textMessage 42 "hello".toList),
   Event.message 3 (textMessage 42 "hello".toList),
   Event.message 4 (textMessage 42 "hello".toList),
   Event.message 5 (textMessage 42 "hello".toList),
   Event.message 6 (textMessage 42 "hello".toList),
   Event.message 7 (textMessage 42 "hello".toList),
   Event.message 8 (textMessage 42 "hello".toList),
   Event.message 9 (textMessage 42 "hello".toList)]

/-- A stored sell transaction of user `0` with the given status. -/
def storedSell (status : Status) : Transaction :=
  { user := 0, type := "sell".toList, cryptoType := "BTC".toList, amount := JSNum.fin 5 1,
    rate := some (JSNum.ofNat 0), fiatAmount := JSNum.ofNat 0, status := status,
    paymentProof := none, txHash := some "abc".toList, screenshot := none, giftType := none,
    cardValue := none, country := none, cardImage := none, cardCode := none,
    paymentDetails := none, rejectReason := none }

/-! ## The pending-transaction invariant -/

/-- At most one PENDING transaction for every user and type. -/
def PendingUnique (txs : List Transaction) : Prop :=
  ∀ (user : Nat) (type : Str), pendingCount txs user type ≤ 1

/-- The transaction type that a completed dialogue submits from a session
state: `userState.type` in `waiting_proof` and `waiting_tx_sell`
(index.js 589, 687), the literal `sell_gift_card` in `waiting_gift_upload`
(index.js 879); no other state submits. -/
def submissionType : UserState → Option Str
  | UserState.waiting_proof _ type _ _ _ => some type
  | UserState.waiting_tx_sell _ type _ => some type
  | UserState.waiting_gift_upload _ _ _ _ => some "sell_gift_card".toList
  | _ => none

/-- User `42` registers, buys BTC (amount `0.5`, then a photo as proof), and
starts a second purchase with the amount `0.7`. -/
def buyTwiceEvents : List Event :=
  [Event.message 0 (textMessage 42 "/start".toList),
   Event.callbackQuery (press 42 "buy_btc".toList),
   Event.message 1000 (textMessage 42 "0.5".toList),
   Event.message 2000 (photoMessage 42 "file1".toList 2048),
   Event.callbackQuery (press 42 "buy_btc".toList),
   Event.message 3000 (textMessage 42 "0.7".toList)]

/-- The session states whose listener tests for `cancel` before anything else
(index.js 471, 550, 638, 760, 830); the `waiting_payment_details` listener has
no such test. -/
def cancellable : UserState → Bool
  | UserState.waiting_payment_details _ => false
  | _ => true

/-- The session states handled by the first listener, behind the rate-limit
gate (index.js 464-470). -/
def behindRateLimit : UserState → Bool
  | UserState.waiting_amount _ _ => true
  | UserState.waiting_amount_sell _ _ => true
  | _ => false

/-- Chat `42` chooses to buy BTC and then sends ten texts that are no amount
within the same minute. -/
def busyAmountEvents : List Event :=
  [Event.callbackQuery (press 42 "buy_btc".toList),
   Event.message 0 (textMessage 42 "abc".toList),
   Event.message 1 (textMessage 42 "abc".toList),
   Event.message 2 (textMessage 42 "abc".toList),
   Event.message 3 (textMessage 42 "abc".toList),
   Event.message 4 (textMessage 42 "abc".toList),
   Event.message 5 (textMessage 42 "abc".toList),
   Event.message 6 (textMessage 42 "abc".toList),
   Event.message 7 (textMessage 42 "abc".toList),
   Event.message 8 (textMessage 42 "abc".toList),
   Event.message 9 (textMessage 42 "abc".toList)]

/-! ## Markup in a text -/

/-- A text holds markup when some `<` is followed, anywhere later, by a `>`. -/
def hasMarkup : Str → Bool
  | [] => false
  | c :: cs => (decide (c = '<') && decide ('>' ∈ cs)) || hasMarkup cs

/-- User `42` registers and sends nine more texts within the same minute, ten
messages in all. -/
def tenTextEvents : List Event :=
  [Event.message 0 (textMessage 42 "/start".toList),
   Event.message 1 (textMessage 42 "hello".toList),
   Event.message 2 (textMessage 42 "hello".toList),
   Event.message 3 (textMessage 42 "hello".toList),
   Event.message 4 (textMessage 42 "hello".toList),
   Event.message 5 (textMessage 42 "hello".toList),
   Event.message 6 (textMessage 42 "hello".toList),
   Event.message 7 (textMessage 42 "hello".toList),
   Event.message 8 (textMessage 42 "hello".toList),
   Event.message 9 (textMessage 42 "hello".toList)]

/-- The buy sequence of chat `42`: the button `buy_btc`, the text `0.5` at
time `t1`, a photo of 2048 bytes at time `t2`. -/
def buyBtcEvents (t1 t2 : Nat) : List Event :=
  [Event.callbackQuery (press 42 "buy_btc".toList),
   Event.message t1 (textMessage 42 "0.5".toList),
   Event.message t2 (photoMessage 42 "file1".toList 2048)]

/-- The state after boot and the registration of user `42`. -/
def registeredBoot : BotState :=
  run demoConfig demoBoot [Event.message 0 (textMessage 42 "/start".toList)]

/-- A stored record at position `i` that belongs to `user` and passes the
schema. -/
def KeepsRecord (i user : Nat) (txs : List Transaction) : Prop :=
  ∃ tx, txs[i]? = some tx ∧ tx.user = user ∧ validateTransaction tx = true

/-! ## Outbound messages of a rejection -/

/-- A message the bot sends: `bot.sendMessage(chatId, text)`. -/
structure Outbound where
  chatId : Key
  text : Str
  deriving DecidableEq, Repr

/-- The text of `${transaction._id}`: the position in the store, in decimal. -/
def objectIdText (i : Nat) : Str := (toString i).toList

/-- The messages that the eighth listener sends (index.js 1106-1136); its
writes are `onRejectReasonMessage`.  An ill-formed id, a failing `save()` and
a user reference that `populate` leaves `null` all end in the `catch` block. -/
def rejectReasonReplies (s : BotState) (msg : Message) : List Outbound :=
  let chatId := Key.num msg.chatId
  match s.adminStates chatId, truthy msg.text with
  | some (AdminState.waiting_reject_reason txId), some text =>
    match parseObjectId txId with
    | none => [{ chatId := chatId, text := "An error occurred.".toList }]
    | some _ =>
      match findById s.transactions txId with
      | none => [{ chatId := chatId, text := "Transaction not found.".toList }]
      | some (i, transaction) =>
        match saveTransaction s.transactions i
            { transaction with rejectReason := some (trim text),
                               status := Status.REJECTED } with
        | none => [{ chatId := chatId, text := "An error occurred.".toList }]
        | some _ =>
          match s.users[transaction.user]? with
          | none => [{ chatId := chatId, text := "An error occurred.".toList }]
          | some user =>
            [{ chatId := Key.str user.telegramId,
               text := "❌ Your transaction has been rejected.\n\nTransaction ID: ".toList ++
                 objectIdText i ++ "\nReason: ".toList ++ trim text ++
                 "\n\nPlease contact support for more information.".toList },
             { chatId := chatId,
               text := "Transaction ".toList ++ objectIdText i ++
                 " rejected and user notified.".toList }]
  | _, _ => []

/-- The state in which the eighth listener finds the stores when a message
arrives: the first seven listeners have run. -/
def beforeRejectReason (now : Nat) (s : BotState) (msg : Message) : BotState :=
  onPaymentDetailsMessage (onAdminSettingsMessage (onGiftUploadMessage (onGiftDetailsMessage
    (onSellMessage (onProofMessage (onAmountMessage now s msg) msg) msg) msg) msg) msg) msg

/-- Admin `1` presses Reject on the transaction with id `0` and sends the
reason `invalid proof`. -/
def rejectEvents : List Event :=
  [Event.callbackQuery (press 1 "reject_0".toList),
   Event.message 5000 (textMessage 1 "invalid proof".toList)]

/-- The state after user `42` has registered and completed a purchase of
`0.5` BTC: one PENDING buy record, with id `0`. -/
def pendingBuyState : BotState := run demoConfig registeredBoot (buyBtcEvents 1000 2000)

/-- The record that `pendingBuyState` holds at id `0`. -/
def pendingBuy : Transaction :=
  { user := 0, type := "buy".toList, cryptoType := "BTC".toList, amount := JSNum.fin 5 1,
    rate := some (JSNum.fin 50000 0), fiatAmount := JSNum.mul (JSNum.fin 5 1) (JSNum.fin 50000 0),
    status := Status.PENDING, paymentProof := some "file1".toList, txHash := none,
    screenshot := none, giftType := none, cardValue := none, country := none,
    cardImage := none, cardCode := none, paymentDetails := none, rejectReason := none }

/-- Admin `1` opens the crypto-rate wizard and enters `60000`, `3500` and
`1.01`. -/
def wizardEvents : List Event :=
  [Event.callbackQuery (press 1 "set_crypto_rates".toList),
   Event.message 1000 (textMessage 1 "60000".toList),
   Event.message 2000 (textMessage 1 "3500".toList),
   Event.message 3000 (textMessage 1 "1.01".toList)]

/-! ## Transaction history -/

/-- `ITEMS_PER_PAGE` (index.js 111). -/
def ITEMS_PER_PAGE : Nat := 5

/-- `Transaction.find({ user }).sort({ createdAt: -1 })`: the documents of the
user with their `_id`, newest first.  Documents are stored in the order of
their creation, so the newest is the last one of the store. -/
def userHistory (txs : List Transaction) (user : Nat) : List (Nat × Transaction) :=
  (txs.enum.filter (fun p => decide (p.2.user = user))).reverse

/-- What `showTransactionHistory` sends. -/
inductive HistoryReply where
  | userNotFound
  | failed
  | noTransactions
  | page (entries : List (Nat × Nat × Transaction)) (previous next : Option Nat)
  deriving DecidableEq, Repr

/-- `showTransactionHistory` (index.js 110-191).  An entry of a page is
`txNumber`, the `_id` and the document, from which the text of the entry is
written; `previous` and `next` are the page numbers in the callback data
`history_page_…` of the two navigation buttons, where offered.  A `page` of
`0` makes `skip` negative, which the store refuses; no caller passes it
(index.js 313, 447-449). -/
def showTransactionHistory (users : List User) (txs : List Transaction) (chatId : Int)
    (page : Nat) : HistoryReply :=
  match findUser users (idToString chatId) with
  | none => HistoryReply.userNotFound
  | some user =>
    if page = 0 then HistoryReply.failed
    else
      let skip := (page - 1) * ITEMS_PER_PAGE
      let totalTransactions := (userHistory txs user).length
      let transactions := ((userHistory txs user).drop skip).take ITEMS_PER_PAGE
      if transactions.length = 0 then HistoryReply.noTransactions
      else
        let entries := transactions.enum.map (fun e => (skip + e.1 + 1, e.2.1, e.2.2))
        let totalPages := (totalTransactions + ITEMS_PER_PAGE - 1) / ITEMS_PER_PAGE
        HistoryReply.page entries
          (if page > 1 then some (page - 1) else none)
          (if page < totalPages then some (page + 1) else none)

/-- Seven stored records of user `0`, which differ in their amounts. -/
def sevenRecords : List Transaction :=
  (List.range 7).map (fun n => { storedSell Status.COMPLETED with amount := JSNum.ofNat (n + 1) })

/-! ## Interleaving of two submissions -/

/-- Where a submitting listener stands in its `try` block (index.js 675-750):
before `User.findOne`, before `Transaction.findOne`, before `save()`, or
finished.  Each of the three calls is awaited, and an `await` lets the other
pending handlers run. -/
inductive SubmitStage where
  | lookup
  | check (user : Nat)
  | insert (user : Nat)
  | finished
  deriving DecidableEq, Repr

/-- A submission in progress: the values its closure holds (the chat, the
type of the session state, the document to build) and its stage. -/
structure Submission where
  chat : Int
  type : Str
  doc : Nat → Transaction
  stage : SubmitStage

/-- The next store call of a submission with what follows it up to the next
`await`: the branches are those of `submit`. -/
def Submission.advance (s : BotState) (h : Submission) : BotState × Submission :=
  match h.stage with
  | SubmitStage.lookup =>
    match findUser s.users (idToString h.chat) with
    | none => (clearUser s (Key.num h.chat), { h with stage := SubmitStage.finished })
    | some user => (s, { h with stage := SubmitStage.check user })
  | SubmitStage.check user =>
    match findPending s.transactions user h.type with
    | some _ => (clearUser s (Key.num h.chat), { h with stage := SubmitStage.finished })
    | none => (s, { h with stage := SubmitStage.insert user })
  | SubmitStage.insert user =>
    match createTransaction s.transactions (h.doc user) with
    | none => (clearUser s (Key.num h.chat), { h with stage := SubmitStage.finished })
    | some txs =>
      (clearUser { s with transactions := txs } (Key.num h.chat),
        { h with stage := SubmitStage.finished })
  | SubmitStage.finished => (s, h)

/-- Two submissions under a schedule: `false` lets the first one make its next
store call, `true` the second one. -/
def interleave (s : BotState) (a b : Submission) : List Bool → BotState × Submission × Submission
  | [] => (s, a, b)
  | false :: rest => interleave (a.advance s).1 (a.advance s).2 b rest
  | true :: rest => interleave (b.advance s).1 a (b.advance s).2 rest

/-- The submission that the third listener starts (index.js 675-710) from a
session in `waiting_tx_sell` and the evidence of a message. -/
def sellSubmission (chat : Int) (cryptoType type : Str) (amount : JSNum)
    (txHash screenshot : Option Str) : Submission :=
  { chat := chat, type := type,
    doc := fun user =>
      { user := user, type := type, cryptoType := cryptoType, amount := amount,
        rate := some (JSNum.ofNat 0), fiatAmount := JSNum.ofNat 0,
        status := Status.PENDING, paymentProof := none, txHash := txHash,
        screenshot := screenshot, giftType := none, cardValue := none, country := none,
        cardImage := none, cardCode := none, paymentDetails := none,
        rejectReason := none },
    stage := SubmitStage.lookup }

/-- User `42` is registered, has no transaction, and the session is in
`waiting_tx_sell` for `0.5` BTC. -/
def sellReadyState : BotState :=
  setUser registeredBoot (Key.num 42)
    (UserState.waiting_tx_sell "BTC".toList "sell".toList (JSNum.fin 5 1))

/-- User `42` registers, chooses to sell an Amazon gift card and sends the
details `50 USD`. -/
def giftEvents : List Event :=
  [Event.message 0 (textMessage 42 "/start".toList),
   Event.callbackQuery (press 42 "sell_amazon".toList),
   Event.message 1000 (textMessage 42 "50 USD".toList)]

/-! ## Evidence -/

/-- The evidence that a stored record carries, by its type: a buy record a
payment proof; a sell record a non-empty transaction hash or a screenshot,
not both; a gift-card record a non-empty card code or a card image, not
both. -/
def HasEvidence (tx : Transaction) : Prop :=
  (tx.type = "buy".toList → tx.paymentProof.isSome = true) ∧
  (tx.type = "sell".toList →
    ((truthy tx.txHash).isSome = true ∨ tx.screenshot.isSome = true) ∧
    ¬ ((truthy tx.txHash).isSome = true ∧ tx.screenshot.isSome = true)) ∧
  (tx.type = "sell_gift_card".toList →
    ((truthy tx.cardCode).isSome = true ∨ tx.cardImage.isSome = true) ∧
    ¬ ((truthy tx.cardCode).isSome = true ∧ tx.cardImage.isSome = true))

/-- The types with which the first listener enters the two states that submit
under `userState.type` (index.js 495-529): `waiting_tx_sell` only with the type
`sell`, `waiting_proof` only with another type. -/
def StateOk : UserState → Prop
  | UserState.waiting_proof _ type _ _ _ => type ≠ "sell".toList
  | UserState.waiting_tx_sell _ type _ => type = "sell".toList
  | _ => True

/-- Every session state is entered as the first listener enters it, and every
stored record carries its evidence. -/
def EvidenceInv (s : BotState) : Prop :=
  (∀ (k : Key) (st : UserState), s.userStates k = some st → StateOk st) ∧
  (∀ tx ∈ s.transactions, HasEvidence tx)

/-- A message that yields no evidence in a state that waits for some: no
valid upload in `waiting_proof` (index.js 571-575); in `waiting_tx_sell` and
`waiting_gift_upload` an invalid upload, or neither a non-empty text nor a
file (index.js 653-673, 845-865). -/
def yieldsNothing (st : UserState) (msg : Message) : Prop :=
  match st with
  | UserState.waiting_proof _ _ _ _ _ => validateFileUpload msg ≠ some true
  | UserState.waiting_tx_sell _ _ _ =>
    match evidence msg with
    | none => True
    | some (a, b) => (truthy a).isNone = true ∧ (truthy b).isNone = true
  | UserState.waiting_gift_upload _ _ _ _ =>
    match evidence msg with
    | none => True
    | some (a, b) => (truthy a).isNone = true ∧ (truthy b).isNone = true
  | _ => False

/-! ## Validation failures -/

/-- A message that fails the validation of the state it arrives in: in
`waiting_amount` and `waiting_amount_sell` a text that `validateAmount`
rejects (index.js 486-491); in `waiting_proof` a message that
`validateFileUpload` does not accept (index.js 572-575); in
`waiting_gift_details` a text with no number, with a number out of range, or
with nothing left beside the number (index.js 776-796). -/
def validationFails (st : UserState) (msg : Message) : Prop :=
  match st with
  | UserState.waiting_amount _ _ =>
    ∃ text, truthy msg.text = some text ∧ validateAmount (sanitizeText (some text)) = false
  | UserState.waiting_amount_sell _ _ =>
    ∃ text, truthy msg.text = some text ∧ validateAmount (sanitizeText (some text)) = false
  | UserState.waiting_proof _ _ _ _ _ => validateFileUpload msg ≠ some true
  | UserState.waiting_gift_details _ =>
    ∃ text, truthy msg.text = some text ∧
      (numberMatch (trim text) = none ∨
        ∃ before m after, numberMatch (trim text) = some (before, m, after) ∧
          (amountInRange (parseFloat m) = false ∨ toUpperCase (trim (before ++ after)) = []))
  | _ => False

/-! # Lemmas and theorems -/

set_option maxRecDepth 100000
set_option exponentiation.threshold 5000

/-! ## Maps -/

theorem JSMap.set_same {V : Type} (m : JSMap V) (k : Key) (v : V) : (m.set k v) k = some v := by
  simp [JSMap.set]

theorem JSMap.set_other {V : Type} (m : JSMap V) (k k1 : Key) (v : V) (h : k1 ≠ k) :
    (m.set k v) k1 = m k1 := by
  simp [JSMap.set, h]

theorem JSMap.delete_same {V : Type} (m : JSMap V) (k : Key) : (m.delete k) k = none := by
  simp [JSMap.delete]

theorem JSMap.delete_other {V : Type} (m : JSMap V) (k k1 : Key) (h : k1 ≠ k) :
    (m.delete k) k1 = m k1 := by
  simp [JSMap.delete, h]

/-! ## The rate limiter -/

theorem checkRateLimit_none (m : JSMap RateEntry) (c : Key) (t : Nat) (h : m c = none) :
    checkRateLimit m c t = (true, m.set c { count := 1, resetTime := t + RATE_WINDOW }) := by
  simp [checkRateLimit, h, RATE_LIMIT]

theorem checkRateLimit_expired (m : JSMap RateEntry) (c : Key) (t : Nat) (e : RateEntry)
    (h : m c = some e) (ht : e.resetTime < t) :
    checkRateLimit m c t = (true, m.set c { count := 1, resetTime := t + RATE_WINDOW }) := by
  simp [checkRateLimit, h, ht, RATE_LIMIT]

theorem checkRateLimit_admit (m : JSMap RateEntry) (c : Key) (t : Nat) (e : RateEntry)
    (h : m c = some e) (ht : t ≤ e.resetTime) (hk : e.count < RATE_LIMIT) :
    checkRateLimit m c t =
      (true, m.set c { count := e.count + 1, resetTime := e.resetTime }) := by
  have h1 : ¬ e.resetTime < t := by omega
  have h2 : ¬ RATE_LIMIT ≤ e.count := by omega
  simp [checkRateLimit, h, h1, h2]

theorem checkRateLimit_reject (m : JSMap RateEntry) (c : Key) (t : Nat) (e : RateEntry)
    (h : m c = some e) (ht : t ≤ e.resetTime) (hk : RATE_LIMIT ≤ e.count) :
    checkRateLimit m c t = (false, m) := by
  have h1 : ¬ e.resetTime < t := by omega
  simp [checkRateLimit, h, h1, hk]

theorem checkRateLimit_false_unchanged (m : JSMap RateEntry) (c : Key) (t : Nat)
    (h : (checkRateLimit m c t).1 = false) : (checkRateLimit m c t).2 = m := by
  revert h
  unfold checkRateLimit
  dsimp only
  split_ifs <;> simp

theorem rateCalls_window (c : Key) (r : Nat) :
    ∀ (ts : List Nat) (m : JSMap RateEntry) (k : Nat),
      m c = some { count := k, resetTime := r } → (∀ t ∈ ts, t ≤ r) →
      (rateCalls m c ts).1 = (List.range ts.length).map (fun i => decide (k + i < RATE_LIMIT)) ∧
      (rateCalls m c ts).2 c =
        some { count := min (k + ts.length) (max k RATE_LIMIT), resetTime := r } := by
  intro ts
  induction ts with
  | nil =>
    intro m k hm _
    simp [rateCalls, hm]
  | cons t ts ih =>
    intro m k hm hts
    have ht : t ≤ r := hts t (List.mem_cons_self _ _)
    have hts1 : ∀ x ∈ ts, x ≤ r := fun x hx => hts x (List.mem_cons_of_mem _ hx)
    by_cases hk : k < RATE_LIMIT
    · have hc := checkRateLimit_admit m c t _ hm ht hk
      obtain ⟨h1, h2⟩ := ih (m.set c { count := k + 1, resetTime := r }) (k + 1)
        (JSMap.set_same _ _ _) hts1
      simp only [rateCalls, hc, h1, h2, List.length_cons, List.range_succ_eq_map, List.map_cons,
        List.map_map]
      refine ⟨?_, ?_⟩
      · simp only [Nat.add_zero, hk, decide_True, List.cons.injEq, true_and]
        apply List.map_congr_left
        intro i _
        simp only [Function.comp, Nat.succ_eq_add_one]
        congr 1
        apply propext
        omega
      · congr 2
        simp only [RATE_LIMIT] at hk ⊢
        omega
    · have hc := checkRateLimit_reject m c t _ hm ht (by simpa using hk)
      obtain ⟨h1, h2⟩ := ih m k hm hts1
      simp only [rateCalls, hc, h1, h2, List.length_cons, List.range_succ_eq_map, List.map_cons,
        List.map_map]
      refine ⟨?_, ?_⟩
      · simp only [Nat.add_zero, hk, decide_False, List.cons.injEq, true_and]
        apply List.map_congr_left
        intro i _
        simp only [Function.comp, Nat.succ_eq_add_one]
        have : ¬ k + i < RATE_LIMIT := by omega
        have h3 : ¬ k + (i + 1) < RATE_LIMIT := by omega
        simp [this, h3]
      · congr 2
        simp only [RATE_LIMIT] at hk ⊢
        omega

theorem admittedIn_late (c : Key) (a : Nat) :
    ∀ (ts : List Nat) (m : JSMap RateEntry), (∀ t ∈ ts, a + RATE_WINDOW < t) →
      admittedIn m c a ts = 0 := by
  intro ts
  induction ts with
  | nil => intro m _; rfl
  | cons t ts ih =>
    intro m h
    have ht : a + RATE_WINDOW < t := h t (List.mem_cons_self _ _)
    have h1 : ¬ t ≤ a + RATE_WINDOW := by omega
    simp only [admittedIn, h1, and_false, if_false, Nat.zero_add]
    exact ih _ (fun x hx => h x (List.mem_cons_of_mem _ hx))

theorem admittedIn_cons_le (m : JSMap RateEntry) (c : Key) (a t : Nat) (ts : List Nat) :
    admittedIn m c a (t :: ts) ≤ 1 + admittedIn (checkRateLimit m c t).2 c a ts := by
  simp only [admittedIn]
  split_ifs <;> omega

theorem admittedIn_covering (c : Key) (a r : Nat) (hr : a + RATE_WINDOW ≤ r) :
    ∀ (ts : List Nat) (m : JSMap RateEntry) (k : Nat),
      m c = some { count := k, resetTime := r } → ts.Pairwise (fun x y => x ≤ y) →
      admittedIn m c a ts ≤ RATE_LIMIT - k := by
  intro ts
  induction ts with
  | nil => intro m k _ _; simp [admittedIn]
  | cons t ts ih =>
    intro m k hm hs
    rw [List.pairwise_cons] at hs
    obtain ⟨hle, hs1⟩ := hs
    by_cases ht : t ≤ r
    · by_cases hk : k < RATE_LIMIT
      · have hc := checkRateLimit_admit m c t _ hm ht hk
        have h1 := ih (m.set c { count := k + 1, resetTime := r }) (k + 1)
          (JSMap.set_same _ _ _) hs1
        have h2 := admittedIn_cons_le m c a t ts
        rw [hc] at h2
        simp only at h1 h2
        omega
      · have hc := checkRateLimit_reject m c t _ hm ht (by simpa using hk)
        have h1 := ih m k hm hs1
        simp only [admittedIn, hc, Bool.false_eq_true, false_and, if_false, Nat.zero_add]
        exact h1
    · have h1 : ¬ t ≤ a + RATE_WINDOW := by omega
      have h2 : admittedIn (checkRateLimit m c t).2 c a ts = 0 :=
        admittedIn_late c a ts _ (fun x hx => by have := hle x hx; omega)
      simp only [admittedIn, h1, and_false, if_false, Nat.zero_add, h2]
      omega

theorem admittedIn_from_inside (c : Key) (a : Nat) :
    ∀ (ts : List Nat) (m : JSMap RateEntry) (k r : Nat),
      m c = some { count := k, resetTime := r } → ts.Pairwise (fun x y => x ≤ y) →
      (∀ t ∈ ts, a ≤ t) →
      admittedIn m c a ts ≤ (RATE_LIMIT - k) + RATE_LIMIT := by
  intro ts
  induction ts with
  | nil => intro m k r _ _ _; simp [admittedIn]
  | cons t ts ih =>
    intro m k r hm hs ha
    have hs0 := hs
    rw [List.pairwise_cons] at hs
    obtain ⟨_, hs1⟩ := hs
    have hat : a ≤ t := ha t (List.mem_cons_self _ _)
    have ha1 : ∀ x ∈ ts, a ≤ x := fun x hx => ha x (List.mem_cons_of_mem _ hx)
    have h2 := admittedIn_cons_le m c a t ts
    by_cases ht : t ≤ r
    · by_cases hk : k < RATE_LIMIT
      · have hc := checkRateLimit_admit m c t _ hm ht hk
        have h1 := ih (m.set c { count := k + 1, resetTime := r }) (k + 1) r
          (JSMap.set_same _ _ _) hs1 ha1
        rw [hc] at h2
        simp only at h1 h2
        omega
      · have hc := checkRateLimit_reject m c t _ hm ht (by simpa using hk)
        have h1 := ih m k r hm hs1 ha1
        simp only [admittedIn, hc, Bool.false_eq_true, false_and, if_false, Nat.zero_add]
        exact h1
    · have hc := checkRateLimit_expired m c t _ hm (by simpa using ht)
      have h1 := admittedIn_covering c a (t + RATE_WINDOW) (by omega) ts
        (m.set c { count := 1, resetTime := t + RATE_WINDOW }) 1 (JSMap.set_same _ _ _) hs1
      rw [hc] at h2
      simp only [RATE_LIMIT] at h1 h2 ⊢
      omega

theorem admittedIn_from_inside_none (c : Key) (a : Nat) (ts : List Nat) (m : JSMap RateEntry)
    (hm : m c = none) (hs : ts.Pairwise (fun x y => x ≤ y)) (ha : ∀ t ∈ ts, a ≤ t) :
    admittedIn m c a ts ≤ RATE_LIMIT := by
  cases ts with
  | nil => simp [admittedIn]
  | cons t ts =>
    rw [List.pairwise_cons] at hs
    obtain ⟨_, hs1⟩ := hs
    have hat : a ≤ t := ha t (List.mem_cons_self _ _)
    have h2 := admittedIn_cons_le m c a t ts
    have hc := checkRateLimit_none m c t hm
    have h1 := admittedIn_covering c a (t + RATE_WINDOW) (by omega) ts
      (m.set c { count := 1, resetTime := t + RATE_WINDOW }) 1 (JSMap.set_same _ _ _) hs1
    rw [hc] at h2
    simp only [RATE_LIMIT] at h1 h2 ⊢
    omega

theorem checkRateLimit_count_pos (m : JSMap RateEntry) (c : Key) (t : Nat)
    (h : ∀ e, m c = some e → 1 ≤ e.count) :
    ∀ e, (checkRateLimit m c t).2 c = some e → 1 ≤ e.count := by
  intro e
  unfold checkRateLimit
  dsimp only
  split_ifs
  all_goals first
    | exact h e
    | (intro he
       simp only [JSMap.set_same, Option.some.injEq] at he
       subst he
       simp)

theorem admittedIn_rolling (c : Key) (a : Nat) :
    ∀ (ts : List Nat) (m : JSMap RateEntry), (∀ e, m c = some e → 1 ≤ e.count) →
      ts.Pairwise (fun x y => x ≤ y) → admittedIn m c a ts ≤ 2 * RATE_LIMIT - 1 := by
  intro ts
  induction ts with
  | nil => intro m _ _; simp [admittedIn]
  | cons t ts ih =>
    intro m hm hs
    by_cases hat : a ≤ t
    · have ha : ∀ x ∈ t :: ts, a ≤ x := by
        intro x hx
        rcases List.mem_cons.mp hx with hx | hx
        · omega
        · have := (List.pairwise_cons.mp hs).1 x hx
          omega
      cases hmc : m c with
      | none =>
        have := admittedIn_from_inside_none c a (t :: ts) m hmc hs ha
        simp only [RATE_LIMIT] at this ⊢
        omega
      | some e =>
        have h1 := hm e hmc
        have := admittedIn_from_inside c a (t :: ts) m e.count e.resetTime hmc hs ha
        simp only [RATE_LIMIT] at this ⊢
        omega
    · have h1 := ih (checkRateLimit m c t).2 (checkRateLimit_count_pos m c t hm)
        (List.pairwise_cons.mp hs).2
      simp only [admittedIn, hat, false_and, and_false, if_false, Nat.zero_add]
      exact h1

/-! ## Claims on the rate limiter -/

/-- C9: a window opened by a call at `t0` (no entry yet, or the old window
expired) admits exactly the first ten calls made up to `resetTime = t0 + 60000`
and rejects every further one; the count stops at ten; a rejected call leaves
the map as it was; the first call after `resetTime` is admitted and opens a new
window with count one. -/
theorem checkRateLimit_fixed_window (m : JSMap RateEntry) (c : Key) (t0 : Nat) (ts : List Nat)
    (hopen : ∀ e, m c = some e → e.resetTime < t0)
    (hts : ∀ t ∈ ts, t ≤ t0 + RATE_WINDOW) :
    (rateCalls m c (t0 :: ts)).1 =
        (List.range (ts.length + 1)).map (fun i => decide (i < RATE_LIMIT)) ∧
    (rateCalls m c (t0 :: ts)).2 c =
        some { count := min (ts.length + 1) RATE_LIMIT, resetTime := t0 + RATE_WINDOW } ∧
    (∀ t, t0 + RATE_WINDOW < t →
      checkRateLimit (rateCalls m c (t0 :: ts)).2 c t =
        (true, (rateCalls m c (t0 :: ts)).2.set c
          { count := 1, resetTime := t + RATE_WINDOW })) ∧
    (∀ (m1 : JSMap RateEntry) (t : Nat),
      (checkRateLimit m1 c t).1 = false → (checkRateLimit m1 c t).2 = m1) := by
  have hc : checkRateLimit m c t0 =
      (true, m.set c { count := 1, resetTime := t0 + RATE_WINDOW }) := by
    cases hm : m c with
    | none => exact checkRateLimit_none m c t0 hm
    | some e => exact checkRateLimit_expired m c t0 e hm (hopen e hm)
  obtain ⟨h1, h2⟩ := rateCalls_window c (t0 + RATE_WINDOW) ts
    (m.set c { count := 1, resetTime := t0 + RATE_WINDOW }) 1 (JSMap.set_same _ _ _) hts
  have hfin : (rateCalls m c (t0 :: ts)).2 c =
      some { count := min (ts.length + 1) RATE_LIMIT, resetTime := t0 + RATE_WINDOW } := by
    simp only [rateCalls, hc, h2]
    congr 2
    simp only [RATE_LIMIT]
    omega
  refine ⟨?_, hfin, ?_, ?_⟩
  · simp only [rateCalls, hc, h1, List.range_succ_eq_map, List.map_cons, List.map_map]
    have h0 : (0 < RATE_LIMIT) := by decide
    simp only [h0, decide_True, List.cons.injEq, true_and]
    apply List.map_congr_left
    intro i _
    simp only [Function.comp, Nat.succ_eq_add_one]
    congr 1
    apply propext
    omega
  · intro t ht
    exact checkRateLimit_expired _ c t _ hfin ht
  · intro m1 t h
    exact checkRateLimit_false_unchanged m1 c t h

/-- Witness of C9: twelve calls in the window opened at time `0` on an empty
map. -/
theorem checkRateLimit_fixed_window_witness :
    (rateCalls JSMap.empty (Key.num 7) [0, 5, 5, 5, 5, 5, 5, 5, 5, 5, 60000, 60000]).1 =
      [true, true, true, true, true, true, true, true, true, true, false, false] :=
  (checkRateLimit_fixed_window JSMap.empty (Key.num 7) 0
    [5, 5, 5, 5, 5, 5, 5, 5, 5, 60000, 60000]
    (by intro e h; simp [JSMap.empty] at h) (by decide)).1

/-- C10, as stated, fails: one call at time `0`, nine at `60000` and ten at
`60001` have non-decreasing times, and nineteen of them are admitted at times
between `60000` and `120000`. -/
theorem rolling_window_counterexample :
    List.Pairwise (fun x y => x ≤ y)
      [0, 60000, 60000, 60000, 60000, 60000, 60000, 60000, 60000, 60000,
       60001, 60001, 60001, 60001, 60001, 60001, 60001, 60001, 60001, 60001] ∧
    ¬ admittedIn JSMap.empty (Key.num 7) 60000
      [0, 60000, 60000, 60000, 60000, 60000, 60000, 60000, 60000, 60000,
       60001, 60001, 60001, 60001, 60001, 60001, 60001, 60001, 60001, 60001] ≤ RATE_LIMIT := by
  decide

/-- C10, amended: the window is fixed, not rolling.  For calls with
non-decreasing times, on a map whose entry for the chat is absent or has a
count of at least one (every entry the limiter writes has), at most
`2 * RATE_LIMIT - 1 = 19` calls are admitted at times within any interval of
length `60000`. -/
theorem rolling_window_bound (m : JSMap RateEntry) (c : Key) (a : Nat) (ts : List Nat)
    (hm : ∀ e, m c = some e → 1 ≤ e.count)
    (hs : ts.Pairwise (fun x y => x ≤ y)) :
    admittedIn m c a ts ≤ 2 * RATE_LIMIT - 1 :=
  admittedIn_rolling c a ts m hm hs

/-- Witness of the amended C10 on the calls of the counterexample. -/
theorem rolling_window_bound_witness :
    admittedIn JSMap.empty (Key.num 7) 60000
      [0, 60000, 60000, 60000, 60000, 60000, 60000, 60000, 60000, 60000,
       60001, 60001, 60001, 60001, 60001, 60001, 60001, 60001, 60001, 60001]
      ≤ 2 * RATE_LIMIT - 1 :=
  rolling_window_bound JSMap.empty (Key.num 7) 60000 _
    (by intro e h; simp [JSMap.empty] at h) (by decide)

/-! ## The amount check -/

theorem isDigit_digitChar : ∀ d : Fin 10, isDigit (digitChar d) = true := by decide
theorem isWhiteSpace_digitChar : ∀ d : Fin 10, isWhiteSpace (digitChar d) = false := by decide
theorem digitVal_digitChar : ∀ d : Fin 10, digitVal (digitChar d) = d.val := by decide
theorem digitChar_ne_minus : ∀ d : Fin 10, digitChar d ≠ '-' := by decide
theorem digitChar_ne_plus : ∀ d : Fin 10, digitChar d ≠ '+' := by decide
theorem digitChar_ne_I : ∀ d : Fin 10, digitChar d ≠ 'I' := by decide

theorem takeWhile_digits (ds : List (Fin 10)) (rest : Str) :
    (ds.map digitChar ++ rest).takeWhile isDigit = ds.map digitChar ++ rest.takeWhile isDigit := by
  induction ds with
  | nil => rfl
  | cons d ds ih => simp [List.takeWhile, isDigit_digitChar, ih]

theorem dropWhile_digits (ds : List (Fin 10)) (rest : Str) :
    (ds.map digitChar ++ rest).dropWhile isDigit = rest.dropWhile isDigit := by
  induction ds with
  | nil => rfl
  | cons d ds ih => simp [List.dropWhile, isDigit_digitChar, ih]

theorem digitsVal_foldl (ds : List (Fin 10)) (n : Nat) :
    (ds.map digitChar).foldl (fun acc c => acc * 10 + digitVal c) n =
      ds.foldl (fun acc d => acc * 10 + d.val) n := by
  induction ds generalizing n with
  | nil => rfl
  | cons d ds ih => simp [List.foldl, digitVal_digitChar, ih]

theorem digitsVal_digits (ds : List (Fin 10)) : digitsVal (ds.map digitChar) = digitsNat ds :=
  digitsVal_foldl ds 0

theorem digitsNat_foldl (ds : List (Fin 10)) (n : Nat) :
    ds.foldl (fun acc d => acc * 10 + d.val) n = n * 10 ^ ds.length + digitsNat ds := by
  induction ds generalizing n with
  | nil => simp [digitsNat]
  | cons d ds ih =>
    simp only [List.foldl, List.length_cons, digitsNat]
    rw [ih, ih (0 * 10 + d.val)]
    ring

theorem digitsNat_append (xs ys : List (Fin 10)) :
    digitsNat (xs ++ ys) = digitsNat xs * 10 ^ ys.length + digitsNat ys := by
  simp only [digitsNat, List.foldl_append]
  exact digitsNat_foldl ys _

theorem parseDecimal_integer (neg : Bool) (s2 ipc : Str)
    (hI : startsWith s2 "Infinity".toList = false)
    (hT : s2.takeWhile isDigit = ipc) (hne : ipc ≠ []) (hD : s2.dropWhile isDigit = []) :
    parseDecimal neg s2 = JSNum.fin ((if neg then -1 else 1) * (digitsVal ipc : Int)) 0 := by
  simp only [parseDecimal, hI, hT, hD, Bool.false_eq_true, if_false, List.head?_nil,
    hne, false_and, List.append_nil, parseExponent, le_refl, Int.toNat_zero, pow_zero, mul_one,
    List.length_nil, reduceCtorEq, if_true]
  cases neg <;> simp

theorem parseDecimal_fraction (neg : Bool) (s2 ipc fpc : Str)
    (hI : startsWith s2 "Infinity".toList = false)
    (hT : s2.takeWhile isDigit = ipc) (hne : ipc ≠ [])
    (hD : s2.dropWhile isDigit = '.' :: fpc)
    (hT2 : fpc.takeWhile isDigit = fpc) (hD2 : fpc.dropWhile isDigit = []) :
    parseDecimal neg s2 =
      JSNum.fin ((if neg then -1 else 1) * (digitsVal (ipc ++ fpc) : Int)) fpc.length := by
  simp only [parseDecimal, hI, hT, hD, Bool.false_eq_true, if_false, List.head?_cons,
    if_true, List.tail_cons, hT2, hD2, hne, false_and, parseExponent, le_refl, Int.toNat_zero,
    pow_zero, mul_one]
  cases neg <;> simp

theorem parseDecimal_digits (neg : Bool) (d0 : Fin 10) (ip fp : List (Fin 10)) :
    parseDecimal neg ((d0 :: ip).map digitChar ++
        (if fp = [] then [] else '.' :: fp.map digitChar)) =
      JSNum.fin ((if neg then -1 else 1) * (digitsNat (d0 :: ip ++ fp) : Int)) fp.length := by
  have hI : ∀ rest : Str, startsWith ((d0 :: ip).map digitChar ++ rest) "Infinity".toList
      = false := by
    intro rest
    have := digitChar_ne_I d0
    simp only [startsWith, String.toList, List.map_cons, List.cons_append, List.isPrefixOf]
    simp [Ne.symm this]
  have hne : (d0 :: ip).map digitChar ≠ [] := by simp
  by_cases hfp : fp = []
  · subst hfp
    have hT : ((d0 :: ip).map digitChar ++ []).takeWhile isDigit = (d0 :: ip).map digitChar := by
      rw [takeWhile_digits]; simp
    have hD : ((d0 :: ip).map digitChar ++ []).dropWhile isDigit = [] := by
      rw [dropWhile_digits]; simp
    have := parseDecimal_integer neg _ _ (hI []) hT hne hD
    simp only [if_true, List.append_nil, List.length_nil]
    simp only [List.append_nil] at this
    rw [this, digitsVal_digits]
  · have hT : ((d0 :: ip).map digitChar ++ '.' :: fp.map digitChar).takeWhile isDigit =
        (d0 :: ip).map digitChar := by
      rw [takeWhile_digits]; simp [List.takeWhile, isDigit]
    have hD : ((d0 :: ip).map digitChar ++ '.' :: fp.map digitChar).dropWhile isDigit =
        '.' :: fp.map digitChar := by
      rw [dropWhile_digits]; simp [List.dropWhile, isDigit]
    have hT2 : (fp.map digitChar).takeWhile isDigit = fp.map digitChar := by
      have := takeWhile_digits fp []
      simpa using this
    have hD2 : (fp.map digitChar).dropWhile isDigit = [] := by
      have := dropWhile_digits fp []
      simpa using this
    have := parseDecimal_fraction neg _ _ _ (hI _) hT hne hD hT2 hD2
    simp only [hfp, if_false]
    rw [this, ← List.map_append, digitsVal_digits, List.length_map]

theorem parseLiteral_decimalText (neg : Bool) (d0 : Fin 10) (ip fp : List (Fin 10)) :
    parseLiteral (decimalText neg d0 ip fp) =
      JSNum.fin ((if neg then -1 else 1) * (digitsNat (d0 :: ip ++ fp) : Int)) fp.length := by
  have h := parseDecimal_digits neg d0 ip fp
  cases neg
  · have hw := isWhiteSpace_digitChar d0
    have h1 := digitChar_ne_minus d0
    have h2 := digitChar_ne_plus d0
    simp only [decimalText, Bool.false_eq_true, if_false, List.nil_append, parseLiteral,
      List.map_cons, List.cons_append]
    simp only [List.map_cons, List.cons_append] at h
    simp only [List.dropWhile, hw, List.head?_cons, Option.some.injEq, h1, h2, or_self, if_false,
      decide_False]
    exact h
  · simp only [decimalText, if_true, parseLiteral, List.singleton_append]
    have hw : isWhiteSpace '-' = false := by decide
    simp only [List.dropWhile, hw, List.head?_cons, true_or, if_true, List.tail_cons,
      decide_True]
    exact h

theorem decimalValue_eq (neg : Bool) (d0 : Fin 10) (ip fp : List (Fin 10)) :
    decimalValue neg d0 ip fp =
      (((if neg then -1 else 1) * (digitsNat (d0 :: ip ++ fp) : Int) : Int) : ℚ) /
        (10 : ℚ) ^ fp.length := by
  have h10 : ((10 : ℚ) ^ fp.length) ≠ 0 := by positivity
  have happ : digitsNat (d0 :: ip ++ fp) = digitsNat (d0 :: ip) * 10 ^ fp.length + digitsNat fp := by
    exact digitsNat_append (d0 :: ip) fp
  rw [happ]
  unfold decimalValue
  cases neg
  · simp only [Bool.false_eq_true, if_false]
    push_cast
    field_simp
  · simp only [if_true]
    push_cast
    field_simp

theorem amountInRange_fin (a : Int) (k : Nat) :
    amountInRange (JSNum.fin a k) = true ↔ 0 < a ∧ a ≤ 1000000 * 10 ^ k := by
  simp [amountInRange, JSNum.isNaN, JSNum.lt, JSNum.le, JSNum.ofNat]

/-! ## Rounding to binary64

The magnitude of a literal is `x / d` in units of `2 ^ -1074`, with
`x = n * 2 ^ 1074` and `d = 10 ^ scale`.  The lemmas below bound the rounded
magnitude `roundDiv x (d * 2 ^ s) * 2 ^ s` and find the two thresholds of
`amountInRange`: the rounded value is positive exactly above `2 ^ -1075`, and at
most `1000000` exactly up to `1000000 + 2 ^ -34`. -/

theorem bitLengthAux_zero (fuel acc : Nat) : bitLengthAux fuel 0 acc = acc := by
  cases fuel <;> simp [bitLengthAux]

theorem bitLengthAux_spec :
    ∀ (fuel n acc : Nat), n ≤ fuel →
      ∃ b, bitLengthAux fuel n acc = acc + b ∧ n < 2 ^ b ∧ (n ≠ 0 → 1 ≤ b ∧ 2 ^ (b - 1) ≤ n) := by
  intro fuel
  induction fuel with
  | zero =>
    intro n acc hn
    have h0 : n = 0 := by omega
    subst h0
    exact ⟨0, rfl, by decide, fun h => absurd rfl h⟩
  | succ fuel ih =>
    intro n acc hn
    by_cases h0 : n = 0
    · subst h0
      exact ⟨0, by simp [bitLengthAux], by decide, fun h => absurd rfl h⟩
    · by_cases hbig : 2 ^ 64 ≤ n
      · have hdiv := Nat.div_add_mod n (2 ^ 64)
        have hmod := Nat.mod_lt n (show 0 < 2 ^ 64 by decide)
        have hpos : n / 2 ^ 64 ≠ 0 := by
          intro h
          rw [h] at hdiv
          omega
        obtain ⟨b, hb1, hb2, hb3⟩ := ih (n / 2 ^ 64) (acc + 64) (by omega)
        obtain ⟨hb4, hb5⟩ := hb3 hpos
        refine ⟨64 + b, ?_, ?_, fun _ => ⟨by omega, ?_⟩⟩
        · simp only [bitLengthAux, if_neg h0, if_pos hbig, hb1]
          omega
        · rw [pow_add]
          generalize (2 : ℕ) ^ b = P at hb2
          generalize n / 2 ^ 64 = n1 at hdiv hb2
          omega
        · have e : 64 + b - 1 = 64 + (b - 1) := by omega
          rw [e, pow_add]
          generalize (2 : ℕ) ^ (b - 1) = P at hb5
          generalize n / 2 ^ 64 = n1 at hdiv hb5
          omega
      · have hdiv := Nat.div_add_mod n 2
        have hmod := Nat.mod_lt n (show 0 < 2 by decide)
        obtain ⟨b, hb1, hb2, hb3⟩ := ih (n / 2) (acc + 1) (by omega)
        refine ⟨1 + b, ?_, ?_, fun _ => ⟨by omega, ?_⟩⟩
        · simp only [bitLengthAux, if_neg h0, if_neg hbig, hb1]
          omega
        · rw [pow_add]
          generalize (2 : ℕ) ^ b = P at hb2
          omega
        · by_cases h1 : n / 2 = 0
          · have hn1 : n = 1 := by omega
            have hb0 : b = 0 := by
              rw [h1, bitLengthAux_zero] at hb1
              omega
            subst hb0
            subst hn1
            decide
          · obtain ⟨hb4, hb5⟩ := hb3 h1
            have e : 1 + b - 1 = 1 + (b - 1) := by omega
            rw [e, pow_add]
            generalize (2 : ℕ) ^ (b - 1) = P at hb5
            omega

theorem bitLength_lt (n : Nat) : n < 2 ^ bitLength n := by
  obtain ⟨b, h1, h2, _⟩ := bitLengthAux_spec n n 0 (Nat.le_refl n)
  have e : bitLength n = b := by
    unfold bitLength
    omega
  rw [e]
  exact h2

theorem bitLength_le (n : Nat) (h : n ≠ 0) : 1 ≤ bitLength n ∧ 2 ^ (bitLength n - 1) ≤ n := by
  obtain ⟨b, h1, _, h3⟩ := bitLengthAux_spec n n 0 (Nat.le_refl n)
  have e : bitLength n = b := by
    unfold bitLength
    omega
  rw [e]
  exact h3 h

theorem bitLength_le_of_lt (n b : Nat) (h : n < 2 ^ b) : bitLength n ≤ b := by
  by_cases h0 : n = 0
  · subst h0
    simp [bitLength, bitLengthAux]
  · by_contra hc
    have h2 := (bitLength_le n h0).2
    have h3 : 2 ^ b ≤ 2 ^ (bitLength n - 1) := Nat.pow_le_pow_right (by decide) (by omega)
    omega

theorem lt_bitLength_of_le (n b : Nat) (h : 2 ^ b ≤ n) : b < bitLength n := by
  by_contra hc
  have h2 := bitLength_lt n
  have h3 : 2 ^ bitLength n ≤ 2 ^ b := Nat.pow_le_pow_right (by decide) (by omega)
  omega

theorem roundDiv_ge (x q : Nat) : x / q ≤ roundDiv x q := by
  unfold roundDiv
  split <;> omega

theorem roundDiv_le (x q : Nat) : roundDiv x q ≤ x / q + 1 := by
  unfold roundDiv
  split <;> omega

theorem roundDiv_pos_iff (x q : Nat) (hq : 0 < q) : 0 < roundDiv x q ↔ q < 2 * x := by
  have hdiv := Nat.div_add_mod x q
  have hmod := Nat.mod_lt x hq
  by_cases h0 : x / q = 0
  · rw [h0] at hdiv
    have hx : x % q = x := by omega
    unfold roundDiv
    rw [h0, hx]
    split <;> omega
  · have h1 : q * 1 ≤ q * (x / q) := Nat.mul_le_mul_left q (Nat.pos_of_ne_zero h0)
    have h2 := roundDiv_ge x q
    have h3 := Nat.pos_of_ne_zero h0
    generalize roundDiv x q = m at h2 ⊢
    generalize x / q = m0 at hdiv h1 h2 h3
    generalize q * m0 = p at hdiv h1
    generalize x % q = r at hdiv hmod
    constructor
    · intro _
      omega
    · intro _
      omega

theorem roundDiv_le_iff_even (x q K : Nat) (hq : 0 < q) (hK : K % 2 = 0) :
    roundDiv x q ≤ K ↔ 2 * x ≤ 2 * (q * K) + q := by
  have hdiv := Nat.div_add_mod x q
  have hmod := Nat.mod_lt x hq
  rcases Nat.lt_trichotomy (x / q) K with h | h | h
  · have h1 : q * (x / q + 1) ≤ q * K := Nat.mul_le_mul_left q h
    have h2 := roundDiv_le x q
    rw [Nat.mul_add, Nat.mul_one] at h1
    generalize roundDiv x q = m at h2 ⊢
    generalize x / q = m0 at hdiv h1 h2 h
    generalize q * m0 = p at hdiv h1
    generalize q * K = pK at h1 ⊢
    generalize x % q = r at hdiv hmod
    constructor
    · intro _
      omega
    · intro _
      omega
  · unfold roundDiv
    rw [h] at hdiv ⊢
    generalize q * K = pK at hdiv ⊢
    generalize x % q = r at hdiv hmod ⊢
    split <;> omega
  · have h1 : q * (K + 1) ≤ q * (x / q) := Nat.mul_le_mul_left q h
    have h2 := roundDiv_ge x q
    rw [Nat.mul_add, Nat.mul_one] at h1
    generalize roundDiv x q = m at h2 ⊢
    generalize x / q = m0 at hdiv h1 h2 h
    generalize q * m0 = p at hdiv h1
    generalize q * K = pK at h1 ⊢
    generalize x % q = r at hdiv hmod
    constructor
    · intro _
      omega
    · intro _
      omega

theorem dyadic_spec : ∀ (k m : Nat), (dyadic k m).2 * 2 ^ k = m * 2 ^ (dyadic k m).1 := by
  intro k
  induction k with
  | zero =>
    intro m
    simp [dyadic]
  | succ k ih =>
    intro m
    unfold dyadic
    split
    · rename_i hm
      have h2 := ih (m / 2)
      have h3 := Nat.div_add_mod m 2
      rw [hm] at h3
      generalize m / 2 = m1 at h2 h3 ⊢
      generalize dyadic k m1 = r at h2 ⊢
      rw [pow_succ, ← Nat.mul_assoc, h2, ← h3]
      ring
    · rfl

theorem roundUnits_bounds (x d s : Nat) (hs : s = bitLength (x / d) - 53) :
    roundDiv x (d * 2 ^ s) * 2 ^ s ≤ 2 ^ bitLength (x / d) ∧
      (x / d ≠ 0 → 2 ^ (bitLength (x / d) - 1) ≤ roundDiv x (d * 2 ^ s) * 2 ^ s) := by
  have hlt := bitLength_lt (x / d)
  have hq : x / (d * 2 ^ s) = x / d / 2 ^ s := (Nat.div_div_eq_div_mul x d (2 ^ s)).symm
  have hge := roundDiv_ge x (d * 2 ^ s)
  have hle := roundDiv_le x (d * 2 ^ s)
  rw [hq] at hge hle
  generalize roundDiv x (d * 2 ^ s) = m at hge hle ⊢
  generalize x / d = F at hs hlt hge hle ⊢
  by_cases hb : bitLength F ≤ 53
  · have hs0 : s = 0 := by omega
    subst hs0
    rw [pow_zero, Nat.div_one] at hge hle
    rw [pow_zero, Nat.mul_one]
    refine ⟨by omega, fun h0 => ?_⟩
    have := (bitLength_le F h0).2
    omega
  · have hbl : bitLength F = s + 53 := by omega
    rw [hbl] at hlt ⊢
    have h2s : 0 < 2 ^ s := pow_pos (by decide) _
    constructor
    · have h1 : F / 2 ^ s < 2 ^ 53 := by
        rw [Nat.div_lt_iff_lt_mul h2s, ← pow_add, Nat.add_comm]
        exact hlt
      have h2 : m ≤ 2 ^ 53 := by omega
      have h3 := Nat.mul_le_mul_right (2 ^ s) h2
      rw [← pow_add, Nat.add_comm] at h3
      exact h3
    · intro h0
      have h1 := (bitLength_le F h0).2
      rw [hbl] at h1
      have e : s + 53 - 1 = 52 + s := by omega
      rw [e] at h1 ⊢
      have h2 : 2 ^ 52 ≤ F / 2 ^ s := by
        rw [Nat.le_div_iff_mul_le h2s, ← pow_add]
        exact h1
      have h3 : 2 ^ 52 ≤ m := by omega
      have h4 := Nat.mul_le_mul_right (2 ^ s) h3
      rw [← pow_add] at h4
      exact h4

theorem roundUnits_pos_iff (x d s : Nat) (hd : 0 < d) (hs : s = bitLength (x / d) - 53) :
    0 < roundDiv x (d * 2 ^ s) * 2 ^ s ↔ d < 2 * x := by
  by_cases h0 : x / d = 0
  · have hs0 : s = 0 := by
      rw [h0] at hs
      simpa [bitLength, bitLengthAux] using hs
    subst hs0
    rw [pow_zero, Nat.mul_one, Nat.mul_one]
    exact roundDiv_pos_iff x d hd
  · have h1 := (roundUnits_bounds x d s hs).2 h0
    have h2 : 0 < 2 ^ (bitLength (x / d) - 1) := pow_pos (by decide) _
    have h3 : d * 1 ≤ d * (x / d) := Nat.mul_le_mul_left d (Nat.pos_of_ne_zero h0)
    have h4 := Nat.mul_div_le x d
    generalize d * (x / d) = p at h3 h4
    constructor
    · intro _
      omega
    · intro _
      omega

theorem roundUnits_le_iff (x d s : Nat) (hd : 0 < d) (hs : s = bitLength (x / d) - 53) :
    roundDiv x (d * 2 ^ s) * 2 ^ s ≤ 1000000 * 2 ^ 1074 ↔
      2 * x ≤ d * (2 * (1000000 * 2 ^ 1074) + 2 ^ 1041) := by
  have e1 : (2 : ℕ) ^ 1074 = 2 ^ 33 * 2 ^ 1041 := pow_add 2 33 1041
  have e2 : (2 : ℕ) ^ 1093 = 2 ^ 52 * 2 ^ 1041 := pow_add 2 52 1041
  have e3 : (2 : ℕ) ^ 1094 = 2 ^ 53 * 2 ^ 1041 := pow_add 2 53 1041
  have hT : 0 < 2 ^ 1041 := pow_pos (by decide) _
  have hb := roundUnits_bounds x d s hs
  have hF1 := Nat.mul_div_le x d
  have hF2 := Nat.lt_mul_div_succ x hd
  rw [e1]
  by_cases c1 : x / d < 2 ^ 1093
  · have hbl := bitLength_le_of_lt (x / d) 1093 c1
    have h1 : 2 ^ bitLength (x / d) ≤ 2 ^ 1093 := Nat.pow_le_pow_right (by decide) hbl
    have h2 := hb.1
    have h3 : d * (x / d + 1) ≤ d * 2 ^ 1093 := Nat.mul_le_mul_left d c1
    rw [e2] at h1 h3
    have h4 : d * (2 * (2 ^ 52 * 2 ^ 1041)) ≤
        d * (2 * (1000000 * (2 ^ 33 * 2 ^ 1041)) + 2 ^ 1041) := by
      apply Nat.mul_le_mul_left
      generalize (2 : ℕ) ^ 1041 = T
      omega
    have h5 : d * (2 * (2 ^ 52 * 2 ^ 1041)) = 2 * (d * (2 ^ 52 * 2 ^ 1041)) := by ring
    rw [h5] at h4
    generalize roundDiv x (d * 2 ^ s) * 2 ^ s = M at h2 ⊢
    generalize 2 ^ bitLength (x / d) = P at h1 h2
    generalize d * (x / d + 1) = p1 at hF2 h3
    generalize d * (2 * (1000000 * (2 ^ 33 * 2 ^ 1041)) + 2 ^ 1041) = R at h4 ⊢
    generalize d * (2 ^ 52 * 2 ^ 1041) = p2 at h3 h4
    generalize (2 : ℕ) ^ 1041 = T at hT h1 ⊢
    constructor
    · intro _
      omega
    · intro _
      omega
  · by_cases c2 : 2 ^ 1094 ≤ x / d
    · have hbl := lt_bitLength_of_le (x / d) 1094 c2
      have h0 : x / d ≠ 0 := by
        intro h
        rw [h] at c2
        have : 0 < 2 ^ 1094 := pow_pos (by decide) _
        omega
      have h1 : 2 ^ 1094 ≤ 2 ^ (bitLength (x / d) - 1) :=
        Nat.pow_le_pow_right (by decide) (by omega)
      have h2 := hb.2 h0
      have h3 : d * 2 ^ 1094 ≤ d * (x / d) := Nat.mul_le_mul_left d c2
      rw [e3] at h1 h3
      have h4 : d * (2 * (1000000 * (2 ^ 33 * 2 ^ 1041)) + 2 ^ 1041) <
          d * (2 * (2 ^ 53 * 2 ^ 1041)) := by
        apply Nat.mul_lt_mul_of_pos_left _ hd
        generalize (2 : ℕ) ^ 1041 = T at hT
        omega
      have h5 : d * (2 * (2 ^ 53 * 2 ^ 1041)) = 2 * (d * (2 ^ 53 * 2 ^ 1041)) := by ring
      rw [h5] at h4
      generalize roundDiv x (d * 2 ^ s) * 2 ^ s = M at h2 ⊢
      generalize 2 ^ (bitLength (x / d) - 1) = P at h1 h2
      generalize d * (x / d) = p1 at hF1 h3
      generalize d * (2 * (1000000 * (2 ^ 33 * 2 ^ 1041)) + 2 ^ 1041) = R at h4 ⊢
      generalize d * (2 ^ 53 * 2 ^ 1041) = p2 at h3 h4
      generalize (2 : ℕ) ^ 1041 = T at hT h1 ⊢
      constructor
      · intro _
        omega
      · intro _
        omega
    · have hbl1 := bitLength_le_of_lt (x / d) 1094 (by omega)
      have hbl2 := lt_bitLength_of_le (x / d) 1093 (by omega)
      have hs1 : s = 1041 := by omega
      subst hs1
      have hK : (1000000 * 2 ^ 33) % 2 = 0 := by decide
      have h1 := roundDiv_le_iff_even x (d * 2 ^ 1041) (1000000 * 2 ^ 33) (Nat.mul_pos hd hT) hK
      have h2 : 1000000 * (2 ^ 33 * 2 ^ 1041) = 1000000 * 2 ^ 33 * 2 ^ 1041 := by ring
      have h3 : d * (2 * (1000000 * (2 ^ 33 * 2 ^ 1041)) + 2 ^ 1041) =
          2 * (d * 2 ^ 1041 * (1000000 * 2 ^ 33)) + d * 2 ^ 1041 := by ring
      rw [h3, h2, ← h1]
      exact mul_le_mul_right hT

theorem amountInRange_inf (b : Bool) : amountInRange (JSNum.inf b) = false := by
  cases b <;> rfl

theorem roundUnits_range (n d s : Nat) (hd : 0 < d)
    (hs : s = bitLength (n * 2 ^ 1074 / d) - 53) :
    (0 < roundDiv (n * 2 ^ 1074) (d * 2 ^ s) * 2 ^ s ↔ d < n * 2 ^ 1075) ∧
      (roundDiv (n * 2 ^ 1074) (d * 2 ^ s) * 2 ^ s ≤ 1000000 * 2 ^ 1074 ↔
        n * 2 ^ 34 ≤ d * (1000000 * 2 ^ 34 + 1)) := by
  have e1 : (2 : ℕ) ^ 1075 = 2 ^ 1074 * 2 := pow_succ 2 1074
  have e2 : (2 : ℕ) ^ 1074 = 2 ^ 33 * 2 ^ 1041 := pow_add 2 33 1041
  have hT : 0 < 2 ^ 1041 := pow_pos (by decide) _
  constructor
  · rw [roundUnits_pos_iff (n * 2 ^ 1074) d s hd hs, e1]
    have e : 2 * (n * 2 ^ 1074) = n * (2 ^ 1074 * 2) := by
      generalize (2 : ℕ) ^ 1074 = A
      ring
    rw [e]
  · rw [roundUnits_le_iff (n * 2 ^ 1074) d s hd hs, e2]
    have e3 : 2 * (n * (2 ^ 33 * 2 ^ 1041)) = n * 2 ^ 34 * 2 ^ 1041 := by
      generalize (2 : ℕ) ^ 1041 = T
      ring
    have e4 : d * (2 * (1000000 * (2 ^ 33 * 2 ^ 1041)) + 2 ^ 1041) =
        d * (1000000 * 2 ^ 34 + 1) * 2 ^ 1041 := by
      generalize (2 : ℕ) ^ 1041 = T
      ring
    rw [e3, e4]
    exact mul_le_mul_right hT

theorem dyadic_units (m s : Nat) :
    (dyadic (1074 - s) m).2 * 2 ^ (s - 1074) * 5 ^ (dyadic (1074 - s) m).1 * 2 ^ 1074 =
      m * 2 ^ s * 10 ^ (dyadic (1074 - s) m).1 := by
  have h := dyadic_spec (1074 - s) m
  generalize dyadic (1074 - s) m = r at h ⊢
  obtain ⟨k, c⟩ := r
  simp only at h ⊢
  have e : (2 : ℕ) ^ (s - 1074) * 2 ^ 1074 = 2 ^ (1074 - s) * 2 ^ s := by
    rw [← pow_add, ← pow_add]
    congr 1
    omega
  have e10 : (10 : ℕ) ^ k = 2 ^ k * 5 ^ k := by
    rw [← mul_pow]
    rfl
  calc c * 2 ^ (s - 1074) * 5 ^ k * 2 ^ 1074
      = c * 5 ^ k * (2 ^ (s - 1074) * 2 ^ 1074) := by
        generalize (2 : ℕ) ^ 1074 = A
        ring
    _ = c * 2 ^ (1074 - s) * (5 ^ k * 2 ^ s) := by
        rw [e]
        ring
    _ = m * 2 ^ k * (5 ^ k * 2 ^ s) := by rw [h]
    _ = m * 2 ^ s * 10 ^ k := by
        rw [e10]
        ring

theorem amountInRange_toBinary64 (a : Int) (sc : Nat) :
    amountInRange (JSNum.toBinary64 (JSNum.fin a sc)) = true ↔
      (10 : Int) ^ sc < a * 2 ^ 1075 ∧ a * 2 ^ 34 ≤ 10 ^ sc * (1000000 * 2 ^ 34 + 1) := by
  have hd : 0 < 10 ^ sc := pow_pos (by decide) _
  have hdI : (0 : Int) < 10 ^ sc := pow_pos (by decide) _
  have hU : (0 : ℕ) < 2 ^ 1074 := pow_pos (by decide) _
  have hKlt : 1000000 * 2 ^ 1074 < 2 ^ 2098 := by
    have e : (2 : ℕ) ^ 2098 = 2 ^ 1024 * 2 ^ 1074 := pow_add 2 1024 1074
    rw [e]
    apply Nat.mul_lt_mul_of_pos_right _ hU
    have e2 : (2 : ℕ) ^ 1024 = 2 ^ 20 * 2 ^ 1004 := pow_add 2 20 1004
    have h3 : 0 < 2 ^ 1004 := pow_pos (by decide) _
    rw [e2]
    generalize (2 : ℕ) ^ 1004 = T at h3
    omega
  obtain ⟨hpos, hle⟩ := roundUnits_range a.natAbs (10 ^ sc)
    (bitLength (a.natAbs * 2 ^ 1074 / 10 ^ sc) - 53) hd rfl
  have hunits := dyadic_units
    (roundDiv (a.natAbs * 2 ^ 1074)
      (10 ^ sc * 2 ^ (bitLength (a.natAbs * 2 ^ 1074 / 10 ^ sc) - 53)))
    (bitLength (a.natAbs * 2 ^ 1074 / 10 ^ sc) - 53)
  simp only [JSNum.toBinary64]
  generalize bitLength (a.natAbs * 2 ^ 1074 / 10 ^ sc) - 53 = s at hpos hle hunits ⊢
  generalize roundDiv (a.natAbs * 2 ^ 1074) (10 ^ sc * 2 ^ s) = m at hpos hle hunits ⊢
  generalize dyadic (1074 - s) m = r at hunits ⊢
  by_cases ha : 0 < a
  · have hn : ((a.natAbs : ℕ) : Int) = a := Int.natAbs_of_nonneg (le_of_lt ha)
    have hneg : ¬ a < 0 := by omega
    have r1 : ((10 : Int) ^ sc < a * 2 ^ 1075) ↔ 10 ^ sc < a.natAbs * 2 ^ 1075 := by
      rw [← hn]
      norm_cast
    have r2 : (a * 2 ^ 34 ≤ 10 ^ sc * (1000000 * 2 ^ 34 + 1)) ↔
        a.natAbs * 2 ^ 34 ≤ 10 ^ sc * (1000000 * 2 ^ 34 + 1) := by
      rw [← hn]
      norm_cast
    rw [r1, r2, ← hpos, ← hle]
    by_cases hov : 2 ^ 2098 ≤ m * 2 ^ s
    · rw [if_pos hov, amountInRange_inf]
      constructor
      · intro h
        exact absurd h (by decide)
      · intro h
        omega
    · rw [if_neg hov, if_neg hneg, one_mul, amountInRange_fin]
      have hk : 0 < 10 ^ r.1 := pow_pos (by decide) _
      have q1 : (0 : Int) < ((r.2 * 2 ^ (s - 1074) * 5 ^ r.1 : ℕ) : Int) ↔ 0 < m * 2 ^ s := by
        rw [Int.natCast_pos]
        constructor
        · intro h
          have h1 := Nat.mul_pos h hU
          rw [hunits] at h1
          exact Nat.pos_of_mul_pos_right h1
        · intro h
          have h1 := Nat.mul_pos h hk
          rw [← hunits] at h1
          exact Nat.pos_of_mul_pos_right h1
      have q2 : (((r.2 * 2 ^ (s - 1074) * 5 ^ r.1 : ℕ) : Int) ≤ 1000000 * 10 ^ r.1) ↔
          m * 2 ^ s ≤ 1000000 * 2 ^ 1074 := by
        have c : (((r.2 * 2 ^ (s - 1074) * 5 ^ r.1 : ℕ) : Int) ≤ 1000000 * 10 ^ r.1) ↔
            r.2 * 2 ^ (s - 1074) * 5 ^ r.1 ≤ 1000000 * 10 ^ r.1 := by
          norm_cast
        rw [c, ← mul_le_mul_right hU, hunits]
        have e : 1000000 * 10 ^ r.1 * 2 ^ 1074 = 1000000 * 2 ^ 1074 * 10 ^ r.1 := by
          generalize (2 : ℕ) ^ 1074 = A
          ring
        rw [e]
        exact mul_le_mul_right hk
      rw [q1, q2]
  · have hR : ¬ ((10 : Int) ^ sc < a * 2 ^ 1075 ∧
        a * 2 ^ 34 ≤ 10 ^ sc * (1000000 * 2 ^ 34 + 1)) := by
      intro h
      have h1 : a * 2 ^ 1075 ≤ 0 :=
        mul_nonpos_of_nonpos_of_nonneg (by omega) (le_of_lt (pow_pos (by decide) _))
      have := h.1
      omega
    have hL : ¬ amountInRange
        (if 2 ^ 2098 ≤ m * 2 ^ s then JSNum.inf (decide (a < 0))
        else JSNum.fin ((if a < 0 then -1 else 1) * ((r.2 * 2 ^ (s - 1074) * 5 ^ r.1 : ℕ) : Int))
          r.1) = true := by
      by_cases hov : 2 ^ 2098 ≤ m * 2 ^ s
      · rw [if_pos hov, amountInRange_inf]
        decide
      · rw [if_neg hov, amountInRange_fin]
        intro h
        by_cases hneg : a < 0
        · rw [if_pos hneg] at h
          have := h.1
          omega
        · have ha0 : a = 0 := by omega
          have hm : ¬ 0 < m * 2 ^ s := by
            rw [hpos, ha0]
            simp
          have hz : r.2 * 2 ^ (s - 1074) * 5 ^ r.1 * 2 ^ 1074 = 0 := by
            rw [hunits]
            have : m * 2 ^ s = 0 := by omega
            rw [this, Nat.zero_mul]
          have hz2 : r.2 * 2 ^ (s - 1074) * 5 ^ r.1 = 0 := by
            rcases Nat.mul_eq_zero.mp hz with h1 | h1
            · exact h1
            · omega
          rw [if_neg hneg, hz2] at h
          have := h.1
          simp at this
    exact ⟨fun h => absurd h hL, fun h => absurd h hR⟩

theorem validateAmount_decimalText (neg : Bool) (d0 : Fin 10) (ip fp : List (Fin 10)) :
    validateAmount (decimalText neg d0 ip fp) = true ↔
      1 / 2 ^ 1075 < decimalValue neg d0 ip fp ∧
        decimalValue neg d0 ip fp ≤ 1000000 + 1 / 2 ^ 34 := by
  have h10 : (0 : ℚ) < (10 : ℚ) ^ fp.length := by positivity
  have h2a : (0 : ℚ) < (2 : ℚ) ^ 1075 := pow_pos (by norm_num) _
  have h2b : (0 : ℚ) < (2 : ℚ) ^ 34 := pow_pos (by norm_num) _
  have e : (1000000 : ℚ) + 1 / 2 ^ 34 = (1000000 * 2 ^ 34 + 1) / 2 ^ 34 := by
    field_simp
  rw [validateAmount, parseFloat, parseLiteral_decimalText, amountInRange_toBinary64,
    decimalValue_eq, e]
  generalize (if neg = true then (-1 : Int) else 1) * (digitsNat (d0 :: ip ++ fp) : Int) = a
  rw [div_lt_div_iff₀ h2a h10, div_le_div_iff₀ h10 h2b, one_mul]
  constructor
  · rintro ⟨h1, h2⟩
    refine ⟨by exact_mod_cast h1, ?_⟩
    rw [mul_comm ((1000000 : ℚ) * 2 ^ 34 + 1)]
    exact_mod_cast h2
  · rintro ⟨h1, h2⟩
    refine ⟨by exact_mod_cast h1, ?_⟩
    rw [mul_comm ((1000000 : ℚ) * 2 ^ 34 + 1)] at h2
    exact_mod_cast h2

/-- C8 fails as written on two decimal texts.  The text `1000000.00000000001`
writes an amount above `1000000`, yet its Number value is `1000000` and
`validateAmount` accepts it.  The text `0.` followed by four hundred zeros
and a `1` writes an amount above `0`, yet its Number value is `0` and
`validateAmount` rejects it. -/
theorem validateAmount_exact_range_counterexample :
    decimalText false 1 [0, 0, 0, 0, 0, 0] [0, 0, 0, 0, 0, 0, 0, 0, 0, 0, 1]
      = "1000000.00000000001".toList ∧
    1000000 < decimalValue false 1 [0, 0, 0, 0, 0, 0] [0, 0, 0, 0, 0, 0, 0, 0, 0, 0, 1] ∧
    parseFloat "1000000.00000000001".toList = JSNum.fin 1000000 0 ∧
    validateAmount "1000000.00000000001".toList = true ∧
    decimalText false 0 [] (List.replicate 400 0 ++ [1])
      = '0' :: '.' :: (List.replicate 400 '0' ++ ['1']) ∧
    0 < decimalValue false 0 [] (List.replicate 400 0 ++ [1]) ∧
    parseFloat ('0' :: '.' :: (List.replicate 400 '0' ++ ['1'])) = JSNum.fin 0 0 ∧
    validateAmount ('0' :: '.' :: (List.replicate 400 '0' ++ ['1'])) = false := by
  refine ⟨by decide, ?_, by decide, by decide, by decide, ?_, by decide, by decide⟩
  · rw [decimalValue_eq]
    have h : digitsNat ((1 : Fin 10) :: [0, 0, 0, 0, 0, 0] ++ [0, 0, 0, 0, 0, 0, 0, 0, 0, 0, 1])
        = 100000000000000001 := by decide
    rw [h]
    norm_num
  · rw [decimalValue_eq]
    have h : digitsNat ((0 : Fin 10) :: [] ++ (List.replicate 400 0 ++ [1])) = 1 := by decide
    rw [h]
    have h10 : (0 : ℚ) < (10 : ℚ) ^ (List.replicate 400 (0 : Fin 10) ++ [1]).length := by
      positivity
    rw [div_pos_iff_of_pos_right h10]
    norm_num

/-- C8 (amended): for the decimal text of every amount `a` (an optional minus
sign, integer digits and optional fraction digits), `validateAmount` is true
exactly when the Number value of the text, the binary64 number nearest to `a`,
is above `0` and at most `1000000`, which is when `2 ^ -1075 < a` and
`a ≤ 1000000 + 2 ^ -34`; so `1000000` is accepted, and `0`, a negative
amount, `1000000.01`, a text that is no number and `Infinity` are rejected. -/
theorem validateAmount_iff_binary64_range :
    (∀ (neg : Bool) (d0 : Fin 10) (ip fp : List (Fin 10)),
      validateAmount (decimalText neg d0 ip fp) = true ↔
        1 / 2 ^ 1075 < decimalValue neg d0 ip fp ∧
          decimalValue neg d0 ip fp ≤ 1000000 + 1 / 2 ^ 34) ∧
    validateAmount "1000000".toList = true ∧
    validateAmount "0".toList = false ∧
    validateAmount "-5".toList = false ∧
    validateAmount "1000000.01".toList = false ∧
    validateAmount "abc".toList = false ∧
    validateAmount "Infinity".toList = false :=
  ⟨validateAmount_decimalText, by decide, by decide, by decide, by decide, by decide, by decide⟩

/-! ## Runs on which claims about the workflow fail -/


/-- C2 fails on the code.  The `approve_` branch stores the
`waiting_payment_details` entry under the string `transaction.user.telegramId`
and never under a number, while the message listeners read `userStates` at the
number `msg.chat.id`.  In the run below user `42` submits a sell request, admin
`1` presses Approve on it, and the user answers with payment details: after the
press the session of chat `42` is still idle, and after the answer the
transaction is still PENDING without payment details. -/
theorem approve_entry_is_never_read :
    (∀ (s : BotState) (txId : Str) (n : Int),
      (approve s txId).userStates (Key.num n) = s.userStates (Key.num n)) ∧
    (run demoConfig demoBoot sellEvents).transactions.map (fun t => t.status)
      = [Status.PENDING] ∧
    (run demoConfig demoBoot
      (sellEvents ++ [Event.callbackQuery (press 1 "approve_0".toList)])).userStates (Key.num 42)
      = none ∧
    (run demoConfig demoBoot
      (sellEvents ++ [Event.callbackQuery (press 1 "approve_0".toList)])).userStates
        (Key.str "42".toList)
      = some (UserState.waiting_payment_details "0".toList) ∧
    (run demoConfig demoBoot
      (sellEvents ++ [Event.callbackQuery (press 1 "approve_0".toList),
        Event.message 2000 (textMessage 42 "IBAN 123".toList)])).transactions.map
        (fun t => (t.status, t.paymentDetails))
      = [(Status.PENDING, none)] := by
  refine ⟨?_, by decide, by decide, by decide, by decide⟩
  intro s txId n
  unfold approve
  split
  · rfl
  · split
    · rfl
    · split
      · rfl
      · simp [setUser, JSMap.set]

/-- C3 fails on the code: neither the `reject_` branch nor the
`waiting_reject_reason` listener tests the status.  In the first run a
transaction that is already REJECTED gets a new reject reason; in the second a
stored COMPLETED transaction becomes REJECTED. -/
theorem reject_overwrites_terminal_state :
    (run demoConfig demoBoot
      (sellEvents ++ [Event.callbackQuery (press 1 "reject_0".toList),
        Event.message 2000 (textMessage 1 "invalid proof".toList)])).transactions.map
        (fun t => (t.status, t.rejectReason))
      = [(Status.REJECTED, some "invalid proof".toList)] ∧
    (run demoConfig demoBoot
      (sellEvents ++ [Event.callbackQuery (press 1 "reject_0".toList),
        Event.message 2000 (textMessage 1 "invalid proof".toList),
        Event.callbackQuery (press 1 "reject_0".toList),
        Event.message 3000 (textMessage 1 "second thoughts".toList)])).transactions.map
        (fun t => (t.status, t.rejectReason))
      = [(Status.REJECTED, some "second thoughts".toList)] ∧
    (run demoConfig
      { demoBoot with
        users := [{ telegramId := "42".toList, username := "user".toList }],
        transactions := [storedSell Status.COMPLETED] }
      [Event.callbackQuery (press 1 "reject_0".toList),
        Event.message 2000 (textMessage 1 "too late".toList)]).transactions.map
        (fun t => (t.status, t.rejectReason))
      = [(Status.REJECTED, some "too late".toList)] := by
  refine ⟨by decide, by decide, by decide⟩

/-- C5 fails on the code: only the first listener asks the rate limiter.
After `busyBuyEvents` chat `42` has used its ten messages and waits for a
payment proof; the next message, a photo sent within the same window, is
refused by `checkRateLimit` and still creates a transaction and ends the
dialogue. -/
theorem rate_limited_message_still_handled :
    (checkRateLimit (run demoConfig demoBoot busyBuyEvents).userMessageCounts
      (Key.num 42) 10).1 = false ∧
    (run demoConfig demoBoot busyBuyEvents).transactions = [] ∧
    ((run demoConfig demoBoot busyBuyEvents).userStates (Key.num 42)).isSome = true ∧
    (onMessage 10 (run demoConfig demoBoot busyBuyEvents)
      (photoMessage 42 "file1".toList 2048)).transactions.map
        (fun t => (t.type, t.status, t.paymentProof))
      = [("buy".toList, Status.PENDING, some "file1".toList)] ∧
    (onMessage 10 (run demoConfig demoBoot busyBuyEvents)
      (photoMessage 42 "file1".toList 2048)).userStates (Key.num 42) = none := by
  refine ⟨by decide, by decide, by decide, by decide, by decide⟩

/-- C6 fails on the code: the entries of the `handlers` table run without an
admin check.  Chat `42` is not an admin; its press of `set_crypto_rates`
creates an admin dialogue, and its next three texts replace the crypto rates in
memory and in the store. -/
theorem non_admin_changes_settings :
    idToString 42 ∉ demoConfig.adminIds ∧
    (run demoConfig demoBoot
      [Event.callbackQuery (press 42 "set_crypto_rates".toList)]).adminStates (Key.num 42)
      = some (AdminState.setting_crypto_rates "btc".toList []) ∧
    (run demoConfig demoBoot
      [Event.callbackQuery (press 42 "set_crypto_rates".toList),
        Event.message 0 (textMessage 42 "1".toList),
        Event.message 1 (textMessage 42 "2".toList),
        Event.message 2 (textMessage 42 "3".toList)]).globalSettings.cryptoRates
      = [("BTC".toList, JSNum.fin 1 0), ("ETH".toList, JSNum.fin 2 0),
          ("USDT".toList, JSNum.fin 3 0)] ∧
    (run demoConfig demoBoot
      [Event.callbackQuery (press 42 "set_crypto_rates".toList),
        Event.message 0 (textMessage 42 "1".toList),
        Event.message 1 (textMessage 42 "2".toList),
        Event.message 2 (textMessage 42 "3".toList)]).settings.map (fun d => d.cryptoRates)
      = some [("BTC".toList, JSNum.fin 1 0), ("ETH".toList, JSNum.fin 2 0),
          ("USDT".toList, JSNum.fin 3 0)] ∧
    demoBoot.globalSettings.cryptoRates
      = [("BTC".toList, JSNum.fin 50000 0), ("ETH".toList, JSNum.fin 3000 0),
          ("USDT".toList, JSNum.fin 1 0)] := by
  refine ⟨by decide, by decide, by decide, by decide, by decide⟩

/-- C7 fails on the code: the Transaction schema admits only the types `buy`
and `sell` and requires a crypto type, so it rejects every gift-card record.
A session that waits for the gift-card upload and receives a valid photo ends
with no transaction stored; so does the whole dialogue from the brand button
on. -/
theorem gift_card_record_rejected_by_schema :
    (∀ tx : Transaction, tx.type = "sell_gift_card".toList → validateTransaction tx = false) ∧
    (∀ tx : Transaction, tx.cryptoType = [] → validateTransaction tx = false) ∧
    (onGiftDetailsMessage
      (run demoConfig demoBoot
        [Event.message 0 (textMessage 42 "/start".toList),
          Event.callbackQuery (press 42 "sell_amazon".toList)])
      (textMessage 42 "50 USD".toList)).userStates (Key.num 42)
      = some (UserState.waiting_gift_upload "Amazon".toList (JSNum.fin 50 0) "USD".toList
          (JSNum.fin 4250 2)) ∧
    (onMessage 2000
      (onGiftDetailsMessage
        (run demoConfig demoBoot
          [Event.message 0 (textMessage 42 "/start".toList),
            Event.callbackQuery (press 42 "sell_amazon".toList)])
        (textMessage 42 "50 USD".toList))
      (photoMessage 42 "card1".toList 2048)).transactions = [] ∧
    (onMessage 2000
      (onGiftDetailsMessage
        (run demoConfig demoBoot
          [Event.message 0 (textMessage 42 "/start".toList),
            Event.callbackQuery (press 42 "sell_amazon".toList)])
        (textMessage 42 "50 USD".toList))
      (photoMessage 42 "card1".toList 2048)).userStates (Key.num 42) = none ∧
    (run demoConfig demoBoot
      [Event.message 0 (textMessage 42 "/start".toList),
        Event.callbackQuery (press 42 "sell_amazon".toList),
        Event.message 1000 (textMessage 42 "50 USD".toList),
        Event.message 2000 (photoMessage 42 "card1".toList 2048)]).transactions = [] := by
  refine ⟨?_, ?_, by decide, by decide, by decide, by decide⟩
  · intro tx h
    simp [validateTransaction, h]
  · intro tx h
    simp [validateTransaction, h]

/-! ## Frame lemmas -/

/-! ## Frame lemmas for the listeners -/

@[simp] theorem clearUser_userStates (s : BotState) (k : Key) :
    (clearUser s k).userStates = s.userStates.delete k := rfl
@[simp] theorem clearUser_transactions (s : BotState) (k : Key) :
    (clearUser s k).transactions = s.transactions := rfl
@[simp] theorem clearUser_users (s : BotState) (k : Key) :
    (clearUser s k).users = s.users := rfl
@[simp] theorem clearUser_adminStates (s : BotState) (k : Key) :
    (clearUser s k).adminStates = s.adminStates := rfl
@[simp] theorem clearUser_settings (s : BotState) (k : Key) :
    (clearUser s k).settings = s.settings := rfl
@[simp] theorem clearUser_globalSettings (s : BotState) (k : Key) :
    (clearUser s k).globalSettings = s.globalSettings := rfl
@[simp] theorem setUser_userStates (s : BotState) (k : Key) (st : UserState) :
    (setUser s k st).userStates = s.userStates.set k st := rfl
@[simp] theorem setUser_transactions (s : BotState) (k : Key) (st : UserState) :
    (setUser s k st).transactions = s.transactions := rfl
@[simp] theorem setUser_users (s : BotState) (k : Key) (st : UserState) :
    (setUser s k st).users = s.users := rfl
@[simp] theorem setUser_adminStates (s : BotState) (k : Key) (st : UserState) :
    (setUser s k st).adminStates = s.adminStates := rfl
@[simp] theorem setUser_settings (s : BotState) (k : Key) (st : UserState) :
    (setUser s k st).settings = s.settings := rfl
@[simp] theorem setUser_globalSettings (s : BotState) (k : Key) (st : UserState) :
    (setUser s k st).globalSettings = s.globalSettings := rfl
@[simp] theorem clearAdmin_userStates (s : BotState) (k : Key) :
    (clearAdmin s k).userStates = s.userStates := rfl
@[simp] theorem clearAdmin_transactions (s : BotState) (k : Key) :
    (clearAdmin s k).transactions = s.transactions := rfl
@[simp] theorem clearAdmin_users (s : BotState) (k : Key) :
    (clearAdmin s k).users = s.users := rfl
@[simp] theorem clearAdmin_adminStates (s : BotState) (k : Key) :
    (clearAdmin s k).adminStates = s.adminStates.delete k := rfl
@[simp] theorem setAdmin_userStates (s : BotState) (k : Key) (st : AdminState) :
    (setAdmin s k st).userStates = s.userStates := rfl
@[simp] theorem setAdmin_transactions (s : BotState) (k : Key) (st : AdminState) :
    (setAdmin s k st).transactions = s.transactions := rfl
@[simp] theorem setAdmin_users (s : BotState) (k : Key) (st : AdminState) :
    (setAdmin s k st).users = s.users := rfl
@[simp] theorem setAdmin_adminStates (s : BotState) (k : Key) (st : AdminState) :
    (setAdmin s k st).adminStates = s.adminStates.set k st := rfl
@[simp] theorem setAdmin_settings (s : BotState) (k : Key) (st : AdminState) :
    (setAdmin s k st).settings = s.settings := rfl
@[simp] theorem setAdmin_globalSettings (s : BotState) (k : Key) (st : AdminState) :
    (setAdmin s k st).globalSettings = s.globalSettings := rfl

theorem amountInput_transactions (s : BotState) (k : Key) (c t x : Str) :
    (amountInput s k c t x).transactions = s.transactions := by
  unfold amountInput
  dsimp only
  repeat' split
  all_goals rfl

theorem onAmountMessage_transactions (now : Nat) (s : BotState) (msg : Message) :
    (onAmountMessage now s msg).transactions = s.transactions := by
  unfold onAmountMessage
  dsimp only
  repeat' split
  all_goals first | rfl | exact amountInput_transactions _ _ _ _ _

theorem onGiftDetailsMessage_transactions (s : BotState) (msg : Message) :
    (onGiftDetailsMessage s msg).transactions = s.transactions := by
  unfold onGiftDetailsMessage
  dsimp only
  repeat' split
  all_goals rfl

theorem onAdminSettingsMessage_transactions (s : BotState) (msg : Message) :
    (onAdminSettingsMessage s msg).transactions = s.transactions := by
  unfold onAdminSettingsMessage cryptoRatesInput giftRatesInput walletsInput
  dsimp only
  repeat' split
  all_goals rfl

theorem onStart_transactions (s : BotState) (msg : Message) :
    (onStart s msg).transactions = s.transactions := by
  unfold onStart
  repeat' split
  all_goals rfl

theorem lookup_mem {β : Type} (k : Str) :
    ∀ (l : List (Str × β)) (v : β), l.lookup k = some v → (k, v) ∈ l := by
  intro l
  induction l with
  | nil => intro v h; simp [List.lookup] at h
  | cons p l ih =>
    intro v h
    obtain ⟨a, b⟩ := p
    by_cases hk : k = a
    · subst hk
      simp [List.lookup] at h
      simp [h]
    · have hb : (k == a) = false := by simpa using hk
      simp only [List.lookup, hb] at h
      exact List.mem_cons_of_mem _ (ih v h)

theorem handlers_frame :
    ∀ p ∈ handlers, ∀ (s : BotState) (q : CallbackQuery),
      (p.2 s q).transactions = s.transactions ∧ (p.2 s q).users = s.users ∧
      (p.2 s q).settings = s.settings ∧ (p.2 s q).globalSettings = s.globalSettings := by
  simp [handlers, showMenu, openDialogue, openWizard]

theorem approve_frame (s : BotState) (txId : Str) :
    (approve s txId).transactions = s.transactions ∧ (approve s txId).users = s.users ∧
    (approve s txId).settings = s.settings ∧
    (approve s txId).globalSettings = s.globalSettings := by
  unfold approve
  repeat' split
  all_goals simp

theorem onCallbackQuery_frame (cfg : Config) (s : BotState) (q : CallbackQuery) :
    (onCallbackQuery cfg s q).transactions = s.transactions ∧
    (onCallbackQuery cfg s q).users = s.users ∧
    (onCallbackQuery cfg s q).settings = s.settings ∧
    (onCallbackQuery cfg s q).globalSettings = s.globalSettings := by
  unfold onCallbackQuery
  dsimp only
  split
  · rename_i handler hl
    exact handlers_frame _ (lookup_mem _ _ _ hl) s q
  · split
    · exact approve_frame s _
    · split <;> simp

/-! ## The pending-transaction invariant -/

theorem pendingCount_append (txs : List Transaction) (tx : Transaction) (u : Nat) (t : Str) :
    pendingCount (txs ++ [tx]) u t =
      pendingCount txs u t +
        (if tx.user = u ∧ tx.type = t ∧ tx.status = Status.PENDING then 1 else 0) := by
  simp only [pendingCount, List.countP_append, List.countP_cons, List.countP_nil, Nat.zero_add,
    decide_eq_true_eq]

theorem pendingCount_of_findPending_none (txs : List Transaction) (u : Nat) (t : Str)
    (h : findPending txs u t = none) : pendingCount txs u t = 0 := by
  simp only [findPending, List.find?_eq_none] at h
  simp only [pendingCount, List.countP_eq_zero]
  exact h

theorem findPending_isSome_of_pos (txs : List Transaction) (u : Nat) (t : Str)
    (h : 1 ≤ pendingCount txs u t) : (findPending txs u t).isSome = true := by
  cases hf : findPending txs u t with
  | none => rw [pendingCount_of_findPending_none txs u t hf] at h; omega
  | some _ => rfl

theorem pendingCount_set_le (tx1 : Transaction) (h1 : tx1.status ≠ Status.PENDING)
    (u : Nat) (t : Str) :
    ∀ (txs : List Transaction) (i : Nat), pendingCount (txs.set i tx1) u t ≤ pendingCount txs u t := by
  intro txs
  induction txs with
  | nil => intro i; simp [pendingCount]
  | cons x xs ih =>
    intro i
    cases i with
    | zero =>
      simp only [List.set_cons_zero, pendingCount, List.countP_cons, h1, and_false, decide_False,
        Bool.false_eq_true, if_false, Nat.add_zero]
      omega
    | succ j =>
      have := ih j
      simp only [pendingCount] at this
      simp only [List.set_cons_succ, pendingCount, List.countP_cons]
      omega

theorem PendingUnique_append (txs : List Transaction) (tx : Transaction)
    (h : PendingUnique txs) (hf : findPending txs tx.user tx.type = none) :
    PendingUnique (txs ++ [tx]) := by
  intro u t
  rw [pendingCount_append]
  by_cases hm : tx.user = u ∧ tx.type = t ∧ tx.status = Status.PENDING
  · obtain ⟨hu, ht, _⟩ := hm
    subst hu; subst ht
    rw [pendingCount_of_findPending_none _ _ _ hf]
    split_ifs <;> omega
  · rw [if_neg hm]
    exact h u t

theorem PendingUnique_set (txs : List Transaction) (i : Nat) (tx1 : Transaction)
    (h : PendingUnique txs) (h1 : tx1.status ≠ Status.PENDING) :
    PendingUnique (txs.set i tx1) := by
  intro u t
  exact le_trans (pendingCount_set_le tx1 h1 u t txs i) (h u t)

/-! ## Preservation of the invariant -/

theorem createTransaction_some (txs txs1 : List Transaction) (tx : Transaction)
    (h : createTransaction txs tx = some txs1) : txs1 = txs ++ [tx] := by
  unfold createTransaction at h
  split at h
  · simpa using h.symm
  · simp at h

theorem saveTransaction_some (txs txs1 : List Transaction) (i : Nat) (tx : Transaction)
    (h : saveTransaction txs i tx = some txs1) : txs1 = txs.set i tx := by
  unfold saveTransaction at h
  split at h
  · simpa using h.symm
  · simp at h

theorem submit_PendingUnique (s : BotState) (k : Key) (chat : Int) (type : Str)
    (doc : Nat → Transaction) (hdoc : ∀ u, (doc u).user = u ∧ (doc u).type = type)
    (h : PendingUnique s.transactions) :
    PendingUnique (submit s k chat type doc).transactions := by
  unfold submit
  split
  · exact h
  · rename_i user _
    split
    · exact h
    · rename_i hf
      split
      · exact h
      · rename_i txs hc
        rw [createTransaction_some _ _ _ hc]
        simp only [clearUser_transactions]
        apply PendingUnique_append _ _ h
        rw [(hdoc user).1, (hdoc user).2]
        exact hf

theorem onProofMessage_PendingUnique (s : BotState) (msg : Message)
    (h : PendingUnique s.transactions) : PendingUnique (onProofMessage s msg).transactions := by
  unfold onProofMessage
  dsimp only
  split
  · split
    · exact h
    · split
      · exact submit_PendingUnique _ _ _ _ _ (fun u => ⟨rfl, rfl⟩) h
      · exact h
  · exact h

theorem onSellMessage_PendingUnique (s : BotState) (msg : Message)
    (h : PendingUnique s.transactions) : PendingUnique (onSellMessage s msg).transactions := by
  unfold onSellMessage
  dsimp only
  split
  · split
    · exact h
    · split
      · exact h
      · split
        · exact h
        · exact submit_PendingUnique _ _ _ _ _ (fun u => ⟨rfl, rfl⟩) h
  · exact h

theorem onGiftUploadMessage_PendingUnique (s : BotState) (msg : Message)
    (h : PendingUnique s.transactions) :
    PendingUnique (onGiftUploadMessage s msg).transactions := by
  unfold onGiftUploadMessage
  dsimp only
  split
  · split
    · exact h
    · split
      · exact h
      · split
        · exact h
        · exact submit_PendingUnique _ _ _ _ _ (fun u => ⟨rfl, rfl⟩) h
  · exact h

theorem onPaymentDetailsMessage_PendingUnique (s : BotState) (msg : Message)
    (h : PendingUnique s.transactions) :
    PendingUnique (onPaymentDetailsMessage s msg).transactions := by
  unfold onPaymentDetailsMessage
  dsimp only
  split
  · split
    · exact h
    · split
      · exact h
      · rename_i txs hs
        rw [saveTransaction_some _ _ _ _ hs]
        exact PendingUnique_set _ _ _ h (by simp)
  · exact h

theorem onRejectReasonMessage_PendingUnique (s : BotState) (msg : Message)
    (h : PendingUnique s.transactions) :
    PendingUnique (onRejectReasonMessage s msg).transactions := by
  unfold onRejectReasonMessage
  dsimp only
  split
  · split
    · exact h
    · split
      · exact h
      · rename_i txs hs
        rw [saveTransaction_some _ _ _ _ hs]
        exact PendingUnique_set _ _ _ h (by simp)
  · exact h

theorem onMessage_PendingUnique (now : Nat) (s : BotState) (msg : Message)
    (h : PendingUnique s.transactions) : PendingUnique (onMessage now s msg).transactions := by
  unfold onMessage
  dsimp only
  rw [onStart_transactions]
  apply onRejectReasonMessage_PendingUnique
  apply onPaymentDetailsMessage_PendingUnique
  rw [onAdminSettingsMessage_transactions]
  apply onGiftUploadMessage_PendingUnique
  rw [onGiftDetailsMessage_transactions]
  apply onSellMessage_PendingUnique
  apply onProofMessage_PendingUnique
  rw [onAmountMessage_transactions]
  exact h

theorem run_PendingUnique (cfg : Config) (events : List Event) :
    ∀ s : BotState, PendingUnique s.transactions → PendingUnique (run cfg s events).transactions := by
  induction events with
  | nil => intro s h; exact h
  | cons e es ih =>
    intro s h
    simp only [run, List.foldl_cons]
    apply ih
    cases e with
    | message now msg => exact onMessage_PendingUnique now s msg h
    | callbackQuery q =>
      simp only [onEvent]
      rw [(onCallbackQuery_frame cfg s q).1]
      exact h

/-! ## Refusal of a duplicate submission -/

theorem submit_duplicate (s : BotState) (k : Key) (chat : Int) (type : Str)
    (doc : Nat → Transaction) (user : Nat)
    (hu : findUser s.users (idToString chat) = some user)
    (hp : (findPending s.transactions user type).isSome = true) :
    submit s k chat type doc = clearUser s k := by
  unfold submit
  rw [hu]
  dsimp only
  cases hf : findPending s.transactions user type with
  | none => rw [hf] at hp; simp at hp
  | some _ => rfl

theorem onAmountMessage_of_submission (now : Nat) (s : BotState) (msg : Message)
    (st : UserState) (type : Str)
    (hst : s.userStates (Key.num msg.chatId) = some st) (hsub : submissionType st = some type) :
    (onAmountMessage now s msg).userStates = s.userStates ∧
    (onAmountMessage now s msg).users = s.users := by
  unfold onAmountMessage
  dsimp only
  split
  · exact ⟨rfl, rfl⟩
  · cases st <;> simp [submissionType] at hsub <;> simp [hst]

theorem onProofMessage_duplicate (s : BotState) (msg : Message) (st : UserState) (type : Str)
    (user : Nat)
    (hst : s.userStates (Key.num msg.chatId) = some st ∨ s.userStates (Key.num msg.chatId) = none)
    (hsub : submissionType st = some type)
    (hu : findUser s.users (idToString msg.chatId) = some user)
    (hp : (findPending s.transactions user type).isSome = true) :
    (onProofMessage s msg).transactions = s.transactions ∧
    (onProofMessage s msg).users = s.users ∧
    ((onProofMessage s msg).userStates (Key.num msg.chatId) = some st ∨
      (onProofMessage s msg).userStates (Key.num msg.chatId) = none) := by
  unfold onProofMessage
  dsimp only
  rcases hst with hst | hst
  · cases st <;> simp only [submissionType, Option.some.injEq, reduceCtorEq] at hsub <;>
      simp only [hst]
    · subst hsub
      split
      · simp [JSMap.delete_same]
      · split
        · rw [submit_duplicate _ _ _ _ _ user hu hp]
          simp [JSMap.delete_same]
        · simp [hst]
    · simp [hst]
    · simp [hst]
  · simp [hst]

theorem onSellMessage_duplicate (s : BotState) (msg : Message) (st : UserState) (type : Str)
    (user : Nat)
    (hst : s.userStates (Key.num msg.chatId) = some st ∨ s.userStates (Key.num msg.chatId) = none)
    (hsub : submissionType st = some type)
    (hu : findUser s.users (idToString msg.chatId) = some user)
    (hp : (findPending s.transactions user type).isSome = true) :
    (onSellMessage s msg).transactions = s.transactions ∧
    (onSellMessage s msg).users = s.users ∧
    ((onSellMessage s msg).userStates (Key.num msg.chatId) = some st ∨
      (onSellMessage s msg).userStates (Key.num msg.chatId) = none) := by
  unfold onSellMessage
  dsimp only
  rcases hst with hst | hst
  · cases st <;> simp only [submissionType, Option.some.injEq, reduceCtorEq] at hsub <;>
      simp only [hst]
    · simp [hst]
    · subst hsub
      split
      · simp [JSMap.delete_same]
      · split
        · simp [hst]
        · split
          · simp [hst]
          · rw [submit_duplicate _ _ _ _ _ user hu hp]
            simp [JSMap.delete_same]
    · simp [hst]
  · simp [hst]

theorem onGiftUploadMessage_duplicate (s : BotState) (msg : Message) (st : UserState)
    (type : Str) (user : Nat)
    (hst : s.userStates (Key.num msg.chatId) = some st ∨ s.userStates (Key.num msg.chatId) = none)
    (hsub : submissionType st = some type)
    (hu : findUser s.users (idToString msg.chatId) = some user)
    (hp : (findPending s.transactions user type).isSome = true) :
    (onGiftUploadMessage s msg).transactions = s.transactions ∧
    (onGiftUploadMessage s msg).users = s.users ∧
    ((onGiftUploadMessage s msg).userStates (Key.num msg.chatId) = some st ∨
      (onGiftUploadMessage s msg).userStates (Key.num msg.chatId) = none) := by
  unfold onGiftUploadMessage
  dsimp only
  rcases hst with hst | hst
  · cases st <;> simp only [submissionType, Option.some.injEq, reduceCtorEq] at hsub <;>
      simp only [hst]
    · simp [hst]
    · simp [hst]
    · subst hsub
      split
      · simp [JSMap.delete_same]
      · split
        · simp [hst]
        · split
          · simp [hst]
          · rw [submit_duplicate _ _ _ _ _ user hu hp]
            simp [JSMap.delete_same]
  · simp [hst]

theorem onGiftDetailsMessage_of_submission (s : BotState) (msg : Message) (st : UserState)
    (type : Str)
    (hst : s.userStates (Key.num msg.chatId) = some st ∨ s.userStates (Key.num msg.chatId) = none)
    (hsub : submissionType st = some type) :
    onGiftDetailsMessage s msg = s := by
  unfold onGiftDetailsMessage
  dsimp only
  rcases hst with hst | hst
  · cases st <;> simp [submissionType] at hsub <;> simp [hst]
  · simp [hst]

theorem onPaymentDetailsMessage_of_submission (s : BotState) (msg : Message) (st : UserState)
    (type : Str)
    (hst : s.userStates (Key.num msg.chatId) = some st ∨ s.userStates (Key.num msg.chatId) = none)
    (hsub : submissionType st = some type) :
    onPaymentDetailsMessage s msg = s := by
  unfold onPaymentDetailsMessage
  dsimp only
  rcases hst with hst | hst
  · cases st <;> simp [submissionType] at hsub <;> simp [hst]
  · simp [hst]

theorem onAdminSettingsMessage_userStates (s : BotState) (msg : Message) :
    (onAdminSettingsMessage s msg).userStates = s.userStates ∧
    (onAdminSettingsMessage s msg).users = s.users := by
  unfold onAdminSettingsMessage cryptoRatesInput giftRatesInput walletsInput
  dsimp only
  repeat' split
  all_goals exact ⟨rfl, rfl⟩

theorem onRejectReasonMessage_length (s : BotState) (msg : Message) :
    (onRejectReasonMessage s msg).transactions.length = s.transactions.length ∧
    (onRejectReasonMessage s msg).userStates = s.userStates := by
  unfold onRejectReasonMessage
  dsimp only
  split
  · split
    · exact ⟨rfl, rfl⟩
    · split
      · exact ⟨rfl, rfl⟩
      · rename_i txs hs
        rw [saveTransaction_some _ _ _ _ hs]
        simp
  · exact ⟨rfl, rfl⟩

theorem onMessage_duplicate (now : Nat) (s : BotState) (msg : Message) (st : UserState)
    (type : Str) (user : Nat)
    (hst : s.userStates (Key.num msg.chatId) = some st)
    (hsub : submissionType st = some type)
    (hu : findUser s.users (idToString msg.chatId) = some user)
    (hp : 1 ≤ pendingCount s.transactions user type) :
    (onMessage now s msg).transactions.length = s.transactions.length := by
  have hp1 := findPending_isSome_of_pos _ _ _ hp
  obtain ⟨a1, a2⟩ := onAmountMessage_of_submission now s msg st type hst hsub
  have a3 := onAmountMessage_transactions now s msg
  obtain ⟨b1, b2, b3⟩ := onProofMessage_duplicate (onAmountMessage now s msg) msg st type user
    (by rw [a1]; exact Or.inl hst) hsub (by rw [a2]; exact hu) (by rw [a3]; exact hp1)
  obtain ⟨c1, c2, c3⟩ := onSellMessage_duplicate _ msg st type user b3 hsub
    (by rw [b2, a2]; exact hu) (by rw [b1, a3]; exact hp1)
  have d := onGiftDetailsMessage_of_submission _ msg st type c3 hsub
  obtain ⟨e1, e2, e3⟩ := onGiftUploadMessage_duplicate
    (onGiftDetailsMessage (onSellMessage (onProofMessage (onAmountMessage now s msg) msg) msg)
      msg) msg st type user
    (by rw [d]; exact c3) hsub (by rw [d, c2, b2, a2]; exact hu)
    (by rw [d, c1, b1, a3]; exact hp1)
  obtain ⟨f1, f2⟩ := onAdminSettingsMessage_userStates
    (onGiftUploadMessage (onGiftDetailsMessage (onSellMessage (onProofMessage
      (onAmountMessage now s msg) msg) msg) msg) msg) msg
  have f3 := onAdminSettingsMessage_transactions
    (onGiftUploadMessage (onGiftDetailsMessage (onSellMessage (onProofMessage
      (onAmountMessage now s msg) msg) msg) msg) msg) msg
  have g := onPaymentDetailsMessage_of_submission
    (onAdminSettingsMessage (onGiftUploadMessage (onGiftDetailsMessage (onSellMessage
      (onProofMessage (onAmountMessage now s msg) msg) msg) msg) msg) msg) msg st type
    (by rw [f1]; exact e3) hsub
  unfold onMessage
  dsimp only
  rw [onStart_transactions, (onRejectReasonMessage_length _ msg).1, g, f3, e1, d, c1, b1, a3]

/-! ## Claim on duplicate submissions -/

/-- C1: when events are handled one after another, a store with at most one
PENDING transaction per user and type keeps that property in every state that
follows; and a message that arrives in `waiting_proof`, `waiting_tx_sell` or
`waiting_gift_upload` while the user already has a PENDING transaction of the
type the dialogue submits creates no record. -/
theorem at_most_one_pending (cfg : Config) (s : BotState) (events : List Event)
    (h : ∀ (user : Nat) (type : Str), pendingCount s.transactions user type ≤ 1) :
    (∀ (user : Nat) (type : Str),
      pendingCount (run cfg s events).transactions user type ≤ 1) ∧
    (∀ (now : Nat) (s1 : BotState) (msg : Message) (st : UserState) (type : Str) (user : Nat),
      s1.userStates (Key.num msg.chatId) = some st →
      submissionType st = some type →
      findUser s1.users (idToString msg.chatId) = some user →
      1 ≤ pendingCount s1.transactions user type →
      (onMessage now s1 msg).transactions.length = s1.transactions.length) :=
  ⟨run_PendingUnique cfg events s h,
   fun now s1 msg st type user hst hsub hu hp =>
     onMessage_duplicate now s1 msg st type user hst hsub hu hp⟩

/-- Witness of C1: user `42` has a PENDING purchase and completes a second
buy dialogue with a valid photo. -/
theorem at_most_one_pending_witness :
    pendingCount (run demoConfig demoBoot
      (buyTwiceEvents ++ [Event.message 4000 (photoMessage 42 "file2".toList 2048)])).transactions
      0 "buy".toList ≤ 1 ∧
    (onMessage 4000 (run demoConfig demoBoot buyTwiceEvents)
      (photoMessage 42 "file2".toList 2048)).transactions.length
      = (run demoConfig demoBoot buyTwiceEvents).transactions.length :=
  ⟨(at_most_one_pending demoConfig demoBoot
      (buyTwiceEvents ++ [Event.message 4000 (photoMessage 42 "file2".toList 2048)])
      (fun _ _ => by simp [demoBoot, bootState, pendingCount])).1 0 "buy".toList,
   (at_most_one_pending demoConfig demoBoot []
      (fun _ _ => by simp [demoBoot, bootState, pendingCount])).2 4000
      (run demoConfig demoBoot buyTwiceEvents) (photoMessage 42 "file2".toList 2048)
      (UserState.waiting_proof "BTC".toList "buy".toList (parseFloat "0.7".toList)
        (some (JSNum.fin 50000 0)) (JSNum.mul (parseFloat "0.7".toList) (JSNum.fin 50000 0)))
      "buy".toList 0 (by decide) (by decide) (by decide) (by decide)⟩

/-! ## Claim on cancelling a dialogue -/

theorem cancel_text_facts (msg : Message) (text : Str) (htext : msg.text = some text)
    (hcancel : toLowerCase text = "cancel".toList) :
    truthy msg.text = some text ∧ isCancel msg.text = true := by
  have hne : text ≠ [] := by
    intro h
    rw [h] at hcancel
    exact absurd hcancel (by decide)
  simp [truthy, isCancel, htext, hne, hcancel]

theorem onProofMessage_of_none (s : BotState) (msg : Message)
    (h : s.userStates (Key.num msg.chatId) = none) : onProofMessage s msg = s := by
  simp [onProofMessage, h]

theorem onSellMessage_of_none (s : BotState) (msg : Message)
    (h : s.userStates (Key.num msg.chatId) = none) : onSellMessage s msg = s := by
  simp [onSellMessage, h]

theorem onGiftDetailsMessage_of_none (s : BotState) (msg : Message)
    (h : s.userStates (Key.num msg.chatId) = none) : onGiftDetailsMessage s msg = s := by
  simp [onGiftDetailsMessage, h]

theorem onGiftUploadMessage_of_none (s : BotState) (msg : Message)
    (h : s.userStates (Key.num msg.chatId) = none) : onGiftUploadMessage s msg = s := by
  simp [onGiftUploadMessage, h]

theorem onPaymentDetailsMessage_of_none (s : BotState) (msg : Message)
    (h : s.userStates (Key.num msg.chatId) = none) : onPaymentDetailsMessage s msg = s := by
  simp [onPaymentDetailsMessage, h]

theorem onAdminSettingsMessage_of_none (s : BotState) (msg : Message)
    (h : s.adminStates (Key.num msg.chatId) = none) : onAdminSettingsMessage s msg = s := by
  simp [onAdminSettingsMessage, h]

theorem onRejectReasonMessage_of_none (s : BotState) (msg : Message)
    (h : s.adminStates (Key.num msg.chatId) = none) : onRejectReasonMessage s msg = s := by
  simp [onRejectReasonMessage, h]

/-- The five user-side listeners on a `cancel` text in a cancellable state: the
session entry is removed and only the rate-limit counters change besides. -/
theorem userSide_cancel (now : Nat) (s : BotState) (msg : Message) (st : UserState)
    (text : Str)
    (hst : s.userStates (Key.num msg.chatId) = some st)
    (hc : cancellable st = true)
    (htext : msg.text = some text) (hcancel : toLowerCase text = "cancel".toList)
    (hgate : behindRateLimit st = true →
      (checkRateLimit s.userMessageCounts (Key.num msg.chatId) now).1 = true) :
    onGiftUploadMessage (onGiftDetailsMessage (onSellMessage (onProofMessage
        (onAmountMessage now s msg) msg) msg) msg) msg =
      clearUser { s with userMessageCounts :=
        (checkRateLimit s.userMessageCounts (Key.num msg.chatId) now).2 }
        (Key.num msg.chatId) := by
  obtain ⟨ht, hic⟩ := cancel_text_facts msg text htext hcancel
  cases st with
  | waiting_amount c t =>
    have hg := hgate rfl
    have e1 : onAmountMessage now s msg = clearUser { s with userMessageCounts :=
        (checkRateLimit s.userMessageCounts (Key.num msg.chatId) now).2 }
        (Key.num msg.chatId) := by
      simp [onAmountMessage, hg, hst, ht, amountInput, hcancel]
    rw [e1]
    rw [onProofMessage_of_none _ _ (by simp [JSMap.delete_same]),
      onSellMessage_of_none _ _ (by simp [JSMap.delete_same]),
      onGiftDetailsMessage_of_none _ _ (by simp [JSMap.delete_same]),
      onGiftUploadMessage_of_none _ _ (by simp [JSMap.delete_same])]
  | waiting_amount_sell c t =>
    have hg := hgate rfl
    have e1 : onAmountMessage now s msg = clearUser { s with userMessageCounts :=
        (checkRateLimit s.userMessageCounts (Key.num msg.chatId) now).2 }
        (Key.num msg.chatId) := by
      simp [onAmountMessage, hg, hst, ht, amountInput, hcancel]
    rw [e1]
    rw [onProofMessage_of_none _ _ (by simp [JSMap.delete_same]),
      onSellMessage_of_none _ _ (by simp [JSMap.delete_same]),
      onGiftDetailsMessage_of_none _ _ (by simp [JSMap.delete_same]),
      onGiftUploadMessage_of_none _ _ (by simp [JSMap.delete_same])]
  | waiting_proof c t a r f =>
    have e1 : onAmountMessage now s msg = { s with userMessageCounts :=
        (checkRateLimit s.userMessageCounts (Key.num msg.chatId) now).2 } := by
      unfold onAmountMessage
      dsimp only
      split
      · rfl
      · simp [hst]
    have e2 : onProofMessage { s with userMessageCounts :=
        (checkRateLimit s.userMessageCounts (Key.num msg.chatId) now).2 } msg =
        clearUser { s with userMessageCounts :=
          (checkRateLimit s.userMessageCounts (Key.num msg.chatId) now).2 }
          (Key.num msg.chatId) := by
      simp [onProofMessage, hst, hic]
    rw [e1, e2]
    rw [onSellMessage_of_none _ _ (by simp [JSMap.delete_same]),
      onGiftDetailsMessage_of_none _ _ (by simp [JSMap.delete_same]),
      onGiftUploadMessage_of_none _ _ (by simp [JSMap.delete_same])]
  | waiting_tx_sell c t a =>
    have e1 : onAmountMessage now s msg = { s with userMessageCounts :=
        (checkRateLimit s.userMessageCounts (Key.num msg.chatId) now).2 } := by
      unfold onAmountMessage
      dsimp only
      split
      · rfl
      · simp [hst]
    have e2 : onProofMessage { s with userMessageCounts :=
        (checkRateLimit s.userMessageCounts (Key.num msg.chatId) now).2 } msg =
        { s with userMessageCounts :=
          (checkRateLimit s.userMessageCounts (Key.num msg.chatId) now).2 } := by
      simp [onProofMessage, hst]
    have e3 : onSellMessage { s with userMessageCounts :=
        (checkRateLimit s.userMessageCounts (Key.num msg.chatId) now).2 } msg =
        clearUser { s with userMessageCounts :=
          (checkRateLimit s.userMessageCounts (Key.num msg.chatId) now).2 }
          (Key.num msg.chatId) := by
      simp [onSellMessage, hst, hic]
    rw [e1, e2, e3]
    rw [onGiftDetailsMessage_of_none _ _ (by simp [JSMap.delete_same]),
      onGiftUploadMessage_of_none _ _ (by simp [JSMap.delete_same])]
  | waiting_gift_details g =>
    have e1 : onAmountMessage now s msg = { s with userMessageCounts :=
        (checkRateLimit s.userMessageCounts (Key.num msg.chatId) now).2 } := by
      unfold onAmountMessage
      dsimp only
      split
      · rfl
      · simp [hst]
    have e2 : onProofMessage { s with userMessageCounts :=
        (checkRateLimit s.userMessageCounts (Key.num msg.chatId) now).2 } msg =
        { s with userMessageCounts :=
          (checkRateLimit s.userMessageCounts (Key.num msg.chatId) now).2 } := by
      simp [onProofMessage, hst]
    have e3 : onSellMessage { s with userMessageCounts :=
        (checkRateLimit s.userMessageCounts (Key.num msg.chatId) now).2 } msg =
        { s with userMessageCounts :=
          (checkRateLimit s.userMessageCounts (Key.num msg.chatId) now).2 } := by
      simp [onSellMessage, hst]
    have e4 : onGiftDetailsMessage { s with userMessageCounts :=
        (checkRateLimit s.userMessageCounts (Key.num msg.chatId) now).2 } msg =
        clearUser { s with userMessageCounts :=
          (checkRateLimit s.userMessageCounts (Key.num msg.chatId) now).2 }
          (Key.num msg.chatId) := by
      simp [onGiftDetailsMessage, hst, ht, hcancel]
    rw [e1, e2, e3, e4]
    rw [onGiftUploadMessage_of_none _ _ (by simp [JSMap.delete_same])]
  | waiting_gift_upload g v co p =>
    have e1 : onAmountMessage now s msg = { s with userMessageCounts :=
        (checkRateLimit s.userMessageCounts (Key.num msg.chatId) now).2 } := by
      unfold onAmountMessage
      dsimp only
      split
      · rfl
      · simp [hst]
    have e2 : onProofMessage { s with userMessageCounts :=
        (checkRateLimit s.userMessageCounts (Key.num msg.chatId) now).2 } msg =
        { s with userMessageCounts :=
          (checkRateLimit s.userMessageCounts (Key.num msg.chatId) now).2 } := by
      simp [onProofMessage, hst]
    have e3 : onSellMessage { s with userMessageCounts :=
        (checkRateLimit s.userMessageCounts (Key.num msg.chatId) now).2 } msg =
        { s with userMessageCounts :=
          (checkRateLimit s.userMessageCounts (Key.num msg.chatId) now).2 } := by
      simp [onSellMessage, hst]
    have e4 : onGiftDetailsMessage { s with userMessageCounts :=
        (checkRateLimit s.userMessageCounts (Key.num msg.chatId) now).2 } msg =
        { s with userMessageCounts :=
          (checkRateLimit s.userMessageCounts (Key.num msg.chatId) now).2 } := by
      simp [onGiftDetailsMessage, hst]
    have e5 : onGiftUploadMessage { s with userMessageCounts :=
        (checkRateLimit s.userMessageCounts (Key.num msg.chatId) now).2 } msg =
        clearUser { s with userMessageCounts :=
          (checkRateLimit s.userMessageCounts (Key.num msg.chatId) now).2 }
          (Key.num msg.chatId) := by
      simp [onGiftUploadMessage, hst, hic]
    rw [e1, e2, e3, e4, e5]
  | waiting_payment_details x => simp [cancellable] at hc

theorem onStart_frame (s : BotState) (msg : Message) :
    (onStart s msg).userStates = s.userStates ∧ (onStart s msg).settings = s.settings ∧
    (onStart s msg).globalSettings = s.globalSettings := by
  unfold onStart
  repeat' split
  all_goals exact ⟨rfl, rfl, rfl⟩

/-- C4, amended: in `waiting_amount`, `waiting_amount_sell`, `waiting_proof`,
`waiting_tx_sell`, `waiting_gift_details` and `waiting_gift_upload`, a text
equal to `cancel` in any letter case removes the session entry and creates no
transaction, in the first two states provided the rate limiter admits the
message; when the sender has no admin dialogue open, the stored transactions
and the settings stay as they were.  (`waiting_payment_details` is left out.) -/
theorem cancel_discards_dialogue (now : Nat) (s : BotState) (msg : Message) (st : UserState)
    (text : Str)
    (hst : s.userStates (Key.num msg.chatId) = some st)
    (hc : cancellable st = true)
    (htext : msg.text = some text) (hcancel : toLowerCase text = "cancel".toList)
    (hgate : behindRateLimit st = true →
      (checkRateLimit s.userMessageCounts (Key.num msg.chatId) now).1 = true) :
    (onMessage now s msg).userStates (Key.num msg.chatId) = none ∧
    (onMessage now s msg).transactions.length = s.transactions.length ∧
    (s.adminStates (Key.num msg.chatId) = none →
      (onMessage now s msg).transactions = s.transactions ∧
      (onMessage now s msg).settings = s.settings ∧
      (onMessage now s msg).globalSettings = s.globalSettings) := by
  have hu := userSide_cancel now s msg st text hst hc htext hcancel hgate
  unfold onMessage
  dsimp only
  rw [hu]
  generalize hs1 : clearUser { s with userMessageCounts :=
        (checkRateLimit s.userMessageCounts (Key.num msg.chatId) now).2 }
        (Key.num msg.chatId) = s1
  have k1 : s1.userStates (Key.num msg.chatId) = none := by
    rw [← hs1]; simp [JSMap.delete_same]
  have k2 : s1.transactions = s.transactions := by rw [← hs1]; rfl
  have k3 : s1.adminStates = s.adminStates := by rw [← hs1]; rfl
  have k4 : s1.settings = s.settings ∧ s1.globalSettings = s.globalSettings := by
    rw [← hs1]; exact ⟨rfl, rfl⟩
  obtain ⟨f1, _⟩ := onAdminSettingsMessage_userStates s1 msg
  have f3 := onAdminSettingsMessage_transactions s1 msg
  have g := onPaymentDetailsMessage_of_none (onAdminSettingsMessage s1 msg) msg
    (by rw [f1]; exact k1)
  obtain ⟨h1, h2⟩ := onRejectReasonMessage_length (onAdminSettingsMessage s1 msg) msg
  obtain ⟨i1, i2, i3⟩ := onStart_frame
    (onRejectReasonMessage (onAdminSettingsMessage s1 msg) msg) msg
  rw [g]
  refine ⟨?_, ?_, ?_⟩
  · rw [i1, h2, f1]; exact k1
  · rw [onStart_transactions, h1, f3, k2]
  · intro hadm
    have a6 := onAdminSettingsMessage_of_none s1 msg (by rw [k3]; exact hadm)
    rw [a6]
    have a8 := onRejectReasonMessage_of_none s1 msg (by rw [k3]; exact hadm)
    rw [a8]
    obtain ⟨j1, j2, j3⟩ := onStart_frame s1 msg
    exact ⟨by rw [onStart_transactions, k2], by rw [j2, k4.1], by rw [j3, k4.2]⟩

/-- Witness of the amended C4: chat `42` has just chosen to buy BTC and types
`CaNcEl`. -/
theorem cancel_discards_dialogue_witness :
    (onMessage 0 (run demoConfig demoBoot [Event.callbackQuery (press 42 "buy_btc".toList)])
      (textMessage 42 "CaNcEl".toList)).userStates (Key.num 42) = none ∧
    (onMessage 0 (run demoConfig demoBoot [Event.callbackQuery (press 42 "buy_btc".toList)])
      (textMessage 42 "CaNcEl".toList)).transactions.length
      = (run demoConfig demoBoot
          [Event.callbackQuery (press 42 "buy_btc".toList)]).transactions.length :=
  ⟨(cancel_discards_dialogue 0
      (run demoConfig demoBoot [Event.callbackQuery (press 42 "buy_btc".toList)])
      (textMessage 42 "CaNcEl".toList)
      (UserState.waiting_amount "BTC".toList "buy".toList) "CaNcEl".toList
      (by decide) (by decide) (by decide) (by decide) (fun _ => by decide)).1,
   (cancel_discards_dialogue 0
      (run demoConfig demoBoot [Event.callbackQuery (press 42 "buy_btc".toList)])
      (textMessage 42 "CaNcEl".toList)
      (UserState.waiting_amount "BTC".toList "buy".toList) "CaNcEl".toList
      (by decide) (by decide) (by decide) (by decide) (fun _ => by decide)).2.1⟩

/-- C4, as stated, fails.  After `busyAmountEvents` chat `42` is in
`waiting_amount` and has used its ten messages of the minute: its `cancel` is
dropped by the rate-limit gate and the session entry stays.  And a session
entry `waiting_payment_details` has no cancel test: the text `cancel` is stored
as the payment details and the transaction becomes COMPLETED.  And when the
sender is also in the admin rejection dialogue, the `cancel` that ends the buy
dialogue is taken as the reject reason of a stored transaction. -/
theorem cancel_counterexample :
    (run demoConfig demoBoot busyAmountEvents).userStates (Key.num 42)
      = some (UserState.waiting_amount "BTC".toList "buy".toList) ∧
    (onMessage 10 (run demoConfig demoBoot busyAmountEvents)
      (textMessage 42 "cancel".toList)).userStates (Key.num 42)
      = some (UserState.waiting_amount "BTC".toList "buy".toList) ∧
    (onMessage 2000
      (setUser (run demoConfig demoBoot sellEvents) (Key.num 42)
        (UserState.waiting_payment_details "0".toList))
      (textMessage 42 "cancel".toList)).transactions.map
        (fun t => (t.status, t.paymentDetails))
      = [(Status.COMPLETED, some "cancel".toList)] ∧
    (onMessage 2000
      (run demoConfig demoBoot
        (sellEvents ++ [Event.callbackQuery (press 1 "reject_0".toList),
          Event.callbackQuery (press 1 "buy_btc".toList)]))
      (textMessage 1 "cancel".toList)).transactions.map
        (fun t => (t.status, t.rejectReason))
      = [(Status.REJECTED, some "cancel".toList)] := by
  refine ⟨by decide, by decide, by decide, by decide⟩

/-! ## Claim on sanitizeText -/

theorem mem_of_mem_stripTagsAux (x : Char) :
    ∀ (s : Str) (b : Bool), x ∈ stripTagsAux b s → x ∈ s := by
  intro s
  induction s with
  | nil => intro b h; cases b <;> simp [stripTagsAux] at h
  | cons c cs ih =>
    intro b h
    cases b with
    | true =>
      simp only [stripTagsAux] at h
      split at h
      · exact List.mem_cons_of_mem _ (ih false h)
      · exact List.mem_cons_of_mem _ (ih true h)
    | false =>
      simp only [stripTagsAux] at h
      split at h
      · exact List.mem_cons_of_mem _ (ih true h)
      · rcases List.mem_cons.mp h with h1 | h1
        · rw [h1]; exact List.mem_cons_self _ _
        · exact List.mem_cons_of_mem _ (ih false h1)

theorem hasMarkup_stripTagsAux :
    ∀ (s : Str) (b : Bool), hasMarkup (stripTagsAux b s) = false := by
  intro s
  induction s with
  | nil => intro b; cases b <;> rfl
  | cons c cs ih =>
    intro b
    cases b with
    | true =>
      simp only [stripTagsAux]
      split
      · exact ih false
      · exact ih true
    | false =>
      simp only [stripTagsAux]
      split
      · exact ih true
      · rename_i hc
        simp only [hasMarkup, ih false, Bool.or_false, Bool.and_eq_false_imp, decide_eq_true_eq,
          decide_eq_false_iff_not]
        intro h1 h2
        exact hc ⟨h1, mem_of_mem_stripTagsAux _ _ _ h2⟩

theorem hasMarkup_take : ∀ (s : Str) (n : Nat), hasMarkup s = false → hasMarkup (s.take n) = false := by
  intro s
  induction s with
  | nil => intro n _; simp [hasMarkup]
  | cons c cs ih =>
    intro n h
    cases n with
    | zero => simp [hasMarkup]
    | succ m =>
      simp only [hasMarkup, Bool.or_eq_false_iff, Bool.and_eq_false_imp, decide_eq_true_eq,
        decide_eq_false_iff_not] at h
      simp only [List.take_succ_cons, hasMarkup, ih m h.2, Bool.or_false, Bool.and_eq_false_imp,
        decide_eq_true_eq, decide_eq_false_iff_not]
      intro h1 h2
      exact h.1 h1 (List.mem_of_mem_take h2)

theorem not_markup_of_hasMarkup_false :
    ∀ (s : Str), hasMarkup s = false →
      ¬ ∃ pre mid post : Str, s = pre ++ '<' :: (mid ++ '>' :: post) := by
  intro s
  induction s with
  | nil =>
    intro _ h
    obtain ⟨pre, mid, post, h⟩ := h
    cases pre <;> simp at h
  | cons c cs ih =>
    intro h hex
    simp only [hasMarkup, Bool.or_eq_false_iff, Bool.and_eq_false_imp, decide_eq_true_eq,
      decide_eq_false_iff_not] at h
    obtain ⟨pre, mid, post, he⟩ := hex
    cases pre with
    | nil =>
      simp only [List.nil_append, List.cons.injEq] at he
      apply h.1 he.1
      rw [he.2]
      simp
    | cons p ps =>
      simp only [List.cons_append, List.cons.injEq] at he
      exact ih h.2 ⟨ps, mid, post, he.2⟩

/-- C11: for every input, `sanitizeText` returns at most 1000 code units and
the result holds no `<` that is followed, anywhere later, by a `>`; an absent
or empty input gives the empty string. -/
theorem sanitizeText_bounded_and_markup_free :
    (∀ text : Option Str, (sanitizeText text).length ≤ 1000) ∧
    (∀ text : Option Str,
      ¬ ∃ pre mid post : Str, sanitizeText text = pre ++ '<' :: (mid ++ '>' :: post)) ∧
    sanitizeText none = [] ∧ sanitizeText (some []) = [] := by
  refine ⟨?_, ?_, rfl, rfl⟩
  · intro text
    cases text with
    | none => simp [sanitizeText]
    | some t =>
      simp only [sanitizeText]
      split
      · simp
      · simp only [List.length_take]
        omega
  · intro text
    apply not_markup_of_hasMarkup_false
    cases text with
    | none => rfl
    | some t =>
      simp only [sanitizeText]
      split
      · rfl
      · exact hasMarkup_take _ _ (hasMarkup_stripTagsAux t false)

/-! ## Claim on validateFileUpload -/

/-- C12, as stated, fails: a document whose content kind is not given is
accepted. -/
theorem document_without_kind_accepted :
    validateFileUpload
      { chatId := 42, username := "user".toList, text := none, photo := none,
        document := some { file_id := "doc1".toList, file_size := some 2048,
                           mime_type := none } }
      = some true := by
  decide

/-- C12, amended: `validateFileUpload` accepts a message exactly when it
carries a photo whose last size is not over 10 MB (or has no size given), or no
photo and a document that is not over 10 MB (or has no size given) and whose
content kind is in the allow-list or not given.  A document with a content kind
outside the allow-list, and a message with neither photo nor document, are
rejected. -/
theorem validateFileUpload_accepts_iff :
    (∀ msg : Message,
      validateFileUpload msg = some true ↔
        (∃ photos photo, msg.photo = some photos ∧ photos.getLast? = some photo ∧
            tooLarge photo.file_size = false) ∨
        (msg.photo = none ∧ ∃ doc, msg.document = some doc ∧
            tooLarge doc.file_size = false ∧
            (truthy doc.mime_type = none ∨
              ∃ kind, truthy doc.mime_type = some kind ∧ kind ∈ ALLOWED_MIME_TYPES))) ∧
    (∀ (msg : Message) (doc : Document) (kind : Str),
      msg.photo = none → msg.document = some doc → truthy doc.mime_type = some kind →
      kind ∉ ALLOWED_MIME_TYPES → validateFileUpload msg = some false) ∧
    (∀ msg : Message, msg.photo = none → msg.document = none →
      validateFileUpload msg = some false) ∧
    (∀ size : Option Nat, tooLarge size = false ↔ ∀ n, size = some n → n ≤ 10 * 1024 * 1024) := by
  refine ⟨?_, ?_, ?_, ?_⟩
  · intro msg
    unfold validateFileUpload
    cases hp : msg.photo with
    | some photos =>
      cases hl : photos.getLast? with
      | none => simp [hl]
      | some photo =>
        by_cases ht : tooLarge photo.file_size = true
        · simp [hl, ht]
        · simp [hl, ht]
    | none =>
      cases hd : msg.document with
      | none => simp
      | some doc =>
        by_cases ht : tooLarge doc.file_size = true
        · simp [ht]
        · cases hm : truthy doc.mime_type with
          | none => simp [ht, hm]
          | some kind =>
            by_cases hk : kind ∈ ALLOWED_MIME_TYPES
            · simp [ht, hm, hk]
            · simp [ht, hm, hk]
  · intro msg doc kind hp hd hm hk
    unfold validateFileUpload
    simp only [hp, hd, hm]
    split
    · rfl
    · simp [hk]
  · intro msg hp hd
    simp [validateFileUpload, hp, hd]
  · intro size
    cases size with
    | none => simp [tooLarge]
    | some n => simp [tooLarge, MAX_FILE_SIZE]

/-! ## Lemmas on the parsing of gift-card details -/

theorem not_whiteSpace_of_isDigit (c : Char) (h : isDigit c = true) : isWhiteSpace c = false := by
  simp only [isDigit, Bool.and_eq_true, decide_eq_true_eq] at h
  simp only [isWhiteSpace, Bool.or_eq_false_iff, decide_eq_false_iff_not, Bool.and_eq_false_imp,
    decide_eq_true_eq, List.mem_cons, List.mem_singleton, List.not_mem_nil, or_false]
  constructor
  · omega
  · omega

theorem not_isDigit_of_whiteSpace (c : Char) (h : isWhiteSpace c = true) : isDigit c = false := by
  cases hd : isDigit c with
  | false => rfl
  | true => rw [not_whiteSpace_of_isDigit c hd] at h; simp at h

theorem dropWhile_all {α : Type} (p : α → Bool) :
    ∀ (l r : List α), (∀ x ∈ l, p x = true) → (l ++ r).dropWhile p = r.dropWhile p := by
  intro l
  induction l with
  | nil => intro r _; rfl
  | cons a l ih =>
    intro r h
    have ha : p a = true := h a (List.mem_cons_self _ _)
    simp only [List.cons_append, List.dropWhile, ha]
    exact ih r (fun x hx => h x (List.mem_cons_of_mem _ hx))

theorem takeWhile_all {α : Type} (p : α → Bool) :
    ∀ (l r : List α), (∀ x ∈ l, p x = true) → (l ++ r).takeWhile p = l ++ r.takeWhile p := by
  intro l
  induction l with
  | nil => intro r _; rfl
  | cons a l ih =>
    intro r h
    have ha : p a = true := h a (List.mem_cons_self _ _)
    have := ih r (fun x hx => h x (List.mem_cons_of_mem _ hx))
    simp only [List.cons_append, List.takeWhile_cons, ha, if_true, this]

theorem dropWhile_head_false {α : Type} (p : α → Bool) (a : α) (l : List α) (h : p a = false) :
    (a :: l).dropWhile p = a :: l := by
  simp [List.dropWhile, h]

/-- A text without white space at either end is its own trim. -/
theorem trim_of_clean (s : Str) (h : ∀ c ∈ s, isWhiteSpace c = false) : trim s = s := by
  unfold trim
  have h1 : s.dropWhile isWhiteSpace = s := by
    cases s with
    | nil => rfl
    | cons a l => exact dropWhile_head_false _ _ _ (h a (List.mem_cons_self _ _))
  rw [h1]
  have h2 : s.reverse.dropWhile isWhiteSpace = s.reverse := by
    cases hr : s.reverse with
    | nil => rfl
    | cons a l =>
      apply dropWhile_head_false
      apply h
      rw [← List.mem_reverse, hr]
      exact List.mem_cons_self _ _
  rw [h2, List.reverse_reverse]

theorem trim_ends (a b : Char) (mid : Str) (ha : isWhiteSpace a = false)
    (hb : isWhiteSpace b = false) : trim (a :: (mid ++ [b])) = a :: (mid ++ [b]) := by
  unfold trim
  rw [dropWhile_head_false _ _ _ ha]
  have : (a :: (mid ++ [b])).reverse = b :: (mid.reverse ++ [a]) := by simp
  rw [this, dropWhile_head_false _ _ _ hb, ← this, List.reverse_reverse]

theorem trim_leading (ws t : Str) (hws : ∀ c ∈ ws, isWhiteSpace c = true)
    (ht : ∀ c ∈ t, isWhiteSpace c = false) : trim (ws ++ t) = t := by
  have h0 := trim_of_clean t ht
  unfold trim at h0 ⊢
  rw [dropWhile_all _ _ _ hws]
  exact h0


theorem takeWhile_nondigit_head (rest : Str)
    (hrest : rest = [] ∨ ∃ w r, rest = w :: r ∧ isDigit w = false) :
    rest.takeWhile isDigit = [] ∧ rest.dropWhile isDigit = rest := by
  rcases hrest with h | ⟨w, r, h, hw⟩
  · subst h; exact ⟨rfl, rfl⟩
  · subst h; simp [List.takeWhile, List.dropWhile, hw]

theorem numberMatch_numeral (d0 : Fin 10) (ip fp : List (Fin 10)) (rest : Str)
    (hrest : rest = [] ∨ ∃ w r, rest = w :: r ∧ isWhiteSpace w = true) :
    numberMatch (decimalText false d0 ip fp ++ rest) =
      some ([], decimalText false d0 ip fp, rest) := by
  have hrd : rest = [] ∨ ∃ w r, rest = w :: r ∧ isDigit w = false := by
    rcases hrest with h | ⟨w, r, h, hw⟩
    · exact Or.inl h
    · exact Or.inr ⟨w, r, h, not_isDigit_of_whiteSpace w hw⟩
  obtain ⟨hT, hD⟩ := takeWhile_nondigit_head rest hrd
  have hd0 : isDigit (digitChar d0) = true := isDigit_digitChar d0
  have hdot : isDigit '.' = false := by decide
  have hhead : rest.head? ≠ some '.' := by
    rcases hrest with h | ⟨w, r, h, hw⟩
    · subst h; simp
    · subst h
      simp only [List.head?_cons, ne_eq, Option.some.injEq]
      intro hw2
      rw [hw2] at hw
      exact absurd hw (by decide)
  by_cases hfp : fp = []
  · subst hfp
    have e1 : decimalText false d0 ip [] ++ rest = (d0 :: ip).map digitChar ++ rest := by
      simp [decimalText]
    have e2 : decimalText false d0 ip [] = (d0 :: ip).map digitChar := by
      simp [decimalText]
    rw [e1, e2]
    have t1 : ((d0 :: ip).map digitChar ++ rest).takeWhile (fun c => !isDigit c) = [] := by
      simp [List.takeWhile, hd0]
    have t2 : ((d0 :: ip).map digitChar ++ rest).dropWhile (fun c => !isDigit c) =
        (d0 :: ip).map digitChar ++ rest := by
      simp [List.dropWhile, hd0]
    have t3 : ((d0 :: ip).map digitChar ++ rest).takeWhile isDigit = (d0 :: ip).map digitChar := by
      rw [takeWhile_digits, hT, List.append_nil]
    have t4 : ((d0 :: ip).map digitChar ++ rest).dropWhile isDigit = rest := by
      rw [dropWhile_digits, hD]
    have hne : (d0 :: ip).map digitChar ++ rest ≠ [] := by simp
    simp only [numberMatch, t1, t2, t3, t4, hne, if_false, hhead, false_and]
  · obtain ⟨f0, fs, hf⟩ : ∃ f0 fs, fp = f0 :: fs := by
      cases fp with
      | nil => exact absurd rfl hfp
      | cons a l => exact ⟨a, l, rfl⟩
    have e1 : decimalText false d0 ip fp ++ rest =
        (d0 :: ip).map digitChar ++ ('.' :: (fp.map digitChar ++ rest)) := by
      simp [decimalText, hfp]
    have e2 : decimalText false d0 ip fp = (d0 :: ip).map digitChar ++ '.' :: fp.map digitChar := by
      simp [decimalText, hfp]
    rw [e1, e2]
    have t1 : ((d0 :: ip).map digitChar ++ ('.' :: (fp.map digitChar ++ rest))).takeWhile
        (fun c => !isDigit c) = [] := by
      simp [List.takeWhile, hd0]
    have t2 : ((d0 :: ip).map digitChar ++ ('.' :: (fp.map digitChar ++ rest))).dropWhile
        (fun c => !isDigit c) = (d0 :: ip).map digitChar ++ ('.' :: (fp.map digitChar ++ rest)) := by
      simp [List.dropWhile, hd0]
    have t3 : ((d0 :: ip).map digitChar ++ ('.' :: (fp.map digitChar ++ rest))).takeWhile isDigit =
        (d0 :: ip).map digitChar := by
      rw [takeWhile_digits]; simp [List.takeWhile, hdot]
    have t4 : ((d0 :: ip).map digitChar ++ ('.' :: (fp.map digitChar ++ rest))).dropWhile isDigit =
        '.' :: (fp.map digitChar ++ rest) := by
      rw [dropWhile_digits]; simp [List.dropWhile, hdot]
    have t5 : (fp.map digitChar ++ rest).takeWhile isDigit = fp.map digitChar := by
      rw [takeWhile_digits, hT, List.append_nil]
    have t6 : (fp.map digitChar ++ rest).dropWhile isDigit = rest := by
      rw [dropWhile_digits, hD]
    have t7 : (fp.map digitChar ++ rest).head?.map isDigit = some true := by
      rw [hf]; simp [isDigit_digitChar]
    have hne : (d0 :: ip).map digitChar ++ ('.' :: (fp.map digitChar ++ rest)) ≠ [] := by simp
    simp only [numberMatch, t1, t2, t3, t4, hne, if_false, List.head?_cons, List.tail_cons, t5, t6,
      t7, and_self, if_true]

theorem numberMatch_none_of_no_digit (text : Str) (h : ∀ c ∈ text, isDigit c = false) :
    numberMatch text = none := by
  have : text.dropWhile (fun c => !isDigit c) = [] := by
    have := dropWhile_all (fun c => !isDigit c) text [] (by
      intro x hx; simp [h x hx])
    simpa using this
  simp [numberMatch, this]


theorem toLower_digitChar_ne_c : ∀ d : Fin 10, Char.toLower (digitChar d) ≠ 'c' := by decide

theorem numeral_head (d0 : Fin 10) (ip fp : List (Fin 10)) :
    ∃ tl, decimalText false d0 ip fp = digitChar d0 :: tl := by
  exact ⟨_, by simp [decimalText]; rfl⟩

theorem numeral_not_cancel (d0 : Fin 10) (ip fp : List (Fin 10)) (rest : Str) :
    toLowerCase (decimalText false d0 ip fp ++ rest) ≠ "cancel".toList := by
  obtain ⟨tl, h⟩ := numeral_head d0 ip fp
  rw [h]
  intro hc
  simp only [toLowerCase, List.cons_append, List.map_cons, String.toList] at hc
  have := (List.cons.inj hc).1
  exact toLower_digitChar_ne_c d0 this

theorem numeral_no_whiteSpace (d0 : Fin 10) (ip fp : List (Fin 10)) :
    ∀ c ∈ decimalText false d0 ip fp, isWhiteSpace c = false := by
  intro c hc
  simp only [decimalText, Bool.false_eq_true, if_false, List.nil_append, List.mem_append,
    List.mem_map] at hc
  rcases hc with ⟨d, _, rfl⟩ | hc
  · exact isWhiteSpace_digitChar d
  · split at hc
    · simp at hc
    · rcases List.mem_cons.mp hc with h | h
      · rw [h]; decide
      · obtain ⟨d, _, rfl⟩ := List.mem_map.mp h
        exact isWhiteSpace_digitChar d

theorem mem_of_mem_dropWhile {α : Type} (p : α → Bool) (x : α) :
    ∀ l : List α, x ∈ l.dropWhile p → x ∈ l := by
  intro l
  induction l with
  | nil => intro h; simp at h
  | cons a l ih =>
    intro h
    simp only [List.dropWhile] at h
    split at h
    · exact List.mem_cons_of_mem _ (ih h)
    · exact h

theorem mem_of_mem_trim (x : Char) (s : Str) (h : x ∈ trim s) : x ∈ s := by
  unfold trim at h
  rw [List.mem_reverse] at h
  have h1 := mem_of_mem_dropWhile _ _ _ h
  rw [List.mem_reverse] at h1
  exact mem_of_mem_dropWhile _ _ _ h1


theorem numeral_token_match (d0 : Fin 10) (ip fp : List (Fin 10)) (ws token : Str)
    (hws1 : ws ≠ []) (hws2 : ∀ c ∈ ws, isWhiteSpace c = true)
    (ht1 : token ≠ []) (ht2 : ∀ c ∈ token, isWhiteSpace c = false) :
    trim (decimalText false d0 ip fp ++ ws ++ token) = decimalText false d0 ip fp ++ ws ++ token ∧
      numberMatch (decimalText false d0 ip fp ++ ws ++ token) =
        some ([], decimalText false d0 ip fp, ws ++ token) := by
  obtain ⟨tl, hhead⟩ := numeral_head d0 ip fp
  constructor
  · obtain ⟨b, hb⟩ : ∃ b, token = token.dropLast ++ [b] :=
      ⟨token.getLast ht1, (List.dropLast_append_getLast ht1).symm⟩
    have hbw : isWhiteSpace b = false := by
      apply ht2
      rw [hb]
      simp
    have e : decimalText false d0 ip fp ++ ws ++ token =
        digitChar d0 :: ((tl ++ ws ++ token.dropLast) ++ [b]) := by
      rw [hhead]
      conv_lhs => rw [hb]
      simp
    rw [e]
    exact trim_ends _ _ _ (isWhiteSpace_digitChar d0) hbw
  · rw [List.append_assoc]
    apply numberMatch_numeral
    right
    cases ws with
    | nil => exact absurd rfl hws1
    | cons w r => exact ⟨w, r ++ token, rfl, hws2 w (List.mem_cons_self _ _)⟩

theorem onGiftDetailsMessage_accepts (s : BotState) (msg : Message) (giftType : Str)
    (d0 : Fin 10) (ip fp : List (Fin 10)) (ws token : Str)
    (hst : s.userStates (Key.num msg.chatId) = some (UserState.waiting_gift_details giftType))
    (htext : msg.text = some (decimalText false d0 ip fp ++ ws ++ token))
    (hws1 : ws ≠ []) (hws2 : ∀ c ∈ ws, isWhiteSpace c = true)
    (ht1 : token ≠ []) (ht2 : ∀ c ∈ token, isWhiteSpace c = false)
    (hvalid : validateAmount (decimalText false d0 ip fp) = true) :
    onGiftDetailsMessage s msg =
      setUser s (Key.num msg.chatId)
        (UserState.waiting_gift_upload giftType
          (parseFloat (decimalText false d0 ip fp))
          (toUpperCase token)
          (mulUndef (parseFloat (decimalText false d0 ip fp))
            (s.globalSettings.giftCardRates.lookup giftType))) := by
  obtain ⟨tl, hhead⟩ := numeral_head d0 ip fp
  have hne : decimalText false d0 ip fp ++ ws ++ token ≠ [] := by
    rw [hhead]; simp
  have htruthy : truthy msg.text = some (decimalText false d0 ip fp ++ ws ++ token) := by
    simp only [truthy, htext]
    rw [if_neg hne]
  have hnc : toLowerCase (decimalText false d0 ip fp ++ ws ++ token) ≠ "cancel".toList := by
    rw [List.append_assoc]
    exact numeral_not_cancel d0 ip fp (ws ++ token)
  obtain ⟨htrim, hnm⟩ := numeral_token_match d0 ip fp ws token hws1 hws2 ht1 ht2
  have hrange : amountInRange (parseFloat (decimalText false d0 ip fp)) = true := hvalid
  have hcur : trim ([] ++ (ws ++ token)) = token := by
    rw [List.nil_append]
    exact trim_leading ws token hws2 ht2
  have hup : toUpperCase token ≠ [] := by
    simp [toUpperCase, ht1]
  simp only [onGiftDetailsMessage, hst, htruthy, hnc, if_false, htrim, hnm, hrange,
    Bool.true_eq_false, hcur, hup]

theorem onGiftDetailsMessage_no_digit (s : BotState) (msg : Message) (text : Str)
    (htext : msg.text = some text) (hnd : ∀ c ∈ text, isDigit c = false)
    (hnc : toLowerCase text ≠ "cancel".toList) :
    onGiftDetailsMessage s msg = s := by
  have hnm : numberMatch (trim text) = none :=
    numberMatch_none_of_no_digit _ (fun c hc => hnd c (mem_of_mem_trim c text hc))
  unfold onGiftDetailsMessage
  dsimp only
  split
  · rename_i g t hs ht
    have : t = text := by
      simp only [truthy, htext] at ht
      split at ht <;> simp_all
    subst this
    have hnc1 : ¬ toLowerCase t = ['c', 'a', 'n', 'c', 'e', 'l'] := hnc
    simp [hnc1, hnm]
  · rfl

theorem onGiftDetailsMessage_only_number (s : BotState) (msg : Message)
    (d0 : Fin 10) (ip fp : List (Fin 10))
    (htext : msg.text = some (decimalText false d0 ip fp)) :
    onGiftDetailsMessage s msg = s := by
  have htrim : trim (decimalText false d0 ip fp) = decimalText false d0 ip fp :=
    trim_of_clean _ (numeral_no_whiteSpace d0 ip fp)
  have hnm : numberMatch (decimalText false d0 ip fp) =
      some ([], decimalText false d0 ip fp, []) := by
    have := numberMatch_numeral d0 ip fp [] (Or.inl rfl)
    simpa using this
  have hnc : toLowerCase (decimalText false d0 ip fp) ≠ "cancel".toList := by
    have := numeral_not_cancel d0 ip fp []
    simpa using this
  unfold onGiftDetailsMessage
  dsimp only
  split
  · rename_i g t hs ht
    have : t = decimalText false d0 ip fp := by
      simp only [truthy, htext] at ht
      split at ht <;> simp_all
    subst this
    simp only [hnc, if_false, htrim, hnm]
    split
    · rfl
    · simp [trim, toUpperCase]
  · rfl

/-! ## Lemmas on amounts for the buy dialogue -/

theorem toLower_eq_c (c : Char) (h : Char.toLower c = 'c') : c = 'c' ∨ c = 'C' := by
  have hc : Char.ofNat c.toNat = c := Char.ofNat_toNat c
  by_cases hr : 65 ≤ c.toNat ∧ c.toNat ≤ 90
  · obtain ⟨h1, h2⟩ := hr
    generalize c.toNat = n at hc h1 h2
    subst hc
    interval_cases n <;> first | (right; rfl) | (exact absurd h (by decide))
  · left
    simp only [Char.toLower] at h
    have hr1 : ¬ (c.toNat ≥ 65 ∧ c.toNat ≤ 90) := hr
    simpa [hr1] using h

theorem validateAmount_head_c (c : Char) (tl : Str) (hc : c = 'c' ∨ c = 'C') :
    validateAmount (sanitizeText (some (c :: tl))) = false := by
  have hlt : c ≠ '<' := by rcases hc with h | h <;> (rw [h]; decide)
  have hs : sanitizeText (some (c :: tl)) = c :: (stripTagsAux false tl).take 999 := by
    simp [sanitizeText, stripTags, stripTagsAux, hlt]
  rw [hs]
  have hw : isWhiteSpace c = false := by rcases hc with h | h <;> (rw [h]; decide)
  have hd : isDigit c = false := by rcases hc with h | h <;> (rw [h]; decide)
  have h1 : c ≠ '-' := by rcases hc with h | h <;> (rw [h]; decide)
  have h2 : c ≠ '+' := by rcases hc with h | h <;> (rw [h]; decide)
  have h3 : c ≠ '.' := by rcases hc with h | h <;> (rw [h]; decide)
  have h4 : 'I' ≠ c := by rcases hc with h | h <;> (rw [h]; decide)
  have hI : startsWith (c :: (stripTagsAux false tl).take 999) "Infinity".toList = false := by
    simp only [startsWith, String.toList, List.isPrefixOf]
    simp [h4]
  simp only [validateAmount, parseFloat, parseLiteral, List.dropWhile, hw, List.head?_cons,
    Option.some.injEq, h1, h2, or_self, if_false, decide_False, parseDecimal, hI,
    Bool.false_eq_true, List.takeWhile, hd, h3, and_self, if_true, JSNum.toBinary64,
    amountInRange, JSNum.isNaN]
  rfl

theorem cancel_not_valid (text : Str) (h : toLowerCase text = "cancel".toList) :
    validateAmount (sanitizeText (some text)) = false := by
  cases text with
  | nil => exact absurd h (by decide)
  | cons c tl =>
    simp only [toLowerCase, List.map_cons, String.toList] at h
    exact validateAmount_head_c c tl (toLower_eq_c c (List.cons.inj h).1)

theorem numberPathOk_of_amountInRange (a : JSNum) (h : amountInRange a = true) :
    numberPathOk (some a) = true := by
  cases a with
  | nan => simp [amountInRange, JSNum.isNaN] at h
  | inf n => cases n <;> simp [amountInRange, JSNum.isNaN, JSNum.lt, JSNum.le, JSNum.ofNat] at h
  | fin x s =>
    simp only [amountInRange, JSNum.isNaN, JSNum.lt, JSNum.le, JSNum.ofNat, Bool.not_false,
      Bool.true_and, Bool.and_eq_true, decide_eq_true_eq] at h
    simp only [numberPathOk, JSNum.isNaN, JSNum.le, JSNum.ofNat, Bool.not_false, Bool.true_and,
      decide_eq_true_eq]
    simp only [Nat.cast_zero, zero_mul, pow_zero, mul_one] at h ⊢
    omega

theorem numberPathOk_mul (a r : JSNum) (ha : amountInRange a = true)
    (hr : numberPathOk (some r) = true) : numberPathOk (some (JSNum.mul a r)) = true := by
  cases a with
  | nan => simp [amountInRange, JSNum.isNaN] at ha
  | inf n => cases n <;> simp [amountInRange, JSNum.isNaN, JSNum.lt, JSNum.le, JSNum.ofNat] at ha
  | fin x s =>
    simp only [amountInRange, JSNum.isNaN, JSNum.lt, JSNum.le, JSNum.ofNat, Bool.not_false,
      Bool.true_and, Bool.and_eq_true, decide_eq_true_eq, Nat.cast_zero, zero_mul, pow_zero,
      mul_one] at ha
    cases r with
    | nan => simp [numberPathOk, JSNum.isNaN] at hr
    | inf m =>
      cases m with
      | true => simp [numberPathOk, JSNum.isNaN, JSNum.le, JSNum.ofNat] at hr
      | false =>
        have hx : x ≠ 0 := by omega
        have hx2 : ¬ x < 0 := by omega
        simp [JSNum.mul, hx, hx2, numberPathOk, JSNum.isNaN, JSNum.le, JSNum.ofNat]
    | fin y t =>
      simp only [numberPathOk, JSNum.isNaN, JSNum.le, JSNum.ofNat, Bool.not_false, Bool.true_and,
        decide_eq_true_eq, Nat.cast_zero, zero_mul, pow_zero, mul_one] at hr
      simp only [JSNum.mul, numberPathOk, JSNum.isNaN, JSNum.le, JSNum.ofNat, Bool.not_false,
        Bool.true_and, decide_eq_true_eq, Nat.cast_zero, zero_mul, pow_zero, mul_one]
      exact Int.mul_nonneg (by omega) hr

/-! ## Lemmas on the user store and on messages without text -/

theorem findUserFrom_set (t : Str) (u1 : User) :
    ∀ (l : List User) (j n : Nat), (∀ u, l[j]? = some u → u1.telegramId = u.telegramId) →
      findUserFrom t (l.set j u1) n = findUserFrom t l n := by
  intro l
  induction l with
  | nil => intro j n _; rfl
  | cons a l ih =>
    intro j n h
    cases j with
    | zero =>
      have := h a (by simp)
      simp [List.set, findUserFrom, this]
    | succ j =>
      simp only [List.set_cons_succ, findUserFrom]
      rw [ih j (n + 1) (fun u hu => h u (by simpa using hu))]

theorem findUserFrom_some (t : Str) :
    ∀ (l : List User) (n i : Nat), findUserFrom t l n = some i →
      ∃ j u, i = n + j ∧ l[j]? = some u ∧ u.telegramId = t := by
  intro l
  induction l with
  | nil => intro n i h; simp [findUserFrom] at h
  | cons a l ih =>
    intro n i h
    simp only [findUserFrom] at h
    split at h
    · rename_i ha
      simp only [Option.some.injEq] at h
      exact ⟨0, a, by omega, by simp, ha⟩
    · obtain ⟨j, u, h1, h2, h3⟩ := ih (n + 1) i h
      exact ⟨j + 1, u, by omega, by simpa using h2, h3⟩

theorem findUser_upsert_existing (users : List User) (t name : Str) (i : Nat)
    (h : findUser users t = some i) (t1 : Str) :
    findUser (upsertUser users t name) t1 = findUser users t1 := by
  obtain ⟨j, u, h1, h2, h3⟩ := findUserFrom_some t users 0 i h
  have hij : i = j := by omega
  subst hij
  unfold upsertUser
  rw [h]
  unfold findUser
  apply findUserFrom_set
  intro u2 hu2
  rw [h2] at hu2
  simp only [Option.some.injEq] at hu2
  rw [← hu2, h3]

theorem onStart_findUser (s : BotState) (msg : Message) (i : Nat)
    (h : findUser s.users (idToString msg.chatId) = some i) (t1 : Str) :
    findUser (onStart s msg).users t1 = findUser s.users t1 := by
  unfold onStart
  split
  · split
    · exact findUser_upsert_existing _ _ _ i h t1
    · rfl
  · rfl

theorem isCancel_none : isCancel none = false := rfl

theorem onAmountMessage_textless (now : Nat) (s : BotState) (msg : Message)
    (h : msg.text = none) :
    onAmountMessage now s msg = { s with userMessageCounts :=
      (checkRateLimit s.userMessageCounts (Key.num msg.chatId) now).2 } := by
  unfold onAmountMessage
  dsimp only
  split
  · rfl
  · simp [h, truthy]

theorem onGiftDetailsMessage_textless (s : BotState) (msg : Message) (h : msg.text = none) :
    onGiftDetailsMessage s msg = s := by
  simp [onGiftDetailsMessage, h, truthy]

theorem onAdminSettingsMessage_textless (s : BotState) (msg : Message) (h : msg.text = none) :
    onAdminSettingsMessage s msg = s := by
  simp [onAdminSettingsMessage, h, truthy]

theorem onPaymentDetailsMessage_textless (s : BotState) (msg : Message) (h : msg.text = none) :
    onPaymentDetailsMessage s msg = s := by
  simp [onPaymentDetailsMessage, h, truthy]

theorem onRejectReasonMessage_textless (s : BotState) (msg : Message) (h : msg.text = none) :
    onRejectReasonMessage s msg = s := by
  simp [onRejectReasonMessage, h, truthy]

theorem onStart_textless (s : BotState) (msg : Message) (h : msg.text = none) :
    onStart s msg = s := by
  simp [onStart, h]

/-! ## Steps of the buy dialogue -/

/-- The three buy buttons open the amount step of the buy dialogue. -/
theorem onCallbackQuery_buy (cfg : Config) (s : BotState) (q : CallbackQuery) (button ct : Str)
    (hb : (button, ct) ∈ [("buy_btc".toList, "BTC".toList), ("buy_eth".toList, "ETH".toList),
      ("buy_usdt".toList, "USDT".toList)])
    (hq : q.data = button) :
    onCallbackQuery cfg s q =
      setUser s (Key.num q.chatId) (UserState.waiting_amount ct "buy".toList) := by
  simp only [List.mem_cons, Prod.mk.injEq, List.mem_singleton, List.not_mem_nil, or_false] at hb
  unfold onCallbackQuery
  rw [hq]
  rcases hb with ⟨rfl, rfl⟩ | ⟨rfl, rfl⟩ | ⟨rfl, rfl⟩ <;> rfl

theorem validateFileUpload_plain (msg : Message) (hp : msg.photo = none)
    (hd : msg.document = none) : validateFileUpload msg = some false := by
  simp [validateFileUpload, hp, hd]

/-- An admitted, valid amount text in `waiting_amount` of a buy: the whole
listener chain leaves the session in `waiting_proof` with the amount, the rate
read at that moment and their product. -/
theorem onMessage_amount_buy (now : Nat) (s : BotState) (msg : Message) (ct text : Str)
    (user : Nat)
    (hst : s.userStates (Key.num msg.chatId) = some (UserState.waiting_amount ct "buy".toList))
    (hadm : s.adminStates (Key.num msg.chatId) = none)
    (hgate : (checkRateLimit s.userMessageCounts (Key.num msg.chatId) now).1 = true)
    (htext : msg.text = some text) (hp : msg.photo = none) (hd : msg.document = none)
    (hvalid : validateAmount (sanitizeText (some text)) = true)
    (hu : findUser s.users (idToString msg.chatId) = some user) :
    (onMessage now s msg).userStates (Key.num msg.chatId) =
        some (UserState.waiting_proof ct "buy".toList (parseFloat (sanitizeText (some text)))
          (s.globalSettings.cryptoRates.lookup ct)
          (mulUndef (parseFloat (sanitizeText (some text)))
            (s.globalSettings.cryptoRates.lookup ct))) ∧
      (onMessage now s msg).transactions = s.transactions ∧
      findUser (onMessage now s msg).users (idToString msg.chatId) = some user := by
  have hne : text ≠ [] := by
    rintro rfl
    revert hvalid
    decide
  have hnc : ¬ toLowerCase text = "cancel".toList := by
    intro h
    rw [cancel_not_valid text h] at hvalid
    exact Bool.noConfusion hvalid
  have hic : isCancel msg.text = false := by
    simp only [isCancel, htext]
    exact decide_eq_false hnc
  have e1 : onAmountMessage now s msg =
      setUser { s with userMessageCounts :=
          (checkRateLimit s.userMessageCounts (Key.num msg.chatId) now).2 }
        (Key.num msg.chatId)
        (UserState.waiting_proof ct "buy".toList (parseFloat (sanitizeText (some text)))
          (s.globalSettings.cryptoRates.lookup ct)
          (mulUndef (parseFloat (sanitizeText (some text)))
            (s.globalSettings.cryptoRates.lookup ct))) := by
    unfold onAmountMessage
    simp only [hgate, hst, htext, truthy, if_neg hne]
    simp only [amountInput, if_neg hnc, hvalid]
    rw [if_neg (by decide), if_neg (by decide), if_neg (by decide)]
  have hst1 : (onAmountMessage now s msg).userStates (Key.num msg.chatId) =
      some (UserState.waiting_proof ct "buy".toList (parseFloat (sanitizeText (some text)))
          (s.globalSettings.cryptoRates.lookup ct)
          (mulUndef (parseFloat (sanitizeText (some text)))
            (s.globalSettings.cryptoRates.lookup ct))) := by
    rw [e1]
    simp [JSMap.set_same]
  have hadm1 : (onAmountMessage now s msg).adminStates (Key.num msg.chatId) = none := by
    rw [e1]
    simpa using hadm
  have e2 : onProofMessage (onAmountMessage now s msg) msg = onAmountMessage now s msg := by
    unfold onProofMessage
    simp only [hst1, hic, validateFileUpload_plain msg hp hd]
    rfl
  have e3 : onSellMessage (onAmountMessage now s msg) msg = onAmountMessage now s msg := by
    unfold onSellMessage
    simp only [hst1]
  have e4 : onGiftDetailsMessage (onAmountMessage now s msg) msg = onAmountMessage now s msg := by
    unfold onGiftDetailsMessage
    simp only [hst1]
  have e5 : onGiftUploadMessage (onAmountMessage now s msg) msg = onAmountMessage now s msg := by
    unfold onGiftUploadMessage
    simp only [hst1]
  have e6 := onAdminSettingsMessage_of_none (onAmountMessage now s msg) msg hadm1
  have e7 : onPaymentDetailsMessage (onAmountMessage now s msg) msg =
      onAmountMessage now s msg := by
    unfold onPaymentDetailsMessage
    simp only [hst1]
  have e8 := onRejectReasonMessage_of_none (onAmountMessage now s msg) msg hadm1
  have hm : onMessage now s msg = onStart (onAmountMessage now s msg) msg := by
    unfold onMessage
    simp only [e2, e3, e4, e5, e6, e7, e8]
  have hu1 : findUser (onAmountMessage now s msg).users (idToString msg.chatId) = some user := by
    rw [e1]
    simpa using hu
  rw [hm]
  refine ⟨?_, ?_, ?_⟩
  · rw [(onStart_frame _ msg).1, hst1]
  · rw [onStart_transactions, e1]
    simp
  · rw [onStart_findUser _ msg user hu1, hu1]

/-! ## The proof step of the buy dialogue -/

/-- A valid upload without text in `waiting_proof`, from a registered user
with no PENDING transaction of the type, whose record passes the schema: the
listener chain stores the record and removes the session entry. -/
theorem onMessage_proof (now : Nat) (s : BotState) (msg : Message) (ct type : Str)
    (amount : JSNum) (rate : Option JSNum) (fiatAmount : JSNum) (user : Nat)
    (hst : s.userStates (Key.num msg.chatId) =
      some (UserState.waiting_proof ct type amount rate fiatAmount))
    (htext : msg.text = none)
    (hv : validateFileUpload msg = some true)
    (hu : findUser s.users (idToString msg.chatId) = some user)
    (hp : findPending s.transactions user type = none)
    (hok : validateTransaction
      { user := user, type := type, cryptoType := ct, amount := amount,
        rate := rate, fiatAmount := fiatAmount, status := Status.PENDING,
        paymentProof := uploadFileId msg, txHash := none, screenshot := none, giftType := none,
        cardValue := none, country := none, cardImage := none, cardCode := none,
        paymentDetails := none, rejectReason := none } = true) :
    (onMessage now s msg).userStates (Key.num msg.chatId) = none ∧
      (onMessage now s msg).transactions = s.transactions ++
        [{ user := user, type := type, cryptoType := ct, amount := amount,
           rate := rate, fiatAmount := fiatAmount, status := Status.PENDING,
           paymentProof := uploadFileId msg, txHash := none, screenshot := none,
           giftType := none, cardValue := none, country := none, cardImage := none,
           cardCode := none, paymentDetails := none, rejectReason := none }] := by
  have e1 := onAmountMessage_textless now s msg htext
  have hic : isCancel msg.text = false := by rw [htext]; rfl
  have e2 : onProofMessage (onAmountMessage now s msg) msg =
      clearUser { s with
        userMessageCounts := (checkRateLimit s.userMessageCounts (Key.num msg.chatId) now).2,
        transactions := s.transactions ++
        [{ user := user, type := type, cryptoType := ct, amount := amount,
           rate := rate, fiatAmount := fiatAmount, status := Status.PENDING,
           paymentProof := uploadFileId msg, txHash := none, screenshot := none,
           giftType := none, cardValue := none, country := none, cardImage := none,
           cardCode := none, paymentDetails := none, rejectReason := none }] }
        (Key.num msg.chatId) := by
    rw [e1]
    unfold onProofMessage
    simp only [hst, hic, hv]
    simp only [submit, hu, hp, createTransaction, hok, if_true]
    rfl
  have hnone : (onProofMessage (onAmountMessage now s msg) msg).userStates (Key.num msg.chatId)
      = none := by
    rw [e2]
    simp [JSMap.delete_same]
  have e3 := onSellMessage_of_none _ msg hnone
  have e4 := onGiftDetailsMessage_textless (onProofMessage (onAmountMessage now s msg) msg) msg
    htext
  have e5 := onGiftUploadMessage_of_none _ msg hnone
  have e6 := onAdminSettingsMessage_textless (onProofMessage (onAmountMessage now s msg) msg) msg
    htext
  have e7 := onPaymentDetailsMessage_textless (onProofMessage (onAmountMessage now s msg) msg) msg
    htext
  have e8 := onRejectReasonMessage_textless (onProofMessage (onAmountMessage now s msg) msg) msg
    htext
  have hm : onMessage now s msg = onProofMessage (onAmountMessage now s msg) msg := by
    unfold onMessage
    simp only [e3, e4, e5, e6, e7, e8, onStart_textless _ msg htext]
  rw [hm]
  refine ⟨hnone, ?_⟩
  rw [e2]
  simp

theorem findPending_none_of_pendingCount (txs : List Transaction) (u : Nat) (t : Str)
    (h : pendingCount txs u t = 0) : findPending txs u t = none := by
  cases hf : findPending txs u t with
  | none => rfl
  | some tx =>
    have := List.find?_some hf
    have hm := List.mem_of_find?_eq_some hf
    have hpos : 0 < pendingCount txs u t := by
      unfold pendingCount
      exact List.countP_pos_iff.mpr ⟨tx, hm, this⟩
    omega

/-! ## Claim on the buy dialogue from button to record -/

theorem uploadFileId_photo (msg : Message) (photos : List PhotoSize)
    (hp : msg.photo = some photos) (hv : validateFileUpload msg = some true) :
    uploadFileId msg = photos.getLast?.map PhotoSize.file_id := by
  cases photos with
  | nil => simp [validateFileUpload, hp] at hv
  | cons p ps =>
    simp only [uploadFileId, hp]
    rw [List.getLast?_eq_getLast _ (List.cons_ne_nil p ps)]
    rfl

/-- C14 (amended): for a registered user with no PENDING buy transaction and
no admin dialogue open, the event sequence [buy button, amount text, message
with a valid photo and no text] leaves the session idle and appends exactly one
Transaction, provided the rate limiter admits the amount text, the text is a
valid amount, and the in-memory settings hold a rate for the asset that is a
number not below zero.  The record has status PENDING, type buy, the asset of
the button, the parsed amount, the rate read when the amount was entered, their
product as fiatAmount, and the file id of the last photo size as paymentProof.
It holds for BTC, ETH and USDT alike. -/
theorem buy_end_to_end (cfg : Config) (s : BotState) (chat presser : Int)
    (button ct text name1 name2 : Str) (photos : List PhotoSize) (doc : Option Document)
    (t1 t2 user : Nat) (rate : JSNum)
    (hb : (button, ct) ∈ [("buy_btc".toList, "BTC".toList), ("buy_eth".toList, "ETH".toList),
      ("buy_usdt".toList, "USDT".toList)])
    (hu : findUser s.users (idToString chat) = some user)
    (hpend : pendingCount s.transactions user "buy".toList = 0)
    (hadm : s.adminStates (Key.num chat) = none)
    (hgate : (checkRateLimit s.userMessageCounts (Key.num chat) t1).1 = true)
    (hvalid : validateAmount (sanitizeText (some text)) = true)
    (hrate : s.globalSettings.cryptoRates.lookup ct = some rate)
    (hrok : numberPathOk (some rate) = true)
    (hphoto : validateFileUpload
      { chatId := chat, username := name2, text := none, photo := some photos,
        document := doc } = some true) :
    (run cfg s
        [Event.callbackQuery { fromId := presser, chatId := chat, data := button },
         Event.message t1
           { chatId := chat, username := name1, text := some text, photo := none,
             document := none },
         Event.message t2
           { chatId := chat, username := name2, text := none, photo := some photos,
             document := doc }]).userStates (Key.num chat) = none ∧
    (run cfg s
        [Event.callbackQuery { fromId := presser, chatId := chat, data := button },
         Event.message t1
           { chatId := chat, username := name1, text := some text, photo := none,
             document := none },
         Event.message t2
           { chatId := chat, username := name2, text := none, photo := some photos,
             document := doc }]).transactions =
      s.transactions ++
        [{ user := user, type := "buy".toList, cryptoType := ct,
           amount := parseFloat (sanitizeText (some text)), rate := some rate,
           fiatAmount := JSNum.mul (parseFloat (sanitizeText (some text))) rate,
           status := Status.PENDING,
           paymentProof := photos.getLast?.map PhotoSize.file_id,
           txHash := none, screenshot := none, giftType := none, cardValue := none,
           country := none, cardImage := none, cardCode := none, paymentDetails := none,
           rejectReason := none }] := by
  have hct : ct ∈ ["BTC".toList, "ETH".toList, "USDT".toList] := by
    simp only [List.mem_cons, Prod.mk.injEq, List.mem_singleton, List.not_mem_nil, or_false]
      at hb
    rcases hb with ⟨_, rfl⟩ | ⟨_, rfl⟩ | ⟨_, rfl⟩ <;> decide
  have h0 := onCallbackQuery_buy cfg s { fromId := presser, chatId := chat, data := button }
    button ct hb rfl
  have ha := onMessage_amount_buy t1
    (setUser s (Key.num chat) (UserState.waiting_amount ct "buy".toList))
    { chatId := chat, username := name1, text := some text, photo := none, document := none }
    ct text user (by simp [JSMap.set_same]) (by simpa using hadm) hgate rfl rfl rfl hvalid
    (by simpa using hu)
  simp only [setUser_transactions, setUser_globalSettings, hrate, mulUndef] at ha
  obtain ⟨ha1, ha2, ha3⟩ := ha
  have hfile := uploadFileId_photo
    { chatId := chat, username := name2, text := none, photo := some photos, document := doc }
    photos rfl hphoto
  have hamt : amountInRange (parseFloat (sanitizeText (some text))) = true := hvalid
  have hp := onMessage_proof t2 _
    { chatId := chat, username := name2, text := none, photo := some photos, document := doc }
    ct "buy".toList _ _ _ user ha1 rfl hphoto ha3
    (by rw [ha2]; exact findPending_none_of_pendingCount _ _ _ hpend)
    (by
      have h1 : ("buy".toList : Str) ∈ ["buy".toList, "sell".toList] := by decide
      simp only [validateTransaction, numberPathOk_of_amountInRange _ hamt, hrok,
        numberPathOk_mul _ _ hamt hrok, Bool.and_true, decide_eq_true_eq, h1, hct,
        decide_True])
  rw [hfile, ha2] at hp
  simp only [run, List.foldl, onEvent, h0]
  exact hp

/-! ## Instances of the buy dialogue -/

/-- Witness of the amended C14: user `42`, registered on the booted bot,
presses `buy_btc`, sends `0.5` and then a photo. -/
theorem buy_end_to_end_witness :
    findUser registeredBoot.users (idToString 42) = some 0 ∧
    pendingCount registeredBoot.transactions 0 "buy".toList = 0 ∧
    validateAmount (sanitizeText (some "0.5".toList)) = true ∧
    parseFloat (sanitizeText (some "0.5".toList)) = JSNum.fin 5 1 ∧
    (run demoConfig registeredBoot (buyBtcEvents 1000 2000)).userStates (Key.num 42) = none ∧
    (run demoConfig registeredBoot (buyBtcEvents 1000 2000)).transactions =
      registeredBoot.transactions ++
        [{ user := 0, type := "buy".toList, cryptoType := "BTC".toList,
           amount := parseFloat (sanitizeText (some "0.5".toList)),
           rate := some (JSNum.fin 50000 0),
           fiatAmount := JSNum.mul (parseFloat (sanitizeText (some "0.5".toList)))
             (JSNum.fin 50000 0),
           status := Status.PENDING,
           paymentProof := some "file1".toList,
           txHash := none, screenshot := none, giftType := none, cardValue := none,
           country := none, cardImage := none, cardCode := none, paymentDetails := none,
           rejectReason := none }] :=
  ⟨by decide, by decide, by decide, by decide,
    buy_end_to_end demoConfig registeredBoot 42 42 "buy_btc".toList "BTC".toList "0.5".toList
      "user".toList "user".toList [{ file_id := "file1".toList, file_size := some 2048 }] none
      1000 2000 0 (JSNum.fin 50000 0) (by decide) (by decide) (by decide) (by decide)
      (by decide) (by decide) (by decide) (by decide) (by decide)⟩

/-- C14 (counterexample): a registered user with no open dialogue and no
PENDING buy transaction, who has sent ten messages within the minute, presses
`buy_btc`, sends `0.5` and then a valid photo: the rate limiter drops the
amount text, no Transaction is created and the session stays in
`waiting_amount`. -/
theorem buy_rate_limited_counterexample :
    findUser (run demoConfig demoBoot tenTextEvents).users (idToString 42) = some 0 ∧
    pendingCount (run demoConfig demoBoot tenTextEvents).transactions 0 "buy".toList = 0 ∧
    (run demoConfig demoBoot tenTextEvents).userStates (Key.num 42) = none ∧
    (run demoConfig demoBoot tenTextEvents).adminStates (Key.num 42) = none ∧
    (run demoConfig (run demoConfig demoBoot tenTextEvents) (buyBtcEvents 10 11)).transactions
      = [] ∧
    (run demoConfig (run demoConfig demoBoot tenTextEvents) (buyBtcEvents 10 11)).userStates
      (Key.num 42) = some (UserState.waiting_amount "BTC".toList "buy".toList) := by
  decide

/-! ## Frames of the listeners -/

theorem submit_frame (s : BotState) (k : Key) (chat : Int) (type : Str)
    (doc : Nat → Transaction) :
    (submit s k chat type doc).adminStates = s.adminStates ∧
    (submit s k chat type doc).users = s.users ∧
    (submit s k chat type doc).settings = s.settings ∧
    (submit s k chat type doc).globalSettings = s.globalSettings := by
  unfold submit
  repeat' split
  all_goals exact ⟨rfl, rfl, rfl, rfl⟩

theorem onAmountMessage_frame (now : Nat) (s : BotState) (msg : Message) :
    (onAmountMessage now s msg).adminStates = s.adminStates ∧
    (onAmountMessage now s msg).users = s.users ∧
    (onAmountMessage now s msg).settings = s.settings ∧
    (onAmountMessage now s msg).globalSettings = s.globalSettings := by
  unfold onAmountMessage amountInput
  dsimp only
  repeat' split
  all_goals exact ⟨rfl, rfl, rfl, rfl⟩

theorem onProofMessage_frame (s : BotState) (msg : Message) :
    (onProofMessage s msg).adminStates = s.adminStates ∧
    (onProofMessage s msg).users = s.users ∧
    (onProofMessage s msg).settings = s.settings ∧
    (onProofMessage s msg).globalSettings = s.globalSettings := by
  unfold onProofMessage
  dsimp only
  repeat' split
  all_goals first | exact ⟨rfl, rfl, rfl, rfl⟩ | exact submit_frame _ _ _ _ _

theorem onSellMessage_frame (s : BotState) (msg : Message) :
    (onSellMessage s msg).adminStates = s.adminStates ∧
    (onSellMessage s msg).users = s.users ∧
    (onSellMessage s msg).settings = s.settings ∧
    (onSellMessage s msg).globalSettings = s.globalSettings := by
  unfold onSellMessage
  dsimp only
  repeat' split
  all_goals first | exact ⟨rfl, rfl, rfl, rfl⟩ | exact submit_frame _ _ _ _ _

theorem onGiftDetailsMessage_frame (s : BotState) (msg : Message) :
    (onGiftDetailsMessage s msg).adminStates = s.adminStates ∧
    (onGiftDetailsMessage s msg).users = s.users ∧
    (onGiftDetailsMessage s msg).settings = s.settings ∧
    (onGiftDetailsMessage s msg).globalSettings = s.globalSettings := by
  unfold onGiftDetailsMessage
  dsimp only
  repeat' split
  all_goals exact ⟨rfl, rfl, rfl, rfl⟩

theorem onGiftUploadMessage_frame (s : BotState) (msg : Message) :
    (onGiftUploadMessage s msg).adminStates = s.adminStates ∧
    (onGiftUploadMessage s msg).users = s.users ∧
    (onGiftUploadMessage s msg).settings = s.settings ∧
    (onGiftUploadMessage s msg).globalSettings = s.globalSettings := by
  unfold onGiftUploadMessage
  dsimp only
  repeat' split
  all_goals first | exact ⟨rfl, rfl, rfl, rfl⟩ | exact submit_frame _ _ _ _ _

theorem onPaymentDetailsMessage_frame (s : BotState) (msg : Message) :
    (onPaymentDetailsMessage s msg).adminStates = s.adminStates ∧
    (onPaymentDetailsMessage s msg).users = s.users ∧
    (onPaymentDetailsMessage s msg).settings = s.settings ∧
    (onPaymentDetailsMessage s msg).globalSettings = s.globalSettings := by
  unfold onPaymentDetailsMessage
  dsimp only
  repeat' split
  all_goals exact ⟨rfl, rfl, rfl, rfl⟩

/-- The five listeners of the user dialogues, in registration order. -/
theorem userListeners_frame (now : Nat) (s : BotState) (msg : Message) :
    (onGiftUploadMessage (onGiftDetailsMessage (onSellMessage (onProofMessage
      (onAmountMessage now s msg) msg) msg) msg) msg).adminStates = s.adminStates ∧
    (onGiftUploadMessage (onGiftDetailsMessage (onSellMessage (onProofMessage
      (onAmountMessage now s msg) msg) msg) msg) msg).users = s.users ∧
    (onGiftUploadMessage (onGiftDetailsMessage (onSellMessage (onProofMessage
      (onAmountMessage now s msg) msg) msg) msg) msg).settings = s.settings ∧
    (onGiftUploadMessage (onGiftDetailsMessage (onSellMessage (onProofMessage
      (onAmountMessage now s msg) msg) msg) msg) msg).globalSettings = s.globalSettings := by
  obtain ⟨a1, a2, a3, a4⟩ := onAmountMessage_frame now s msg
  obtain ⟨b1, b2, b3, b4⟩ := onProofMessage_frame (onAmountMessage now s msg) msg
  obtain ⟨c1, c2, c3, c4⟩ := onSellMessage_frame (onProofMessage (onAmountMessage now s msg) msg)
    msg
  obtain ⟨d1, d2, d3, d4⟩ := onGiftDetailsMessage_frame (onSellMessage (onProofMessage
    (onAmountMessage now s msg) msg) msg) msg
  obtain ⟨e1, e2, e3, e4⟩ := onGiftUploadMessage_frame (onGiftDetailsMessage (onSellMessage
    (onProofMessage (onAmountMessage now s msg) msg) msg) msg) msg
  exact ⟨by rw [e1, d1, c1, b1, a1], by rw [e2, d2, c2, b2, a2], by rw [e3, d3, c3, b3, a3],
    by rw [e4, d4, c4, b4, a4]⟩

theorem KeepsRecord_append (i user : Nat) (txs more : List Transaction)
    (h : KeepsRecord i user txs) : KeepsRecord i user (txs ++ more) := by
  obtain ⟨tx, h1, h2, h3⟩ := h
  refine ⟨tx, ?_, h2, h3⟩
  have hi : i < txs.length := by
    by_contra hc
    rw [List.getElem?_eq_none (by omega)] at h1
    exact Option.noConfusion h1
  rw [List.getElem?_append_left hi]
  exact h1

theorem submit_KeepsRecord (i user : Nat) (s : BotState) (k : Key) (chat : Int) (type : Str)
    (doc : Nat → Transaction) (h : KeepsRecord i user s.transactions) :
    KeepsRecord i user (submit s k chat type doc).transactions := by
  unfold submit
  repeat' split
  all_goals first
    | exact h
    | (rename_i txs hc
       rw [createTransaction_some _ _ _ hc]
       exact KeepsRecord_append i user _ _ h)

theorem onProofMessage_KeepsRecord (i user : Nat) (s : BotState) (msg : Message)
    (h : KeepsRecord i user s.transactions) :
    KeepsRecord i user (onProofMessage s msg).transactions := by
  unfold onProofMessage
  dsimp only
  repeat' split
  all_goals first | exact h | exact submit_KeepsRecord i user _ _ _ _ _ h

theorem onSellMessage_KeepsRecord (i user : Nat) (s : BotState) (msg : Message)
    (h : KeepsRecord i user s.transactions) :
    KeepsRecord i user (onSellMessage s msg).transactions := by
  unfold onSellMessage
  dsimp only
  repeat' split
  all_goals first | exact h | exact submit_KeepsRecord i user _ _ _ _ _ h

theorem onGiftUploadMessage_KeepsRecord (i user : Nat) (s : BotState) (msg : Message)
    (h : KeepsRecord i user s.transactions) :
    KeepsRecord i user (onGiftUploadMessage s msg).transactions := by
  unfold onGiftUploadMessage
  dsimp only
  repeat' split
  all_goals first | exact h | exact submit_KeepsRecord i user _ _ _ _ _ h

theorem findById_some (txs : List Transaction) (txId : Str) (j : Nat) (tx : Transaction)
    (h : findById txs txId = some (j, tx)) :
    parseObjectId txId = some j ∧ txs[j]? = some tx := by
  unfold findById at h
  split at h
  · exact Option.noConfusion h
  · rename_i n hn
    split at h
    · rename_i tx1 h1
      simp only [Option.some.injEq, Prod.mk.injEq] at h
      obtain ⟨rfl, rfl⟩ := h
      exact ⟨hn, h1⟩
    · exact Option.noConfusion h

theorem validateTransaction_update (tx : Transaction) (pd rr : Option Str) (st : Status) :
    validateTransaction { tx with paymentDetails := pd, rejectReason := rr, status := st } =
      validateTransaction tx := rfl

theorem onPaymentDetailsMessage_KeepsRecord (i user : Nat) (s : BotState) (msg : Message)
    (h : KeepsRecord i user s.transactions) :
    KeepsRecord i user (onPaymentDetailsMessage s msg).transactions := by
  unfold onPaymentDetailsMessage
  dsimp only
  split
  · split
    · exact h
    · rename_i j txj hf
      obtain ⟨_, hj⟩ := findById_some _ _ _ _ hf
      split
      · exact h
      · rename_i txs hs
        rw [saveTransaction_some _ _ _ _ hs]
        simp only [clearUser_transactions]
        obtain ⟨tx, h1, h2, h3⟩ := h
        by_cases hij : j = i
        · subst hij
          rw [hj] at h1
          simp only [Option.some.injEq] at h1
          subst h1
          have hlt : j < s.transactions.length := by
            by_contra hc
            rw [List.getElem?_eq_none (by omega)] at hj
            exact Option.noConfusion hj
          refine ⟨_, List.getElem?_set_self hlt, ?_, ?_⟩
          · exact h2
          · exact h3
        · refine ⟨tx, ?_, h2, h3⟩
          rw [List.getElem?_set_ne hij]
          exact h1
  · exact h

/-! ## The Reject button -/

theorem containsSub_prefix (p : Str) : ∀ (b : Str), containsSub p (p ++ b) = true := by
  intro b
  cases h : p ++ b with
  | nil =>
    have hp : p = [] := (List.append_eq_nil.mp h).1
    subst hp
    rfl
  | cons c cs =>
    simp only [containsSub, Bool.or_eq_true]
    left
    rw [← h]
    exact List.isPrefixOf_iff_prefix.mpr (List.prefix_append p b)

theorem containsSub_middle (p : Str) : ∀ (a b : Str), containsSub p (a ++ (p ++ b)) = true := by
  intro a
  induction a with
  | nil => intro b; exact containsSub_prefix p b
  | cons c a ih =>
    intro b
    simp only [List.cons_append, containsSub, Bool.or_eq_true]
    right
    exact ih b

theorem handlers_lookup_r (tl : Str) : handlers.lookup ('r' :: tl) = none := by
  simp [handlers, List.lookup]

theorem onCallbackQuery_reject (cfg : Config) (s : BotState) (q : CallbackQuery) (txId : Str)
    (hadmin : idToString q.fromId ∈ cfg.adminIds)
    (hq : q.data = "reject_".toList ++ txId)
    (hd : txId.all isDigit = true) :
    onCallbackQuery cfg s q =
      setAdmin s (Key.num q.fromId) (AdminState.waiting_reject_reason txId) := by
  have hseg : secondSegment ("reject_".toList ++ txId) = txId := by
    have h1 : ∀ x ∈ txId, (fun c => decide (c ≠ '_')) x = true := by
      intro x hx
      have := List.all_eq_true.mp hd x hx
      simp only [decide_eq_true_eq]
      rintro rfl
      revert this
      decide
    have h2 := takeWhile_all (fun c => decide (c ≠ '_')) txId [] h1
    simp only [List.append_nil, List.takeWhile_nil] at h2
    simp only [secondSegment, String.toList, String.data, List.cons_append, List.nil_append]
    simpa [List.dropWhile] using h2
  unfold onCallbackQuery
  simp only [hq]
  rw [show ("reject_".toList ++ txId) = 'r' :: ("eject_".toList ++ txId) from rfl,
    handlers_lookup_r]
  simp only [hadmin, decide_True, Bool.and_true]
  rw [show ('r' :: ("eject_".toList ++ txId)) = "reject_".toList ++ txId from rfl, hseg]
  simp [startsWith]

/-! ## Claim on the rejection from button to notification -/

theorem onStart_adminStates (s : BotState) (msg : Message) :
    (onStart s msg).adminStates = s.adminStates := by
  unfold onStart
  repeat' split
  all_goals rfl

theorem onAmountMessage_KeepsRecord (i user now : Nat) (s : BotState) (msg : Message)
    (h : KeepsRecord i user s.transactions) :
    KeepsRecord i user (onAmountMessage now s msg).transactions := by
  rw [onAmountMessage_transactions]
  exact h

theorem onGiftDetailsMessage_KeepsRecord (i user : Nat) (s : BotState) (msg : Message)
    (h : KeepsRecord i user s.transactions) :
    KeepsRecord i user (onGiftDetailsMessage s msg).transactions := by
  rw [onGiftDetailsMessage_transactions]
  exact h

theorem onAdminSettingsMessage_of_reject (s : BotState) (msg : Message) (txId : Str)
    (h : s.adminStates (Key.num msg.chatId) = some (AdminState.waiting_reject_reason txId)) :
    onAdminSettingsMessage s msg = s := by
  unfold onAdminSettingsMessage
  simp only [h]

/-- With a rejection dialogue open at the chat of a message with a text, the
first seven listeners keep the dialogue, the users, and the record at `i`. -/
theorem beforeRejectReason_facts (now : Nat) (s : BotState) (msg : Message) (txId : Str)
    (i user : Nat)
    (h : s.adminStates (Key.num msg.chatId) = some (AdminState.waiting_reject_reason txId))
    (hk : KeepsRecord i user s.transactions) :
    (beforeRejectReason now s msg).adminStates = s.adminStates ∧
    (beforeRejectReason now s msg).users = s.users ∧
    KeepsRecord i user (beforeRejectReason now s msg).transactions := by
  obtain ⟨a1, a2, _, _⟩ := userListeners_frame now s msg
  have k5 := onGiftUploadMessage_KeepsRecord i user _ msg
    (onGiftDetailsMessage_KeepsRecord i user _ msg
      (onSellMessage_KeepsRecord i user _ msg
        (onProofMessage_KeepsRecord i user _ msg
          (onAmountMessage_KeepsRecord i user now s msg hk))))
  have e6 := onAdminSettingsMessage_of_reject (onGiftUploadMessage (onGiftDetailsMessage
    (onSellMessage (onProofMessage (onAmountMessage now s msg) msg) msg) msg) msg) msg txId
    (by rw [a1]; exact h)
  obtain ⟨b1, b2, _, _⟩ := onPaymentDetailsMessage_frame (onGiftUploadMessage
    (onGiftDetailsMessage (onSellMessage (onProofMessage (onAmountMessage now s msg) msg) msg)
      msg) msg) msg
  unfold beforeRejectReason
  rw [e6]
  exact ⟨by rw [b1, a1], by rw [b2, a2], onPaymentDetailsMessage_KeepsRecord i user _ msg k5⟩

theorem onMessage_eq_beforeRejectReason (now : Nat) (s : BotState) (msg : Message) :
    onMessage now s msg =
      onStart (onRejectReasonMessage (beforeRejectReason now s msg) msg) msg := rfl

/-- C15: an admin presses Reject on a stored transaction (PENDING or not) that
passes the schema and whose submitting user is in the store, and then sends a
text `r` from the same chat.  After the two events the record at that id has
status REJECTED and rejectReason equal to `r` trimmed, it still belongs to the
same user, the admin's rejection dialogue is removed, and the eighth listener
sends to the chat id of the submitting user a message whose text contains `r`
trimmed. -/
theorem reject_end_to_end (cfg : Config) (s : BotState) (q : CallbackQuery) (msg : Message)
    (now i : Nat) (txId r : Str) (tx : Transaction) (u : User)
    (hadmin : idToString q.fromId ∈ cfg.adminIds)
    (hq : q.data = "reject_".toList ++ txId)
    (hfind : findById s.transactions txId = some (i, tx))
    (hvalid : validateTransaction tx = true)
    (huser : s.users[tx.user]? = some u)
    (hchat : msg.chatId = q.fromId)
    (htext : msg.text = some r)
    (hr : r ≠ []) :
    (∃ tx1, (run cfg s [Event.callbackQuery q, Event.message now msg]).transactions[i]? =
        some tx1 ∧ tx1.status = Status.REJECTED ∧ tx1.rejectReason = some (trim r) ∧
        tx1.user = tx.user) ∧
    (run cfg s [Event.callbackQuery q, Event.message now msg]).adminStates (Key.num q.fromId)
      = none ∧
    (∃ out ∈ rejectReasonReplies (beforeRejectReason now (onCallbackQuery cfg s q) msg) msg,
      out.chatId = Key.str u.telegramId ∧ containsSub (trim r) out.text = true) := by
  obtain ⟨hparse, hget⟩ := findById_some _ _ _ _ hfind
  have hd : txId.all isDigit = true := by
    unfold parseObjectId at hparse
    split at hparse
    · rename_i hc
      exact hc.2
    · exact Option.noConfusion hparse
  have h0 := onCallbackQuery_reject cfg s q txId hadmin hq hd
  have hst : (onCallbackQuery cfg s q).adminStates (Key.num msg.chatId) =
      some (AdminState.waiting_reject_reason txId) := by
    rw [h0, hchat]
    simp [JSMap.set_same]
  have hk0 : KeepsRecord i tx.user (onCallbackQuery cfg s q).transactions := by
    rw [h0]
    exact ⟨tx, by simpa using hget, rfl, hvalid⟩
  obtain ⟨f1, f2, tx7, g1, g2, g3⟩ :=
    beforeRejectReason_facts now (onCallbackQuery cfg s q) msg txId i tx.user hst hk0
  have hst7 : (beforeRejectReason now (onCallbackQuery cfg s q) msg).adminStates
      (Key.num msg.chatId) = some (AdminState.waiting_reject_reason txId) := by
    rw [f1]; exact hst
  have hfind7 : findById (beforeRejectReason now (onCallbackQuery cfg s q) msg).transactions txId
      = some (i, tx7) := by
    simp only [findById, hparse, g1]
  have hlt : i < (beforeRejectReason now (onCallbackQuery cfg s q) msg).transactions.length := by
    by_contra hc
    rw [List.getElem?_eq_none (by omega)] at g1
    exact Option.noConfusion g1
  have hsave : saveTransaction (beforeRejectReason now (onCallbackQuery cfg s q) msg).transactions
      i { tx7 with rejectReason := some (trim r), status := Status.REJECTED } =
      some ((beforeRejectReason now (onCallbackQuery cfg s q) msg).transactions.set i
        { tx7 with rejectReason := some (trim r), status := Status.REJECTED }) := by
    unfold saveTransaction
    rw [if_pos]
    exact g3
  have htr : truthy msg.text = some r := by
    simp only [truthy, htext, if_neg hr]
  have hu7 : (beforeRejectReason now (onCallbackQuery cfg s q) msg).users[tx7.user]? = some u := by
    rw [f2, g2, h0]
    simpa using huser
  have e8 : onRejectReasonMessage (beforeRejectReason now (onCallbackQuery cfg s q) msg) msg =
      clearAdmin { beforeRejectReason now (onCallbackQuery cfg s q) msg with
        transactions := (beforeRejectReason now (onCallbackQuery cfg s q) msg).transactions.set i
          { tx7 with rejectReason := some (trim r), status := Status.REJECTED } }
        (Key.num msg.chatId) := by
    unfold onRejectReasonMessage
    simp only [hst7, htr, hfind7, hsave]
  have hrun : run cfg s [Event.callbackQuery q, Event.message now msg] =
      onStart (onRejectReasonMessage (beforeRejectReason now (onCallbackQuery cfg s q) msg) msg)
        msg := rfl
  rw [hrun]
  refine ⟨⟨{ tx7 with rejectReason := some (trim r), status := Status.REJECTED }, ?_, rfl, rfl,
    g2⟩, ?_, ?_⟩
  · rw [onStart_transactions, e8]
    simp only [clearAdmin_transactions]
    exact List.getElem?_set_self hlt
  · rw [onStart_adminStates, e8, ← hchat]
    simp [JSMap.delete_same]
  · refine ⟨⟨Key.str u.telegramId,
        "❌ Your transaction has been rejected.\n\nTransaction ID: ".toList ++
          objectIdText i ++ "\nReason: ".toList ++ trim r ++
          "\n\nPlease contact support for more information.".toList⟩, ?_, rfl, ?_⟩
    · unfold rejectReasonReplies
      simp only [hst7, htr, hparse, hfind7, hsave, hu7]
      exact List.mem_cons_self _ _
    · have := containsSub_middle (trim r)
        ("❌ Your transaction has been rejected.\n\nTransaction ID: ".toList ++
          objectIdText i ++ "\nReason: ".toList)
        "\n\nPlease contact support for more information.".toList
      simpa [List.append_assoc] using this

/-! ## Instance of the rejection -/

/-- Witness of C15: admin `1` presses Reject on the PENDING purchase of user
`42` and sends the reason `invalid proof`. -/
theorem reject_end_to_end_witness :
    findById pendingBuyState.transactions "0".toList = some (0, pendingBuy) ∧
    pendingBuy.status = Status.PENDING ∧
    trim "invalid proof".toList = "invalid proof".toList ∧
    ((∃ tx1, (run demoConfig pendingBuyState rejectEvents).transactions[0]? = some tx1 ∧
        tx1.status = Status.REJECTED ∧ tx1.rejectReason = some (trim "invalid proof".toList) ∧
        tx1.user = pendingBuy.user) ∧
      (run demoConfig pendingBuyState rejectEvents).adminStates (Key.num 1) = none ∧
      (∃ out ∈ rejectReasonReplies (beforeRejectReason 5000
          (onCallbackQuery demoConfig pendingBuyState (press 1 "reject_0".toList))
          (textMessage 1 "invalid proof".toList)) (textMessage 1 "invalid proof".toList),
        out.chatId = Key.str "42".toList ∧
          containsSub (trim "invalid proof".toList) out.text = true)) :=
  ⟨by decide, by decide, by decide,
    reject_end_to_end demoConfig pendingBuyState (press 1 "reject_0".toList)
      (textMessage 1 "invalid proof".toList) 5000 0 "0".toList "invalid proof".toList pendingBuy
      { telegramId := "42".toList, username := "user".toList }
      (by decide) (by decide) (by decide) (by decide) (by decide) (by decide) (by decide)
      (by decide)⟩

/-! ## Steps of the crypto-rate wizard -/

/-- The test of the rate wizards, `isNaN(rate) || rate <= 0`, fails exactly
on the numbers above zero. -/
theorem rate_test_iff (x : JSNum) :
    JSNum.lt (JSNum.ofNat 0) x = true ↔ ¬ (x.isNaN = true ∨ JSNum.le x (JSNum.ofNat 0) = true) := by
  cases x with
  | nan => simp [JSNum.lt, JSNum.isNaN, JSNum.ofNat]
  | inf n => cases n <;> simp [JSNum.lt, JSNum.le, JSNum.isNaN, JSNum.ofNat]
  | fin a sc =>
    simp only [JSNum.lt, JSNum.le, JSNum.isNaN, JSNum.ofNat, decide_eq_true_eq, pow_zero,
      mul_one, Nat.cast_zero, zero_mul, false_or, not_le, Bool.false_eq_true]

theorem onCallbackQuery_set_crypto_rates (cfg : Config) (s : BotState) (q : CallbackQuery)
    (hq : q.data = "set_crypto_rates".toList) :
    onCallbackQuery cfg s q =
      setAdmin s (Key.num q.chatId) (AdminState.setting_crypto_rates "btc".toList []) := by
  unfold onCallbackQuery
  rw [hq]
  rfl

theorem cryptoRatesInput_invalid (s : BotState) (k : Key) (chat : Int) (step : Str)
    (rates : List (Str × JSNum)) (t : Str)
    (h : (parseFloat (trim t)).isNaN = true ∨
      JSNum.le (parseFloat (trim t)) (JSNum.ofNat 0) = true) :
    cryptoRatesInput s k chat step rates t = s := by
  unfold cryptoRatesInput
  simp only [h, if_true]

theorem cryptoRatesInput_btc (s : BotState) (k : Key) (chat : Int)
    (rates : List (Str × JSNum)) (t : Str)
    (h : JSNum.lt (JSNum.ofNat 0) (parseFloat (trim t)) = true) :
    cryptoRatesInput s k chat "btc".toList rates t =
      setAdmin s k (AdminState.setting_crypto_rates "eth".toList
        (setProp rates "BTC".toList (parseFloat (trim t)))) := by
  unfold cryptoRatesInput
  simp only [if_neg ((rate_test_iff _).mp h)]
  rfl

theorem cryptoRatesInput_eth (s : BotState) (k : Key) (chat : Int)
    (rates : List (Str × JSNum)) (t : Str)
    (h : JSNum.lt (JSNum.ofNat 0) (parseFloat (trim t)) = true) :
    cryptoRatesInput s k chat "eth".toList rates t =
      setAdmin s k (AdminState.setting_crypto_rates "usdt".toList
        (setProp rates "ETH".toList (parseFloat (trim t)))) := by
  unfold cryptoRatesInput
  simp only [if_neg ((rate_test_iff _).mp h)]
  rfl

theorem cryptoRatesInput_usdt (s : BotState) (k : Key) (chat : Int)
    (rates : List (Str × JSNum)) (t : Str)
    (h : JSNum.lt (JSNum.ofNat 0) (parseFloat (trim t)) = true) :
    cryptoRatesInput s k chat "usdt".toList rates t =
      clearAdmin
        { s with
          settings := updateSettingsDoc s.settings (fun d =>
            { d with cryptoRates := setProp rates "USDT".toList (parseFloat (trim t)),
                     updatedBy := some (idToString chat) }),
          globalSettings := { s.globalSettings with
            cryptoRates := setProp rates "USDT".toList (parseFloat (trim t)) } }
        k := by
  unfold cryptoRatesInput
  simp only [if_neg ((rate_test_iff _).mp h)]
  rfl

theorem cryptoRatesInput_not_reject (s : BotState) (k : Key) (chat : Int) (step : Str)
    (rates : List (Str × JSNum)) (t : Str)
    (hst : s.adminStates k = some (AdminState.setting_crypto_rates step rates)) (txId : Str) :
    (cryptoRatesInput s k chat step rates t).adminStates k ≠
      some (AdminState.waiting_reject_reason txId) := by
  unfold cryptoRatesInput
  dsimp only
  repeat' split
  all_goals simp [hst, JSMap.set_same, JSMap.delete_same]

theorem onRejectReasonMessage_of_not_reject (s : BotState) (msg : Message)
    (h : ∀ txId, s.adminStates (Key.num msg.chatId) ≠
      some (AdminState.waiting_reject_reason txId)) :
    onRejectReasonMessage s msg = s := by
  unfold onRejectReasonMessage
  dsimp only
  split
  · rename_i txId _ heq _
    exact absurd heq (h txId)
  · rfl

theorem onStart_settings_frame (s : BotState) (msg : Message) :
    (onStart s msg).adminStates = s.adminStates ∧ (onStart s msg).settings = s.settings ∧
    (onStart s msg).globalSettings = s.globalSettings :=
  ⟨onStart_adminStates s msg, (onStart_frame s msg).2.1, (onStart_frame s msg).2.2⟩

/-- The last three listeners and the text commands on a message with a text,
at a chat whose crypto-rate wizard is open. -/
theorem adminListeners_wizard (s5 : BotState) (msg : Message) (step t : Str)
    (rates : List (Str × JSNum))
    (hst5 : s5.adminStates (Key.num msg.chatId) =
      some (AdminState.setting_crypto_rates step rates))
    (ht : truthy msg.text = some t) :
    (onStart (onRejectReasonMessage (onPaymentDetailsMessage (onAdminSettingsMessage s5 msg)
        msg) msg) msg).adminStates =
        (cryptoRatesInput s5 (Key.num msg.chatId) msg.chatId step rates t).adminStates ∧
      (onStart (onRejectReasonMessage (onPaymentDetailsMessage (onAdminSettingsMessage s5 msg)
        msg) msg) msg).settings =
        (cryptoRatesInput s5 (Key.num msg.chatId) msg.chatId step rates t).settings ∧
      (onStart (onRejectReasonMessage (onPaymentDetailsMessage (onAdminSettingsMessage s5 msg)
        msg) msg) msg).globalSettings =
        (cryptoRatesInput s5 (Key.num msg.chatId) msg.chatId step rates t).globalSettings := by
  have e6 : onAdminSettingsMessage s5 msg =
      cryptoRatesInput s5 (Key.num msg.chatId) msg.chatId step rates t := by
    unfold onAdminSettingsMessage
    simp only [hst5, ht]
  obtain ⟨b1, _, b3, b4⟩ := onPaymentDetailsMessage_frame
    (cryptoRatesInput s5 (Key.num msg.chatId) msg.chatId step rates t) msg
  have e8 := onRejectReasonMessage_of_not_reject (onPaymentDetailsMessage
    (cryptoRatesInput s5 (Key.num msg.chatId) msg.chatId step rates t) msg) msg
    (by
      intro txId
      rw [b1]
      exact cryptoRatesInput_not_reject s5 _ _ step rates t hst5 txId)
  obtain ⟨c1, c3, c4⟩ := onStart_settings_frame (onPaymentDetailsMessage
    (cryptoRatesInput s5 (Key.num msg.chatId) msg.chatId step rates t) msg) msg
  rw [e6, e8]
  exact ⟨by rw [c1, b1], by rw [c3, b3], by rw [c4, b4]⟩

/-- A message with a text at a chat whose crypto-rate wizard is open: as far
as the admin dialogues and the settings go, the listener chain does what
`cryptoRatesInput` does on a state with the same admin dialogues and
settings. -/
theorem onMessage_wizard_step (now : Nat) (s : BotState) (msg : Message) (step t : Str)
    (rates : List (Str × JSNum))
    (hst : s.adminStates (Key.num msg.chatId) =
      some (AdminState.setting_crypto_rates step rates))
    (ht : truthy msg.text = some t) :
    ∃ s5 : BotState, s5.adminStates = s.adminStates ∧ s5.settings = s.settings ∧
      s5.globalSettings = s.globalSettings ∧
      (onMessage now s msg).adminStates =
        (cryptoRatesInput s5 (Key.num msg.chatId) msg.chatId step rates t).adminStates ∧
      (onMessage now s msg).settings =
        (cryptoRatesInput s5 (Key.num msg.chatId) msg.chatId step rates t).settings ∧
      (onMessage now s msg).globalSettings =
        (cryptoRatesInput s5 (Key.num msg.chatId) msg.chatId step rates t).globalSettings := by
  obtain ⟨a1, _, a3, a4⟩ := userListeners_frame now s msg
  exact ⟨onGiftUploadMessage (onGiftDetailsMessage (onSellMessage (onProofMessage
      (onAmountMessage now s msg) msg) msg) msg) msg, a1, a3, a4,
    adminListeners_wizard _ msg step t rates (by rw [a1]; exact hst) ht⟩

/-- A message without a text, or with an empty one, at a chat whose
crypto-rate wizard is open leaves the admin dialogues and the settings as they
are. -/
theorem onMessage_wizard_textless (now : Nat) (s : BotState) (msg : Message) (step : Str)
    (rates : List (Str × JSNum))
    (hst : s.adminStates (Key.num msg.chatId) =
      some (AdminState.setting_crypto_rates step rates))
    (ht : truthy msg.text = none) :
    (onMessage now s msg).adminStates = s.adminStates ∧
    (onMessage now s msg).settings = s.settings ∧
    (onMessage now s msg).globalSettings = s.globalSettings := by
  obtain ⟨a1, _, a3, a4⟩ := userListeners_frame now s msg
  have e6 : onAdminSettingsMessage (onGiftUploadMessage (onGiftDetailsMessage (onSellMessage
      (onProofMessage (onAmountMessage now s msg) msg) msg) msg) msg) msg =
      onGiftUploadMessage (onGiftDetailsMessage (onSellMessage
      (onProofMessage (onAmountMessage now s msg) msg) msg) msg) msg := by
    unfold onAdminSettingsMessage
    simp only [ht]
    split <;> first | rfl | simp_all
  obtain ⟨b1, _, b3, b4⟩ := onPaymentDetailsMessage_frame (onGiftUploadMessage
    (onGiftDetailsMessage (onSellMessage (onProofMessage (onAmountMessage now s msg) msg) msg)
      msg) msg) msg
  have e8 : onRejectReasonMessage (onPaymentDetailsMessage (onGiftUploadMessage
      (onGiftDetailsMessage (onSellMessage (onProofMessage (onAmountMessage now s msg) msg) msg)
      msg) msg) msg) msg = onPaymentDetailsMessage (onGiftUploadMessage
      (onGiftDetailsMessage (onSellMessage (onProofMessage (onAmountMessage now s msg) msg) msg)
      msg) msg) msg := by
    unfold onRejectReasonMessage
    simp only [ht]
    split <;> first | rfl | simp_all
  obtain ⟨c1, c3, c4⟩ := onStart_settings_frame (onPaymentDetailsMessage (onGiftUploadMessage
      (onGiftDetailsMessage (onSellMessage (onProofMessage (onAmountMessage now s msg) msg) msg)
      msg) msg) msg) msg
  have hm : onMessage now s msg = onStart (onRejectReasonMessage (onPaymentDetailsMessage
      (onAdminSettingsMessage (onGiftUploadMessage (onGiftDetailsMessage (onSellMessage
      (onProofMessage (onAmountMessage now s msg) msg) msg) msg) msg) msg) msg) msg) msg := rfl
  rw [hm, e6, e8]
  exact ⟨by rw [c1, b1, a1], by rw [c3, b3, a3], by rw [c4, b4, a4]⟩

/-! ## Claim on the crypto-rate wizard -/

theorem truthy_of_rate (t : Str) (h : JSNum.lt (JSNum.ofNat 0) (parseFloat (trim t)) = true) :
    truthy (some t) = some t := by
  have hne : t ≠ [] := by
    rintro rfl
    revert h
    decide
  simp only [truthy, if_neg hne]

theorem onMessage_wizard_btc (now : Nat) (s : BotState) (msg : Message) (t : Str)
    (rates : List (Str × JSNum))
    (hst : s.adminStates (Key.num msg.chatId) =
      some (AdminState.setting_crypto_rates "btc".toList rates))
    (ht : msg.text = some t)
    (hv : JSNum.lt (JSNum.ofNat 0) (parseFloat (trim t)) = true) :
    (onMessage now s msg).adminStates (Key.num msg.chatId) =
      some (AdminState.setting_crypto_rates "eth".toList
        (setProp rates "BTC".toList (parseFloat (trim t)))) ∧
    (onMessage now s msg).settings = s.settings ∧
    (onMessage now s msg).globalSettings = s.globalSettings := by
  obtain ⟨s5, a1, a3, a4, b1, b3, b4⟩ := onMessage_wizard_step now s msg "btc".toList t rates hst
    (by rw [ht]; exact truthy_of_rate t hv)
  rw [cryptoRatesInput_btc _ _ _ _ _ hv] at b1 b3 b4
  refine ⟨?_, ?_, ?_⟩
  · rw [b1]; simp [JSMap.set_same]
  · rw [b3]; simpa using a3
  · rw [b4]; simpa using a4

theorem onMessage_wizard_eth (now : Nat) (s : BotState) (msg : Message) (t : Str)
    (rates : List (Str × JSNum))
    (hst : s.adminStates (Key.num msg.chatId) =
      some (AdminState.setting_crypto_rates "eth".toList rates))
    (ht : msg.text = some t)
    (hv : JSNum.lt (JSNum.ofNat 0) (parseFloat (trim t)) = true) :
    (onMessage now s msg).adminStates (Key.num msg.chatId) =
      some (AdminState.setting_crypto_rates "usdt".toList
        (setProp rates "ETH".toList (parseFloat (trim t)))) ∧
    (onMessage now s msg).settings = s.settings ∧
    (onMessage now s msg).globalSettings = s.globalSettings := by
  obtain ⟨s5, a1, a3, a4, b1, b3, b4⟩ := onMessage_wizard_step now s msg "eth".toList t rates hst
    (by rw [ht]; exact truthy_of_rate t hv)
  rw [cryptoRatesInput_eth _ _ _ _ _ hv] at b1 b3 b4
  refine ⟨?_, ?_, ?_⟩
  · rw [b1]; simp [JSMap.set_same]
  · rw [b3]; simpa using a3
  · rw [b4]; simpa using a4

theorem onMessage_wizard_usdt (now : Nat) (s : BotState) (msg : Message) (t : Str)
    (rates : List (Str × JSNum))
    (hst : s.adminStates (Key.num msg.chatId) =
      some (AdminState.setting_crypto_rates "usdt".toList rates))
    (ht : msg.text = some t)
    (hv : JSNum.lt (JSNum.ofNat 0) (parseFloat (trim t)) = true) :
    (onMessage now s msg).adminStates (Key.num msg.chatId) = none ∧
    (onMessage now s msg).settings = updateSettingsDoc s.settings (fun d =>
      { d with cryptoRates := setProp rates "USDT".toList (parseFloat (trim t)),
               updatedBy := some (idToString msg.chatId) }) ∧
    (onMessage now s msg).globalSettings = { s.globalSettings with
      cryptoRates := setProp rates "USDT".toList (parseFloat (trim t)) } := by
  obtain ⟨s5, a1, a3, a4, b1, b3, b4⟩ := onMessage_wizard_step now s msg "usdt".toList t rates hst
    (by rw [ht]; exact truthy_of_rate t hv)
  rw [cryptoRatesInput_usdt _ _ _ _ _ hv] at b1 b3 b4
  refine ⟨?_, ?_, ?_⟩
  · rw [b1]; simp [JSMap.delete_same]
  · rw [b3]; simp [clearAdmin, a3]
  · rw [b4]; simp [clearAdmin, a4]

theorem onMessage_wizard_invalid (now : Nat) (s : BotState) (msg : Message) (step : Str)
    (rates : List (Str × JSNum))
    (hst : s.adminStates (Key.num msg.chatId) =
      some (AdminState.setting_crypto_rates step rates))
    (hv : ∀ t, msg.text = some t → ((parseFloat (trim t)).isNaN = true ∨
      JSNum.le (parseFloat (trim t)) (JSNum.ofNat 0) = true)) :
    (onMessage now s msg).adminStates (Key.num msg.chatId) =
      some (AdminState.setting_crypto_rates step rates) ∧
    (onMessage now s msg).settings = s.settings ∧
    (onMessage now s msg).globalSettings = s.globalSettings := by
  cases htr : truthy msg.text with
  | none =>
    obtain ⟨c1, c3, c4⟩ := onMessage_wizard_textless now s msg step rates hst htr
    exact ⟨by rw [c1]; exact hst, c3, c4⟩
  | some t =>
    have ht : msg.text = some t := by
      unfold truthy at htr
      split at htr
      · rename_i x hx
        split at htr
        · exact Option.noConfusion htr
        · rw [hx, ← htr]
      · exact Option.noConfusion htr
    obtain ⟨s5, a1, a3, a4, b1, b3, b4⟩ := onMessage_wizard_step now s msg step t rates hst htr
    rw [cryptoRatesInput_invalid _ _ _ _ _ _ (hv t ht)] at b1 b3 b4
    exact ⟨by rw [b1, a1]; exact hst, by rw [b3, a3], by rw [b4, a4]⟩

/-- C16: after the button `set_crypto_rates`, three texts from the same chat
that each parse to a number above zero leave the Settings document and the
in-memory settings unchanged after the button, the first and the second text;
after the third text both hold `cryptoRates` with exactly the keys BTC, ETH
and USDT bound to the first, second and third number, the document records the
chat as `updatedBy`, and the wizard is closed.  In any step of the wizard a
message whose text is not a number above zero (or that has no text) leaves the
step, the recorded values and both settings as they are. -/
theorem crypto_rate_wizard (cfg : Config) (s : BotState) (q : CallbackQuery)
    (m1 m2 m3 : Message) (n1 n2 n3 : Nat) (t1 t2 t3 : Str)
    (hq : q.data = "set_crypto_rates".toList)
    (hc1 : m1.chatId = q.chatId) (hc2 : m2.chatId = q.chatId) (hc3 : m3.chatId = q.chatId)
    (ht1 : m1.text = some t1) (ht2 : m2.text = some t2) (ht3 : m3.text = some t3)
    (hv1 : JSNum.lt (JSNum.ofNat 0) (parseFloat (trim t1)) = true)
    (hv2 : JSNum.lt (JSNum.ofNat 0) (parseFloat (trim t2)) = true)
    (hv3 : JSNum.lt (JSNum.ofNat 0) (parseFloat (trim t3)) = true) :
    ((run cfg s [Event.callbackQuery q]).settings = s.settings ∧
      (run cfg s [Event.callbackQuery q]).globalSettings = s.globalSettings) ∧
    ((run cfg s [Event.callbackQuery q, Event.message n1 m1]).settings = s.settings ∧
      (run cfg s [Event.callbackQuery q, Event.message n1 m1]).globalSettings =
        s.globalSettings) ∧
    ((run cfg s [Event.callbackQuery q, Event.message n1 m1, Event.message n2 m2]).settings =
        s.settings ∧
      (run cfg s [Event.callbackQuery q, Event.message n1 m1,
        Event.message n2 m2]).globalSettings = s.globalSettings) ∧
    (run cfg s [Event.callbackQuery q, Event.message n1 m1, Event.message n2 m2,
        Event.message n3 m3]).globalSettings =
      { s.globalSettings with cryptoRates :=
          [("BTC".toList, parseFloat (trim t1)), ("ETH".toList, parseFloat (trim t2)),
           ("USDT".toList, parseFloat (trim t3))] } ∧
    (run cfg s [Event.callbackQuery q, Event.message n1 m1, Event.message n2 m2,
        Event.message n3 m3]).settings =
      updateSettingsDoc s.settings (fun d =>
        { d with cryptoRates :=
            [("BTC".toList, parseFloat (trim t1)), ("ETH".toList, parseFloat (trim t2)),
             ("USDT".toList, parseFloat (trim t3))],
                 updatedBy := some (idToString q.chatId) }) ∧
    (run cfg s [Event.callbackQuery q, Event.message n1 m1, Event.message n2 m2,
        Event.message n3 m3]).adminStates (Key.num q.chatId) = none ∧
    (∀ (s0 : BotState) (msg : Message) (now : Nat) (step : Str) (rates : List (Str × JSNum)),
      s0.adminStates (Key.num msg.chatId) = some (AdminState.setting_crypto_rates step rates) →
      (∀ t, msg.text = some t → ((parseFloat (trim t)).isNaN = true ∨
        JSNum.le (parseFloat (trim t)) (JSNum.ofNat 0) = true)) →
      (onMessage now s0 msg).adminStates (Key.num msg.chatId) =
        some (AdminState.setting_crypto_rates step rates) ∧
      (onMessage now s0 msg).settings = s0.settings ∧
      (onMessage now s0 msg).globalSettings = s0.globalSettings) := by
  have h0 := onCallbackQuery_set_crypto_rates cfg s q hq
  have hst0 : (onCallbackQuery cfg s q).adminStates (Key.num m1.chatId) =
      some (AdminState.setting_crypto_rates "btc".toList []) := by
    rw [h0, hc1]; simp [JSMap.set_same]
  have hs0 : (onCallbackQuery cfg s q).settings = s.settings := by rw [h0]; simp
  have hg0 : (onCallbackQuery cfg s q).globalSettings = s.globalSettings := by rw [h0]; simp
  obtain ⟨a1, a2, a3⟩ := onMessage_wizard_btc n1 _ m1 t1 [] hst0 ht1 hv1
  rw [hc1, ← hc2] at a1
  obtain ⟨b1, b2, b3⟩ := onMessage_wizard_eth n2 _ m2 t2 _ a1 ht2 hv2
  rw [hc2, ← hc3] at b1
  obtain ⟨c1, c2, c3⟩ := onMessage_wizard_usdt n3 _ m3 t3 _ b1 ht3 hv3
  have hrates : setProp (setProp (setProp ([] : List (Str × JSNum)) "BTC".toList
      (parseFloat (trim t1))) "ETH".toList (parseFloat (trim t2))) "USDT".toList
      (parseFloat (trim t3)) =
      [("BTC".toList, parseFloat (trim t1)), ("ETH".toList, parseFloat (trim t2)),
       ("USDT".toList, parseFloat (trim t3))] := by
    simp [setProp]
  rw [hrates] at c2 c3
  simp only [run, List.foldl, onEvent]
  refine ⟨⟨hs0, hg0⟩, ⟨by rw [a2, hs0], by rw [a3, hg0]⟩,
    ⟨by rw [b2, a2, hs0], by rw [b3, a3, hg0]⟩, ?_, ?_, ?_, ?_⟩
  · rw [c3, b3, a3, hg0]
  · rw [c2, b2, a2, hs0, hc3]
  · rw [← hc3]; exact c1
  · intro s0 msg now step rates hst hv
    exact onMessage_wizard_invalid now s0 msg step rates hst hv

/-! ## Instance of the crypto-rate wizard -/

/-- Witness of C16: admin `1` opens the wizard on the booted bot and enters
`60000`, `3500` and `1.01`. -/
theorem crypto_rate_wizard_witness :
    JSNum.lt (JSNum.ofNat 0) (parseFloat (trim "60000".toList)) = true ∧
    JSNum.lt (JSNum.ofNat 0) (parseFloat (trim "3500".toList)) = true ∧
    JSNum.lt (JSNum.ofNat 0) (parseFloat (trim "1.01".toList)) = true ∧
    (run demoConfig demoBoot wizardEvents).globalSettings.cryptoRates =
      [("BTC".toList, JSNum.fin 60000 0), ("ETH".toList, JSNum.fin 3500 0),
       ("USDT".toList,
        JSNum.fin 10100000000000000088817841970012523233890533447265625 52)] ∧
    (run demoConfig demoBoot wizardEvents).adminStates (Key.num 1) = none :=
  have h := crypto_rate_wizard demoConfig demoBoot (press 1 "set_crypto_rates".toList)
    (textMessage 1 "60000".toList) (textMessage 1 "3500".toList) (textMessage 1 "1.01".toList)
    1000 2000 3000 "60000".toList "3500".toList "1.01".toList rfl rfl rfl rfl rfl rfl rfl
    (by decide) (by decide) (by decide)
  ⟨by decide, by decide, by decide,
    (congrArg Settings.cryptoRates h.2.2.2.1).trans (by decide), h.2.2.2.2.2.1⟩

/-! ## Lemmas on the pages of the history -/

/-- `Math.ceil(n / 5)` on a count `n`, as the history computes it. -/
theorem ceil_fifth (n : Nat) : (n + ITEMS_PER_PAGE - 1) / ITEMS_PER_PAGE = ⌈(n : ℚ) / 5⌉₊ := by
  unfold ITEMS_PER_PAGE
  apply le_antisymm
  · have h1 : (n : ℚ) / 5 ≤ (⌈(n : ℚ) / 5⌉₊ : ℚ) := Nat.le_ceil _
    have h2 : (n : ℚ) ≤ ((5 * ⌈(n : ℚ) / 5⌉₊ : ℕ) : ℚ) := by
      push_cast
      linarith
    have h3 : n ≤ 5 * ⌈(n : ℚ) / 5⌉₊ := by exact_mod_cast h2
    omega
  · apply Nat.ceil_le.mpr
    have h3 : n ≤ 5 * ((n + 5 - 1) / 5) := by omega
    generalize (n + 5 - 1) / 5 = m at h3 ⊢
    have h4 : (n : ℚ) ≤ ((5 * m : ℕ) : ℚ) := by exact_mod_cast h3
    push_cast at h4
    linarith

theorem getElem?_enum_map {α β : Type} (f : Nat × α → β) (l : List α) (j : Nat) :
    (l.enum.map f)[j]? = (l[j]?).map (fun a => f (j, a)) := by
  rw [List.getElem?_map, List.getElem?_enum]
  cases l[j]? <;> rfl

/-! ## Claim on the pages of the history -/

/-- C17: history pages of size 5.  For a registered user with `N` transactions
and a page `p` with `1 ≤ p ≤ ⌈N / 5⌉` (so `N > 0`), `showTransactionHistory`
sends a page: its entries are the transactions at the newest-first positions
`5 (p - 1) + 1 .. min (5 p) N`, each numbered by its position; Previous is
offered iff `p > 1` and leads to `p - 1`, Next is offered iff `p < ⌈N / 5⌉`
and leads to `p + 1`; every offered page lies in `1 .. ⌈N / 5⌉`. -/
theorem history_page (users : List User) (txs : List Transaction) (chatId : Int)
    (user p : Nat)
    (hu : findUser users (idToString chatId) = some user)
    (hp1 : 1 ≤ p)
    (hp2 : p ≤ ⌈((userHistory txs user).length : ℚ) / 5⌉₊) :
    0 < (userHistory txs user).length ∧
    ∃ entries previous next,
      showTransactionHistory users txs chatId p = HistoryReply.page entries previous next ∧
      entries.length = min (5 * p) (userHistory txs user).length - 5 * (p - 1) ∧
      (∀ k, 5 * (p - 1) + 1 ≤ k → k ≤ min (5 * p) (userHistory txs user).length →
        ∃ x, (userHistory txs user)[k - 1]? = some x ∧
          entries[k - 1 - 5 * (p - 1)]? = some (k, x.1, x.2)) ∧
      (previous = if 1 < p then some (p - 1) else none) ∧
      (next = if p < ⌈((userHistory txs user).length : ℚ) / 5⌉₊ then some (p + 1) else none) ∧
      (∀ q, previous = some q ∨ next = some q →
        1 ≤ q ∧ q ≤ ⌈((userHistory txs user).length : ℚ) / 5⌉₊) := by
  rw [← ceil_fifth] at hp2 ⊢
  unfold ITEMS_PER_PAGE at hp2 ⊢
  generalize hall : userHistory txs user = all at hp2 ⊢
  have hskip : (p - 1) * 5 < all.length := by omega
  have hlen : ((all.drop ((p - 1) * 5)).take 5).length = min (5 * p) all.length - 5 * (p - 1) := by
    rw [List.length_take, List.length_drop]
    omega
  refine ⟨by omega,
    ((all.drop ((p - 1) * 5)).take 5).enum.map (fun e => ((p - 1) * 5 + e.1 + 1, e.2.1, e.2.2)),
    _, _, ?_, ?_, ?_, rfl, rfl, ?_⟩
  · unfold showTransactionHistory
    simp only [hu, hall, ITEMS_PER_PAGE]
    rw [if_neg (by omega), if_neg (by rw [hlen]; omega)]
  · rw [List.length_map, List.enum_length, hlen]
  · intro k hk1 hk2
    have hki : k - 1 < all.length := by omega
    refine ⟨all[k - 1], List.getElem?_eq_getElem hki, ?_⟩
    rw [getElem?_enum_map, List.getElem?_take_of_lt (by omega), List.getElem?_drop]
    have hidx : (p - 1) * 5 + (k - 1 - 5 * (p - 1)) = k - 1 := by omega
    rw [hidx, List.getElem?_eq_getElem hki]
    have hnum : (p - 1) * 5 + (k - 1 - 5 * (p - 1)) + 1 = k := by omega
    simp only [hnum]
    rfl
  · intro q hq
    rcases hq with hq | hq
    · split at hq
      · simp only [Option.some.injEq] at hq
        omega
      · exact Option.noConfusion hq
    · split at hq
      · simp only [Option.some.injEq] at hq
        omega
      · exact Option.noConfusion hq

/-! ## Instance of the pages of the history -/

/-- Witness of C17: user `42` has seven records and asks for page `2`, which
lists the records at positions `6` and `7` and offers Previous only. -/
theorem history_page_witness :
    showTransactionHistory registeredBoot.users sevenRecords 42 2 =
      HistoryReply.page
        [(6, 1, { storedSell Status.COMPLETED with amount := JSNum.ofNat 2 }),
         (7, 0, { storedSell Status.COMPLETED with amount := JSNum.ofNat 1 })]
        (some 1) none ∧
    (0 < (userHistory sevenRecords 0).length ∧
      ∃ entries previous next,
        showTransactionHistory registeredBoot.users sevenRecords 42 2 =
          HistoryReply.page entries previous next ∧
        entries.length = min (5 * 2) (userHistory sevenRecords 0).length - 5 * (2 - 1) ∧
        (∀ k, 5 * (2 - 1) + 1 ≤ k → k ≤ min (5 * 2) (userHistory sevenRecords 0).length →
          ∃ x, (userHistory sevenRecords 0)[k - 1]? = some x ∧
            entries[k - 1 - 5 * (2 - 1)]? = some (k, x.1, x.2)) ∧
        (previous = if 1 < 2 then some (2 - 1) else none) ∧
        (next = if 2 < ⌈((userHistory sevenRecords 0).length : ℚ) / 5⌉₊ then some (2 + 1)
          else none) ∧
        (∀ q, previous = some q ∨ next = some q →
          1 ≤ q ∧ q ≤ ⌈((userHistory sevenRecords 0).length : ℚ) / 5⌉₊)) :=
  ⟨by decide,
    history_page registeredBoot.users sevenRecords 42 0 2 (by decide) (by decide)
      (by rw [← ceil_fifth]; decide)⟩

/-! ## Claim on concurrent submissions -/

/-- A submission that runs alone makes its three store calls one after the
other, and that is `submit`. -/
theorem advance_alone (s : BotState) (chat : Int) (type : Str) (doc : Nat → Transaction) :
    let h0 : Submission := { chat := chat, type := type, doc := doc, stage := SubmitStage.lookup }
    let r1 := h0.advance s
    let r2 := r1.2.advance r1.1
    let r3 := r2.2.advance r2.1
    r3.1 = submit s (Key.num chat) chat type doc ∧ r3.2.stage = SubmitStage.finished := by
  simp only [Submission.advance, submit]
  cases findUser s.users (idToString chat) with
  | none => exact ⟨rfl, rfl⟩
  | some user =>
    simp only
    cases findPending s.transactions user type with
    | some _ => exact ⟨rfl, rfl⟩
    | none =>
      simp only
      cases createTransaction s.transactions (doc user) with
      | none => exact ⟨rfl, rfl⟩
      | some txs => exact ⟨rfl, rfl⟩

/-- The third listener on a message with evidence is the submission
`sellSubmission` run alone. -/
theorem onSellMessage_eq_submission (s : BotState) (msg : Message) (ct type : Str)
    (amount : JSNum) (txHash screenshot : Option Str)
    (hst : s.userStates (Key.num msg.chatId) = some (UserState.waiting_tx_sell ct type amount))
    (hc : isCancel msg.text = false)
    (he : evidence msg = some (txHash, screenshot))
    (hev : ¬ ((truthy txHash).isNone ∧ (truthy screenshot).isNone)) :
    onSellMessage s msg =
      submit s (Key.num msg.chatId) msg.chatId (sellSubmission msg.chatId ct type amount txHash
        screenshot).type (sellSubmission msg.chatId ct type amount txHash screenshot).doc := by
  unfold onSellMessage
  simp only [hst, hc, he, if_neg hev, sellSubmission]
  rfl

/-- C18: the duplicate check and the insert are two separate store calls.
Starting from a registered user with no transaction whose session is in
`waiting_tx_sell`, two submissions of that user (two texts taken as
transaction hashes) whose store calls alternate both pass the check before
either inserts, and the store ends with two PENDING sell transactions of the
same user: the at-most-one property fails.  Run one after the other, the same
two submissions leave one. -/
theorem concurrent_submissions_two_pending :
    findUser sellReadyState.users (idToString 42) = some 0 ∧
    sellReadyState.transactions = [] ∧
    pendingCount (interleave sellReadyState
        (sellSubmission 42 "BTC".toList "sell".toList (JSNum.fin 5 1) (some "hash1".toList) none)
        (sellSubmission 42 "BTC".toList "sell".toList (JSNum.fin 5 1) (some "hash2".toList) none)
        [false, true, false, true, false, true]).1.transactions 0 "sell".toList = 2 ∧
    ¬ PendingUnique (interleave sellReadyState
        (sellSubmission 42 "BTC".toList "sell".toList (JSNum.fin 5 1) (some "hash1".toList) none)
        (sellSubmission 42 "BTC".toList "sell".toList (JSNum.fin 5 1) (some "hash2".toList) none)
        [false, true, false, true, false, true]).1.transactions ∧
    pendingCount (interleave sellReadyState
        (sellSubmission 42 "BTC".toList "sell".toList (JSNum.fin 5 1) (some "hash1".toList) none)
        (sellSubmission 42 "BTC".toList "sell".toList (JSNum.fin 5 1) (some "hash2".toList) none)
        [false, false, false, true, true, true]).1.transactions 0 "sell".toList = 1 := by
  refine ⟨by decide, by decide, by decide, ?_, by decide⟩
  intro h
  have h2 := h 0 "sell".toList
  revert h2
  decide

/-! ## Lemmas on one message passing several listeners -/

theorem submit_userStates (s : BotState) (k : Key) (chat : Int) (type : Str)
    (doc : Nat → Transaction) : (submit s k chat type doc).userStates k = none := by
  unfold submit
  repeat' split
  all_goals simp [JSMap.delete_same]

theorem submit_invalid (s : BotState) (k : Key) (chat : Int) (type : Str)
    (doc : Nat → Transaction) (h : ∀ user, validateTransaction (doc user) = false) :
    (submit s k chat type doc).transactions = s.transactions := by
  unfold submit
  split
  · rfl
  · split
    · rfl
    · simp [createTransaction, h]

theorem submit_creates (s : BotState) (k : Key) (chat : Int) (type : Str)
    (doc : Nat → Transaction) (user : Nat)
    (hu : findUser s.users (idToString chat) = some user)
    (hp : findPending s.transactions user type = none)
    (hv : validateTransaction (doc user) = true) :
    (submit s k chat type doc).transactions = s.transactions ++ [doc user] := by
  simp [submit, hu, hp, createTransaction, hv]

/-- Once the session entry of the chat is gone, the listeners from the fourth
on leave it gone; with no admin dialogue open at the chat they leave the
transactions alone. -/
theorem tail_idle (x : BotState) (msg : Message)
    (hx : x.userStates (Key.num msg.chatId) = none) :
    (onStart (onRejectReasonMessage (onPaymentDetailsMessage (onAdminSettingsMessage
      (onGiftUploadMessage (onGiftDetailsMessage x msg) msg) msg) msg) msg) msg).userStates
        (Key.num msg.chatId) = none ∧
    (x.adminStates (Key.num msg.chatId) = none →
      (onStart (onRejectReasonMessage (onPaymentDetailsMessage (onAdminSettingsMessage
        (onGiftUploadMessage (onGiftDetailsMessage x msg) msg) msg) msg) msg) msg).transactions
        = x.transactions) := by
  rw [onGiftDetailsMessage_of_none x msg hx, onGiftUploadMessage_of_none x msg hx]
  have h6 : (onAdminSettingsMessage x msg).userStates (Key.num msg.chatId) = none := by
    rw [(onAdminSettingsMessage_userStates x msg).1]; exact hx
  rw [onPaymentDetailsMessage_of_none _ msg h6]
  refine ⟨?_, ?_⟩
  · rw [(onStart_frame _ msg).1, (onRejectReasonMessage_length _ msg).2]
    exact h6
  · intro ha
    rw [onStart_transactions, onAdminSettingsMessage_of_none x msg ha,
      onRejectReasonMessage_of_none x msg ha]

theorem validateAmount_head_other (c : Char) (tl : Str) (hlt : c ≠ '<')
    (hw : isWhiteSpace c = false) (hd : isDigit c = false) (h1 : c ≠ '-') (h2 : c ≠ '+')
    (h3 : c ≠ '.') (h4 : 'I' ≠ c) :
    validateAmount (sanitizeText (some (c :: tl))) = false := by
  have hs : sanitizeText (some (c :: tl)) = c :: (stripTagsAux false tl).take 999 := by
    simp [sanitizeText, stripTags, stripTagsAux, hlt]
  rw [hs]
  have hI : startsWith (c :: (stripTagsAux false tl).take 999) "Infinity".toList = false := by
    simp only [startsWith, String.toList, List.isPrefixOf]
    simp [h4]
  simp only [validateAmount, parseFloat, parseLiteral, List.dropWhile, hw, List.head?_cons,
    Option.some.injEq, h1, h2, or_self, if_false, decide_False, parseDecimal, hI,
    Bool.false_eq_true, List.takeWhile, hd, h3, and_self, if_true, JSNum.toBinary64,
    amountInRange, JSNum.isNaN]
  rfl

theorem validateAmount_head_slash (tl : Str) :
    validateAmount (sanitizeText (some ('/' :: tl))) = false :=
  validateAmount_head_other '/' tl (by decide) (by decide) (by decide) (by decide) (by decide)
    (by decide) (by decide)

theorem valid_not_slash (text : Str) (h : validateAmount (sanitizeText (some text)) = true) :
    startsWith text "/".toList = false := by
  cases text with
  | nil => rfl
  | cons c tl =>
    by_cases hc : c = '/'
    · subst hc
      rw [validateAmount_head_slash] at h
      exact Bool.noConfusion h
    · have hc1 : ¬ '/' = c := fun h => hc h.symm
      simp [startsWith, List.isPrefixOf, hc1]

/-! ## The amount text of a sell passing the listeners -/

/-- An admitted, valid amount text in `waiting_amount_sell` with a wallet
configured: the first listener moves the session to `waiting_tx_sell`, and the
third listener, which receives the same message, submits a sell record with
that text as transaction hash. -/
theorem amount_text_cascade (now : Nat) (s : BotState) (msg : Message) (ct text w : Str)
    (hst : s.userStates (Key.num msg.chatId) =
      some (UserState.waiting_amount_sell ct "sell".toList))
    (hgate : (checkRateLimit s.userMessageCounts (Key.num msg.chatId) now).1 = true)
    (htext : msg.text = some text)
    (hvalid : validateAmount (sanitizeText (some text)) = true)
    (hw : truthy (s.globalSettings.wallets.lookup ct) = some w) :
    (onAmountMessage now s msg).userStates (Key.num msg.chatId) =
      some (UserState.waiting_tx_sell ct "sell".toList (parseFloat (sanitizeText (some text)))) ∧
    onSellMessage (onProofMessage (onAmountMessage now s msg) msg) msg =
      submit (onAmountMessage now s msg) (Key.num msg.chatId) msg.chatId "sell".toList
        (fun user =>
          { user := user, type := "sell".toList, cryptoType := ct,
            amount := parseFloat (sanitizeText (some text)),
            rate := some (JSNum.ofNat 0), fiatAmount := JSNum.ofNat 0,
            status := Status.PENDING, paymentProof := none,
            txHash := some (sanitizeText (some text)),
            screenshot := none, giftType := none, cardValue := none, country := none,
            cardImage := none, cardCode := none, paymentDetails := none,
            rejectReason := none }) ∧
    (onAmountMessage now s msg).transactions = s.transactions ∧
    (onAmountMessage now s msg).users = s.users ∧
    (onAmountMessage now s msg).adminStates = s.adminStates := by
  have hne : text ≠ [] := by
    rintro rfl
    revert hvalid
    decide
  have hnc : ¬ toLowerCase text = "cancel".toList := by
    intro h
    rw [cancel_not_valid text h] at hvalid
    exact Bool.noConfusion hvalid
  have hic : isCancel msg.text = false := by
    simp only [isCancel, htext]
    exact decide_eq_false hnc
  have hsn : sanitizeText (some text) ≠ [] := by
    intro h
    rw [h] at hvalid
    revert hvalid
    decide
  have e1 : onAmountMessage now s msg =
      setUser { s with userMessageCounts :=
          (checkRateLimit s.userMessageCounts (Key.num msg.chatId) now).2 }
        (Key.num msg.chatId)
        (UserState.waiting_tx_sell ct "sell".toList (parseFloat (sanitizeText (some text)))) := by
    unfold onAmountMessage
    simp only [hgate, hst, htext, truthy, if_neg hne]
    simp only [amountInput, if_neg hnc, hvalid]
    rw [if_neg (by decide), if_neg (by decide)]
    simp only [if_true, hw]
  have hst1 : (onAmountMessage now s msg).userStates (Key.num msg.chatId) =
      some (UserState.waiting_tx_sell ct "sell".toList (parseFloat (sanitizeText (some text)))) := by
    rw [e1]
    simp [JSMap.set_same]
  have e2 : onProofMessage (onAmountMessage now s msg) msg = onAmountMessage now s msg := by
    unfold onProofMessage
    simp only [hst1]
  have hev : evidence msg = some (some (sanitizeText (some text)), none) := by
    unfold evidence
    simp only [htext, truthy, if_neg hne, valid_not_slash text hvalid, Bool.false_eq_true,
      if_false]
  refine ⟨hst1, ?_, ?_, ?_, ?_⟩
  · rw [e2]
    unfold onSellMessage
    simp only [hst1, hic, hev, truthy, if_neg hsn]
    simp
  · rw [e1]; rfl
  · rw [e1]; rfl
  · rw [e1]; rfl

/-! ## The details text of a gift card passing the listeners -/

theorem validateTransaction_gift (tx : Transaction) (h : tx.type = "sell_gift_card".toList) :
    validateTransaction tx = false := by
  simp [validateTransaction, h]

/-- Once the session entry of the chat is gone, the listeners from the sixth
on leave it gone; with no admin dialogue open at the chat they leave the
transactions alone. -/
theorem tail_idle_admin (y : BotState) (msg : Message)
    (hy : y.userStates (Key.num msg.chatId) = none) :
    (onStart (onRejectReasonMessage (onPaymentDetailsMessage (onAdminSettingsMessage y msg)
      msg) msg) msg).userStates (Key.num msg.chatId) = none ∧
    (y.adminStates (Key.num msg.chatId) = none →
      (onStart (onRejectReasonMessage (onPaymentDetailsMessage (onAdminSettingsMessage y msg)
        msg) msg) msg).transactions = y.transactions) := by
  have h := tail_idle y msg hy
  rw [onGiftDetailsMessage_of_none y msg hy, onGiftUploadMessage_of_none y msg hy] at h
  exact h

theorem onGiftDetailsMessage_counts (s : BotState) (msg : Message) (c : JSMap RateEntry) :
    onGiftDetailsMessage { s with userMessageCounts := c } msg =
      { onGiftDetailsMessage s msg with userMessageCounts := c } := by
  unfold onGiftDetailsMessage
  dsimp only
  repeat' split
  all_goals rfl

theorem onAmountMessage_gift_details (now : Nat) (s : BotState) (msg : Message) (giftType : Str)
    (hst : s.userStates (Key.num msg.chatId) = some (UserState.waiting_gift_details giftType)) :
    onAmountMessage now s msg = { s with userMessageCounts :=
      (checkRateLimit s.userMessageCounts (Key.num msg.chatId) now).2 } := by
  unfold onAmountMessage
  dsimp only
  split
  · rfl
  · simp only [hst]

/-- A details text that the fourth listener accepts, that does not start with
`/` and that `sanitizeText` does not empty: the fifth listener, which receives
the same message, submits a gift-card record with that text as card code; the
schema refuses the record and the session entry is removed. -/
theorem gift_text_cascade (now : Nat) (s : BotState) (msg : Message)
    (giftType text g country : Str) (value payout : JSNum)
    (hst : s.userStates (Key.num msg.chatId) = some (UserState.waiting_gift_details giftType))
    (htext : msg.text = some text)
    (hacc : (onGiftDetailsMessage s msg).userStates (Key.num msg.chatId) =
      some (UserState.waiting_gift_upload g value country payout))
    (hslash : startsWith text "/".toList = false)
    (hsn : sanitizeText (some text) ≠ []) :
    (onMessage now s msg).userStates (Key.num msg.chatId) = none ∧
    (s.adminStates (Key.num msg.chatId) = none →
      (onMessage now s msg).transactions = s.transactions) := by
  have hne : text ≠ [] := by
    rintro rfl
    exact hsn rfl
  have hnc : ¬ toLowerCase text = "cancel".toList := by
    intro h
    have : onGiftDetailsMessage s msg = clearUser s (Key.num msg.chatId) := by
      unfold onGiftDetailsMessage
      simp only [hst, htext, truthy, if_neg hne, h, if_true]
    rw [this] at hacc
    simp [JSMap.delete_same] at hacc
  have hic : isCancel msg.text = false := by
    simp only [isCancel, htext]
    exact decide_eq_false hnc
  have e1 := onAmountMessage_gift_details now s msg giftType hst
  have hst1 : (onAmountMessage now s msg).userStates (Key.num msg.chatId) =
      some (UserState.waiting_gift_details giftType) := by
    rw [e1]; exact hst
  have e2 : onProofMessage (onAmountMessage now s msg) msg = onAmountMessage now s msg := by
    unfold onProofMessage
    simp only [hst1]
  have e3 : onSellMessage (onAmountMessage now s msg) msg = onAmountMessage now s msg := by
    unfold onSellMessage
    simp only [hst1]
  have e4 : onGiftDetailsMessage (onAmountMessage now s msg) msg =
      { onGiftDetailsMessage s msg with userMessageCounts :=
        (checkRateLimit s.userMessageCounts (Key.num msg.chatId) now).2 } := by
    rw [e1, onGiftDetailsMessage_counts]
  have hst4 : (onGiftDetailsMessage (onAmountMessage now s msg) msg).userStates
      (Key.num msg.chatId) = some (UserState.waiting_gift_upload g value country payout) := by
    rw [e4]; exact hacc
  have ht4 : (onGiftDetailsMessage (onAmountMessage now s msg) msg).transactions =
      s.transactions := by
    rw [onGiftDetailsMessage_transactions, onAmountMessage_transactions]
  have ha4 : (onGiftDetailsMessage (onAmountMessage now s msg) msg).adminStates =
      s.adminStates := by
    rw [(onGiftDetailsMessage_frame _ msg).1, (onAmountMessage_frame now s msg).1]
  have hev : evidence msg = some (some (sanitizeText (some text)), none) := by
    unfold evidence
    simp only [htext, truthy, if_neg hne, hslash, Bool.false_eq_true, if_false]
  have hm : onMessage now s msg = onStart (onRejectReasonMessage (onPaymentDetailsMessage
      (onAdminSettingsMessage (onGiftUploadMessage (onGiftDetailsMessage
        (onAmountMessage now s msg) msg) msg) msg) msg) msg) msg := by
    unfold onMessage
    simp only [e2, e3]
  rw [hm]
  generalize onGiftDetailsMessage (onAmountMessage now s msg) msg = s4 at hst4 ht4 ha4 ⊢
  have e5 : onGiftUploadMessage s4 msg =
      submit s4 (Key.num msg.chatId) msg.chatId "sell_gift_card".toList (fun user =>
        { user := user, type := "sell_gift_card".toList, cryptoType := [],
          amount := JSNum.ofNat 0,
          rate := s4.globalSettings.giftCardRates.lookup g,
          fiatAmount := payout, status := Status.PENDING, paymentProof := none,
          txHash := none, screenshot := none, giftType := some g,
          cardValue := some value, country := some country, cardImage := none,
          cardCode := some (sanitizeText (some text)), paymentDetails := none,
          rejectReason := none }) := by
    unfold onGiftUploadMessage
    simp only [hst4, hic, hev, truthy, if_neg hsn]
    simp
  have hnone : (onGiftUploadMessage s4 msg).userStates (Key.num msg.chatId) = none := by
    rw [e5]; exact submit_userStates _ _ _ _ _
  have ht5 : (onGiftUploadMessage s4 msg).transactions = s.transactions := by
    rw [e5, submit_invalid _ _ _ _ _ (fun user => validateTransaction_gift _ rfl), ht4]
  have ha5 : (onGiftUploadMessage s4 msg).adminStates = s.adminStates := by
    rw [(onGiftUploadMessage_frame s4 msg).1, ha4]
  obtain ⟨t1, t2⟩ := tail_idle_admin (onGiftUploadMessage s4 msg) msg hnone
  refine ⟨t1, ?_⟩
  intro ha
  rw [t2 (by rw [ha5]; exact ha), ht5]

/-! ## Claim on one message and one step of the dialogue -/

/-- C19 fails on the code: every message listener receives every message, and
a listener that moves the session to the next state does so before the next
listener looks at it.  (1) An admitted, valid amount text in
`waiting_amount_sell` with a wallet configured, from a registered user with no
PENDING sell and no admin dialogue: after the message the session is idle, not
in `waiting_tx_sell`, and a sell Transaction exists whose txHash is the amount
text.  (2) A details text accepted in `waiting_gift_details` that does not
start with `/` and is not emptied by `sanitizeText`: after the message the
session is idle, not in `waiting_gift_upload`; the text was submitted as card
code and the schema refused the record.  (3) Both on the booted bot, with the
texts `0.5` and `50 USD`. -/
theorem one_message_two_steps :
    (∀ (now : Nat) (s : BotState) (msg : Message) (ct text w : Str) (user : Nat),
      s.userStates (Key.num msg.chatId) = some (UserState.waiting_amount_sell ct "sell".toList) →
      (checkRateLimit s.userMessageCounts (Key.num msg.chatId) now).1 = true →
      msg.text = some text →
      validateAmount (sanitizeText (some text)) = true →
      truthy (s.globalSettings.wallets.lookup ct) = some w →
      findUser s.users (idToString msg.chatId) = some user →
      pendingCount s.transactions user "sell".toList = 0 →
      ct ∈ ["BTC".toList, "ETH".toList, "USDT".toList] →
      s.adminStates (Key.num msg.chatId) = none →
      (onMessage now s msg).userStates (Key.num msg.chatId) = none ∧
      (onMessage now s msg).transactions = s.transactions ++
        [{ user := user, type := "sell".toList, cryptoType := ct,
           amount := parseFloat (sanitizeText (some text)),
           rate := some (JSNum.ofNat 0), fiatAmount := JSNum.ofNat 0,
           status := Status.PENDING, paymentProof := none,
           txHash := some (sanitizeText (some text)),
           screenshot := none, giftType := none, cardValue := none, country := none,
           cardImage := none, cardCode := none, paymentDetails := none,
           rejectReason := none }]) ∧
    (∀ (now : Nat) (s : BotState) (msg : Message) (giftType text g country : Str)
        (value payout : JSNum),
      s.userStates (Key.num msg.chatId) = some (UserState.waiting_gift_details giftType) →
      msg.text = some text →
      (onGiftDetailsMessage s msg).userStates (Key.num msg.chatId) =
        some (UserState.waiting_gift_upload g value country payout) →
      startsWith text "/".toList = false →
      sanitizeText (some text) ≠ [] →
      (onMessage now s msg).userStates (Key.num msg.chatId) = none ∧
      (s.adminStates (Key.num msg.chatId) = none →
        (onMessage now s msg).transactions = s.transactions)) ∧
    ((run demoConfig demoBoot sellEvents).userStates (Key.num 42) = none ∧
      (run demoConfig demoBoot sellEvents).transactions.map
        (fun t => (t.type, t.status, t.amount, t.txHash)) =
        [("sell".toList, Status.PENDING, JSNum.fin 5 1, some "0.5".toList)]) ∧
    ((run demoConfig demoBoot giftEvents).userStates (Key.num 42) = none ∧
      (run demoConfig demoBoot giftEvents).transactions = []) := by
  refine ⟨?_, ?_, by decide, by decide⟩
  · intro now s msg ct text w user hst hgate htext hvalid hw hu hpend hct hadm
    obtain ⟨_, c2, c3, c4, c5⟩ := amount_text_cascade now s msg ct text w hst hgate htext hvalid hw
    have hamt : amountInRange (parseFloat (sanitizeText (some text))) = true := hvalid
    have hm : onMessage now s msg = onStart (onRejectReasonMessage (onPaymentDetailsMessage
        (onAdminSettingsMessage (onGiftUploadMessage (onGiftDetailsMessage (onSellMessage
          (onProofMessage (onAmountMessage now s msg) msg) msg) msg) msg) msg) msg) msg) msg :=
      rfl
    rw [hm, c2]
    have hnone := submit_userStates (onAmountMessage now s msg) (Key.num msg.chatId) msg.chatId
      "sell".toList (fun user =>
          { user := user, type := "sell".toList, cryptoType := ct,
            amount := parseFloat (sanitizeText (some text)),
            rate := some (JSNum.ofNat 0), fiatAmount := JSNum.ofNat 0,
            status := Status.PENDING, paymentProof := none,
            txHash := some (sanitizeText (some text)),
            screenshot := none, giftType := none, cardValue := none, country := none,
            cardImage := none, cardCode := none, paymentDetails := none,
            rejectReason := none })
    have hcreate := submit_creates (onAmountMessage now s msg) (Key.num msg.chatId) msg.chatId
      "sell".toList (fun user =>
          { user := user, type := "sell".toList, cryptoType := ct,
            amount := parseFloat (sanitizeText (some text)),
            rate := some (JSNum.ofNat 0), fiatAmount := JSNum.ofNat 0,
            status := Status.PENDING, paymentProof := none,
            txHash := some (sanitizeText (some text)),
            screenshot := none, giftType := none, cardValue := none, country := none,
            cardImage := none, cardCode := none, paymentDetails := none,
            rejectReason := none }) user (by rw [c4]; exact hu)
      (by rw [c3]; exact findPending_none_of_pendingCount _ _ _ hpend)
      (by
        have h1 : ("sell".toList : Str) ∈ ["buy".toList, "sell".toList] := by decide
        have h2 : numberPathOk (some (JSNum.ofNat 0)) = true := by decide
        simp only [validateTransaction, numberPathOk_of_amountInRange _ hamt, h1, hct, h2,
          decide_True, Bool.and_true])
    have hadm3 := (submit_frame (onAmountMessage now s msg) (Key.num msg.chatId) msg.chatId
      "sell".toList (fun user =>
          { user := user, type := "sell".toList, cryptoType := ct,
            amount := parseFloat (sanitizeText (some text)),
            rate := some (JSNum.ofNat 0), fiatAmount := JSNum.ofNat 0,
            status := Status.PENDING, paymentProof := none,
            txHash := some (sanitizeText (some text)),
            screenshot := none, giftType := none, cardValue := none, country := none,
            cardImage := none, cardCode := none, paymentDetails := none,
            rejectReason := none })).1
    obtain ⟨t1, t2⟩ := tail_idle _ msg hnone
    refine ⟨t1, ?_⟩
    rw [t2 (by rw [hadm3, c5]; exact hadm), hcreate, c3]
  · intro now s msg giftType text g country value payout hst htext hacc hslash hsn
    exact gift_text_cascade now s msg giftType text g country value payout hst htext hacc hslash
      hsn

/-! ## The evidence invariant -/

theorem EvidenceInv_congr (s s1 : BotState) (h1 : s1.userStates = s.userStates)
    (h2 : s1.transactions = s.transactions) (h : EvidenceInv s) : EvidenceInv s1 := by
  unfold EvidenceInv
  rw [h1, h2]
  exact h

theorem EvidenceInv_clearUser (s : BotState) (k : Key) (h : EvidenceInv s) :
    EvidenceInv (clearUser s k) := by
  refine ⟨?_, h.2⟩
  intro k1 st hst
  simp only [clearUser, JSMap.delete] at hst
  split at hst
  · exact Option.noConfusion hst
  · exact h.1 k1 st hst

theorem EvidenceInv_setUser (s : BotState) (k : Key) (st : UserState) (hok : StateOk st)
    (h : EvidenceInv s) : EvidenceInv (setUser s k st) := by
  refine ⟨?_, h.2⟩
  intro k1 st1 hst
  simp only [setUser, JSMap.set] at hst
  split at hst
  · simp only [Option.some.injEq] at hst
    rw [← hst]
    exact hok
  · exact h.1 k1 st1 hst

theorem EvidenceInv_append (s : BotState) (tx : Transaction) (htx : HasEvidence tx)
    (h : EvidenceInv s) : EvidenceInv { s with transactions := s.transactions ++ [tx] } := by
  refine ⟨h.1, ?_⟩
  intro t ht
  simp only [List.mem_append, List.mem_singleton] at ht
  rcases ht with ht | ht
  · exact h.2 t ht
  · rw [ht]; exact htx

theorem submit_EvidenceInv (s : BotState) (k : Key) (chat : Int) (type : Str)
    (doc : Nat → Transaction)
    (hdoc : ∀ u, validateTransaction (doc u) = true → HasEvidence (doc u))
    (h : EvidenceInv s) : EvidenceInv (submit s k chat type doc) := by
  unfold submit
  split
  · exact EvidenceInv_clearUser s k h
  · rename_i user _
    split
    · exact EvidenceInv_clearUser s k h
    · split
      · exact EvidenceInv_clearUser s k h
      · rename_i txs hc
        have hv : validateTransaction (doc user) = true := by
          unfold createTransaction at hc
          split at hc
          · assumption
          · exact Option.noConfusion hc
        rw [createTransaction_some _ _ _ hc]
        exact EvidenceInv_clearUser _ k (EvidenceInv_append s _ (hdoc user hv) h)

theorem onAmountMessage_EvidenceInv (now : Nat) (s : BotState) (msg : Message)
    (h : EvidenceInv s) : EvidenceInv (onAmountMessage now s msg) := by
  have h1 : EvidenceInv { s with userMessageCounts :=
      (checkRateLimit s.userMessageCounts (Key.num msg.chatId) now).2 } :=
    EvidenceInv_congr s _ rfl rfl h
  unfold onAmountMessage amountInput
  dsimp only
  repeat' split
  all_goals first
    | exact h1
    | exact EvidenceInv_clearUser _ _ h1
    | (apply EvidenceInv_setUser _ _ _ _ h1
       simp only [StateOk]
       assumption)

theorem validateTransaction_type (tx : Transaction) (h : validateTransaction tx = true) :
    tx.type = "buy".toList ∨ tx.type = "sell".toList := by
  simp only [validateTransaction, Bool.and_eq_true, decide_eq_true_eq, List.mem_cons,
    List.mem_singleton, List.not_mem_nil, or_false] at h
  exact h.1.1.1.1

theorem onProofMessage_EvidenceInv (s : BotState) (msg : Message)
    (h : EvidenceInv s) : EvidenceInv (onProofMessage s msg) := by
  unfold onProofMessage
  dsimp only
  split
  · rename_i ct type amount rate fiat hst
    have hok := h.1 _ _ hst
    split
    · exact EvidenceInv_clearUser _ _ h
    · split
      · rename_i hv
        apply submit_EvidenceInv _ _ _ _ _ _ h
        intro u hvalid
        have hty := validateTransaction_type _ hvalid
        have hfile : (uploadFileId msg).isSome = true := by
          unfold validateFileUpload at hv
          unfold uploadFileId
          cases hp : msg.photo with
          | none =>
            cases hd : msg.document with
            | none => simp [hp, hd] at hv
            | some d => rfl
          | some photos =>
            cases photos with
            | nil => simp [hp] at hv
            | cons p ps => rfl
        refine ⟨fun _ => hfile, fun hs => absurd hs hok, fun hg => ?_⟩
        rcases hty with hty | hty
        · exact absurd (hty.symm.trans hg) (by decide)
        · exact absurd (hty.symm.trans hg) (by decide)
      · exact h
  · exact h

theorem evidence_shape (msg : Message) (a b : Option Str) (h : evidence msg = some (a, b)) :
    a = none ∨ b = none := by
  unfold evidence at h
  repeat' split at h
  all_goals first
    | exact Option.noConfusion h
    | (simp only [Option.some.injEq, Prod.mk.injEq] at h
       first | exact Or.inl h.1.symm | exact Or.inr h.2.symm)

/-! ## Preservation of the evidence invariant -/

theorem truthy_none : truthy none = none := rfl

theorem onSellMessage_EvidenceInv (s : BotState) (msg : Message)
    (h : EvidenceInv s) : EvidenceInv (onSellMessage s msg) := by
  unfold onSellMessage
  dsimp only
  split
  · rename_i ct type amount hst
    have hok : type = "sell".toList := h.1 _ _ hst
    split
    · exact EvidenceInv_clearUser _ _ h
    · split
      · exact h
      · rename_i a b hev
        split
        · exact h
        · rename_i hne
          apply submit_EvidenceInv _ _ _ _ _ _ h
          intro u _
          have hshape := evidence_shape msg a b hev
          refine ⟨fun hb => ?_, fun _ => ⟨?_, ?_⟩, fun hg => ?_⟩
          · exact absurd (hok.symm.trans hb) (by decide)
          · by_contra hc
            apply hne
            simp only [not_or, Bool.not_eq_true, Option.not_isSome, Option.isNone_iff_eq_none]
              at hc
            refine ⟨by simp [hc.1], ?_⟩
            have hb : b = none := by
              cases b with
              | none => rfl
              | some x => simp at hc
            rw [hb]
            rfl
          · rintro ⟨h1, h2⟩
            rcases hshape with ha | hb
            · rw [ha] at h1
              exact Bool.noConfusion h1
            · rw [hb] at h2
              exact Bool.noConfusion h2
          · exact absurd (hok.symm.trans hg) (by decide)
  · exact h

theorem onGiftUploadMessage_EvidenceInv (s : BotState) (msg : Message)
    (h : EvidenceInv s) : EvidenceInv (onGiftUploadMessage s msg) := by
  unfold onGiftUploadMessage
  dsimp only
  split
  · split
    · exact EvidenceInv_clearUser _ _ h
    · split
      · exact h
      · split
        · exact h
        · apply submit_EvidenceInv _ _ _ _ _ _ h
          intro u hvalid
          rw [validateTransaction_gift _ rfl] at hvalid
          exact Bool.noConfusion hvalid
  · exact h

theorem onGiftDetailsMessage_EvidenceInv (s : BotState) (msg : Message)
    (h : EvidenceInv s) : EvidenceInv (onGiftDetailsMessage s msg) := by
  unfold onGiftDetailsMessage
  dsimp only
  repeat' split
  all_goals first
    | exact h
    | exact EvidenceInv_clearUser _ _ h
    | exact EvidenceInv_setUser _ _ _ trivial h

theorem HasEvidence_update (tx : Transaction) (pd rr : Option Str) (st : Status)
    (h : HasEvidence tx) :
    HasEvidence { tx with paymentDetails := pd, rejectReason := rr, status := st } := h

theorem EvidenceInv_set (s : BotState) (i : Nat) (tx tx1 : Transaction)
    (hi : s.transactions[i]? = some tx) (h1 : HasEvidence tx → HasEvidence tx1)
    (h : EvidenceInv s) : EvidenceInv { s with transactions := s.transactions.set i tx1 } := by
  refine ⟨h.1, ?_⟩
  intro t ht
  rcases List.mem_or_eq_of_mem_set ht with hm | he
  · exact h.2 t hm
  · rw [he]
    have hmem : tx ∈ s.transactions := by
      obtain ⟨hlt, hget⟩ := List.getElem?_eq_some_iff.mp hi
      rw [← hget]
      exact List.getElem_mem hlt
    exact h1 (h.2 tx hmem)

theorem onPaymentDetailsMessage_EvidenceInv (s : BotState) (msg : Message)
    (h : EvidenceInv s) : EvidenceInv (onPaymentDetailsMessage s msg) := by
  unfold onPaymentDetailsMessage
  dsimp only
  split
  · split
    · exact EvidenceInv_clearUser _ _ h
    · rename_i i tx hf
      split
      · exact EvidenceInv_clearUser _ _ h
      · rename_i txs hs
        rw [saveTransaction_some _ _ _ _ hs]
        exact EvidenceInv_clearUser _ _
          (EvidenceInv_set s i tx _ (findById_some _ _ _ _ hf).2 (fun hh => hh) h)
  · exact h

theorem onRejectReasonMessage_EvidenceInv (s : BotState) (msg : Message)
    (h : EvidenceInv s) : EvidenceInv (onRejectReasonMessage s msg) := by
  unfold onRejectReasonMessage
  dsimp only
  split
  · split
    · exact EvidenceInv_congr s _ rfl rfl h
    · rename_i i tx hf
      split
      · exact EvidenceInv_congr s _ rfl rfl h
      · rename_i txs hs
        rw [saveTransaction_some _ _ _ _ hs]
        exact EvidenceInv_congr _ _ rfl rfl
          (EvidenceInv_set s i tx _ (findById_some _ _ _ _ hf).2 (fun hh => hh) h)
  · exact h

theorem onMessage_EvidenceInv (now : Nat) (s : BotState) (msg : Message)
    (h : EvidenceInv s) : EvidenceInv (onMessage now s msg) := by
  unfold onMessage
  dsimp only
  apply EvidenceInv_congr _ _ (onStart_frame _ msg).1 (onStart_transactions _ msg)
  apply onRejectReasonMessage_EvidenceInv
  apply onPaymentDetailsMessage_EvidenceInv
  apply EvidenceInv_congr _ _ (onAdminSettingsMessage_userStates _ msg).1
    (onAdminSettingsMessage_transactions _ msg)
  apply onGiftUploadMessage_EvidenceInv
  apply onGiftDetailsMessage_EvidenceInv
  apply onSellMessage_EvidenceInv
  apply onProofMessage_EvidenceInv
  exact onAmountMessage_EvidenceInv now s msg h

theorem handlers_EvidenceInv :
    ∀ p ∈ handlers, ∀ (s : BotState) (q : CallbackQuery),
      EvidenceInv s → EvidenceInv (p.2 s q) := by
  intro p hp s q h
  simp only [handlers, List.mem_cons, List.mem_singleton, List.not_mem_nil, or_false] at hp
  rcases hp with hp | hp | hp | hp | hp | hp | hp | hp | hp | hp | hp | hp | hp | hp | hp | hp |
    hp | hp | hp | hp
  all_goals
    rw [hp]
    first
      | exact h
      | exact EvidenceInv_congr s _ rfl rfl h
      | exact EvidenceInv_setUser _ _ _ trivial h

theorem onCallbackQuery_EvidenceInv (cfg : Config) (s : BotState) (q : CallbackQuery)
    (h : EvidenceInv s) : EvidenceInv (onCallbackQuery cfg s q) := by
  unfold onCallbackQuery
  dsimp only
  split
  · rename_i handler hl
    exact handlers_EvidenceInv _ (lookup_mem _ _ _ hl) s q h
  · split
    · unfold approve
      repeat' split
      all_goals first
        | exact h
        | exact EvidenceInv_setUser _ _ _ trivial h
    · split
      · exact EvidenceInv_congr s _ rfl rfl h
      · exact h

theorem run_EvidenceInv (cfg : Config) (events : List Event) :
    ∀ s : BotState, EvidenceInv s → EvidenceInv (run cfg s events) := by
  induction events with
  | nil => intro s h; exact h
  | cons e es ih =>
    intro s h
    simp only [run, List.foldl_cons]
    apply ih
    cases e with
    | message now msg => exact onMessage_EvidenceInv now s msg h
    | callbackQuery q => exact onCallbackQuery_EvidenceInv cfg s q h

theorem bootState_EvidenceInv (w1 w2 w3 : Str) : EvidenceInv (bootState w1 w2 w3) := by
  refine ⟨?_, ?_⟩
  · intro k st hst
    exact Option.noConfusion hst
  · intro tx htx
    simp [bootState] at htx

/-! ## Messages without evidence -/

/-- The listeners after the fifth keep the session states and the number of
stored records when the session of the chat does not wait for payment
details. -/
theorem tail_keeps (x : BotState) (msg : Message)
    (hx : ∀ txId, x.userStates (Key.num msg.chatId) ≠
      some (UserState.waiting_payment_details txId)) :
    (onStart (onRejectReasonMessage (onPaymentDetailsMessage (onAdminSettingsMessage x msg)
      msg) msg) msg).userStates = x.userStates ∧
    (onStart (onRejectReasonMessage (onPaymentDetailsMessage (onAdminSettingsMessage x msg)
      msg) msg) msg).transactions.length = x.transactions.length := by
  have h6u := (onAdminSettingsMessage_userStates x msg).1
  have h6t := onAdminSettingsMessage_transactions x msg
  have e7 : onPaymentDetailsMessage (onAdminSettingsMessage x msg) msg =
      onAdminSettingsMessage x msg := by
    unfold onPaymentDetailsMessage
    dsimp only
    split
    · rename_i txId _ heq _
      rw [h6u] at heq
      exact absurd heq (hx txId)
    · rfl
  rw [e7]
  obtain ⟨h8l, h8u⟩ := onRejectReasonMessage_length (onAdminSettingsMessage x msg) msg
  exact ⟨by rw [(onStart_frame _ msg).1, h8u, h6u],
    by rw [onStart_transactions, h8l, h6t]⟩

/-- In a state that waits for evidence, a message other than `cancel` that
yields none leaves every session state as it is and stores no record. -/
theorem no_evidence_keeps_state (now : Nat) (s : BotState) (msg : Message) (st : UserState)
    (hst : s.userStates (Key.num msg.chatId) = some st)
    (hc : isCancel msg.text = false)
    (hn : yieldsNothing st msg) :
    (onMessage now s msg).userStates = s.userStates ∧
    (onMessage now s msg).transactions.length = s.transactions.length := by
  have hm : onMessage now s msg = onStart (onRejectReasonMessage (onPaymentDetailsMessage
      (onAdminSettingsMessage (onGiftUploadMessage (onGiftDetailsMessage (onSellMessage
        (onProofMessage (onAmountMessage now s msg) msg) msg) msg) msg) msg) msg) msg) msg := rfl
  have e1 : onAmountMessage now s msg = { s with userMessageCounts :=
      (checkRateLimit s.userMessageCounts (Key.num msg.chatId) now).2 } := by
    unfold onAmountMessage
    dsimp only
    split
    · rfl
    · cases st <;> simp only [hst] <;> exact absurd hn (by simp [yieldsNothing])
  have hst1 : (onAmountMessage now s msg).userStates (Key.num msg.chatId) = some st := by
    rw [e1]; exact hst
  have hu1 : (onAmountMessage now s msg).userStates = s.userStates := by rw [e1]
  have ht1 : (onAmountMessage now s msg).transactions = s.transactions := by rw [e1]
  generalize onAmountMessage now s msg = s1 at hm hst1 hu1 ht1
  have e2 : onProofMessage s1 msg = s1 := by
    unfold onProofMessage
    dsimp only
    cases st <;> simp only [hst1, hc, Bool.false_eq_true, if_false]
    simp only [yieldsNothing] at hn
    split
    · rename_i hv
      exact absurd hv hn
    · rfl
  have e3 : onSellMessage s1 msg = s1 := by
    unfold onSellMessage
    dsimp only
    cases st <;> simp only [hst1, hc, Bool.false_eq_true, if_false]
    simp only [yieldsNothing] at hn
    split
    · rfl
    · rename_i a b hev
      rw [hev] at hn
      rw [if_pos hn]
  have e4 : onGiftDetailsMessage s1 msg = s1 := by
    unfold onGiftDetailsMessage
    dsimp only
    cases st <;> simp only [hst1]
    exact absurd hn (by simp [yieldsNothing])
  have e5 : onGiftUploadMessage s1 msg = s1 := by
    unfold onGiftUploadMessage
    dsimp only
    cases st <;> simp only [hst1, hc, Bool.false_eq_true, if_false]
    simp only [yieldsNothing] at hn
    split
    · rfl
    · rename_i a b hev
      rw [hev] at hn
      rw [if_pos hn]
  rw [hm, e2, e3, e4, e5]
  have hx : ∀ txId, s1.userStates (Key.num msg.chatId) ≠
      some (UserState.waiting_payment_details txId) := by
    intro txId hh
    rw [hst1] at hh
    simp only [Option.some.injEq] at hh
    rw [hh] at hn
    exact hn
  obtain ⟨t1, t2⟩ := tail_keeps s1 msg hx
  exact ⟨by rw [t1, hu1], by rw [t2, ht1]⟩

/-! ## Claim on the evidence of stored records -/

/-- C20: in every run of the bot from boot, every stored Transaction carries
its evidence: a buy record a payment proof file id; a sell record a non-empty
txHash or a screenshot, never both; a gift-card record a non-empty cardCode or
a card image, never both (the schema stores none of that type).  The
invariant behind it is kept by every event.  In `waiting_proof`,
`waiting_tx_sell` and `waiting_gift_upload`, a message other than `cancel`
that yields no evidence leaves every session state unchanged and stores no
record; a text that `sanitizeText` empties and a command starting with `/` are
such messages, and so is a plain text in `waiting_proof`. -/
theorem created_records_carry_evidence :
    (∀ (cfg : Config) (w1 w2 w3 : Str) (events : List Event),
      ∀ tx ∈ (run cfg (bootState w1 w2 w3) events).transactions, HasEvidence tx) ∧
    (∀ (cfg : Config) (s : BotState) (e : Event), EvidenceInv s → EvidenceInv (onEvent cfg s e)) ∧
    (∀ (now : Nat) (s : BotState) (msg : Message) (st : UserState),
      s.userStates (Key.num msg.chatId) = some st →
      isCancel msg.text = false →
      yieldsNothing st msg →
      (onMessage now s msg).userStates = s.userStates ∧
      (onMessage now s msg).transactions.length = s.transactions.length) ∧
    (yieldsNothing (UserState.waiting_tx_sell "BTC".toList "sell".toList (JSNum.fin 5 1))
        (textMessage 42 "<b>".toList) ∧
      yieldsNothing (UserState.waiting_tx_sell "BTC".toList "sell".toList (JSNum.fin 5 1))
        (textMessage 42 "/help".toList) ∧
      yieldsNothing (UserState.waiting_gift_upload "Amazon".toList (JSNum.fin 50 0) "USD".toList
        (JSNum.fin 4250 2)) (textMessage 42 "<b>".toList) ∧
      yieldsNothing (UserState.waiting_proof "BTC".toList "buy".toList (JSNum.fin 5 1)
        (some (JSNum.fin 50000 0)) (JSNum.fin 250000 1)) (textMessage 42 "hello".toList)) := by
  refine ⟨?_, ?_, ?_, ?_⟩
  · intro cfg w1 w2 w3 events
    exact (run_EvidenceInv cfg events _ (bootState_EvidenceInv w1 w2 w3)).2
  · intro cfg s e h
    cases e with
    | message now msg => exact onMessage_EvidenceInv now s msg h
    | callbackQuery q => exact onCallbackQuery_EvidenceInv cfg s q h
  · intro now s msg st hst hc hn
    exact no_evidence_keeps_state now s msg st hst hc hn
  · have h1 : evidence (textMessage 42 "<b>".toList) = some (some [], none) := by decide
    have h2 : evidence (textMessage 42 "/help".toList) = some (none, none) := by decide
    have h3 : validateFileUpload (textMessage 42 "hello".toList) ≠ some true := by decide
    refine ⟨?_, ?_, ?_, ?_⟩
    · simp only [yieldsNothing, h1]
      exact ⟨rfl, rfl⟩
    · simp only [yieldsNothing, h2]
      exact ⟨rfl, rfl⟩
    · simp only [yieldsNothing, h1]
      exact ⟨rfl, rfl⟩
    · exact h3

/-! ## Claim on a second pass of sanitizeText -/

theorem stripTagsAux_of_no_markup :
    ∀ (s : Str), hasMarkup s = false → stripTagsAux false s = s := by
  intro s
  induction s with
  | nil => intro _; rfl
  | cons c cs ih =>
    intro h
    simp only [hasMarkup, Bool.or_eq_false_iff, Bool.and_eq_false_imp, decide_eq_true_eq,
      decide_eq_false_iff_not] at h
    simp only [stripTagsAux]
    rw [if_neg (fun hc => h.1 hc.1 hc.2), ih h.2]

theorem hasMarkup_sanitizeText (t : Option Str) : hasMarkup (sanitizeText t) = false := by
  unfold sanitizeText
  split
  · rfl
  · split
    · rfl
    · exact hasMarkup_take _ _ (hasMarkup_stripTagsAux _ false)

theorem length_sanitizeText (t : Option Str) : (sanitizeText t).length ≤ 1000 := by
  unfold sanitizeText
  split
  · exact Nat.zero_le _
  · split
    · exact Nat.zero_le _
    · rw [List.length_take]
      exact Nat.min_le_left _ _

/-- C22: `sanitizeText` is idempotent, on every text and on an absent one.
One pass of the replacement leaves nothing that the pattern `<[^>]*>` matches,
so a second pass changes nothing, also after the cut to any length; the inputs
`<<a>b>` and `<scr<b>ipt>` become `b>` and `ipt>`, which hold no match. -/
theorem sanitizeText_idempotent :
    (∀ t : Option Str, sanitizeText (some (sanitizeText t)) = sanitizeText t) ∧
    (∀ s : Str, stripTags (stripTags s) = stripTags s) ∧
    (∀ (s : Str) (n : Nat), stripTags ((stripTags s).take n) = (stripTags s).take n) ∧
    (∀ s : Str, ¬ ∃ pre mid post : Str, stripTags s = pre ++ '<' :: (mid ++ '>' :: post)) ∧
    sanitizeText (some "<<a>b>".toList) = "b>".toList ∧
    sanitizeText (some "b>".toList) = "b>".toList ∧
    sanitizeText (some "<scr<b>ipt>".toList) = "ipt>".toList ∧
    sanitizeText (some "ipt>".toList) = "ipt>".toList := by
  refine ⟨?_, ?_, ?_, ?_, by decide, by decide, by decide, by decide⟩
  · intro t
    have hm := hasMarkup_sanitizeText t
    have hl := length_sanitizeText t
    generalize sanitizeText t = r at hm hl
    unfold sanitizeText
    simp only
    split
    · rename_i h; exact h.symm
    · unfold stripTags
      rw [stripTagsAux_of_no_markup r hm]
      exact List.take_of_length_le hl
  · intro s
    exact stripTagsAux_of_no_markup _ (hasMarkup_stripTagsAux s false)
  · intro s n
    exact stripTagsAux_of_no_markup _ (hasMarkup_take _ n (hasMarkup_stripTagsAux s false))
  · intro s
    exact not_markup_of_hasMarkup_false _ (hasMarkup_stripTagsAux s false)

/-! ## Messages that fail a validation -/

theorem truthy_some (t : Option Str) (x : Str) (h : truthy t = some x) : t = some x := by
  unfold truthy at h
  split at h
  · split at h
    · exact Option.noConfusion h
    · rw [← h]
  · exact Option.noConfusion h

theorem not_cancel_of_isCancel (msg : Message) (text : Str) (h : isCancel msg.text = false)
    (ht : msg.text = some text) : ¬ toLowerCase text = "cancel".toList := by
  rw [ht] at h
  simpa [isCancel] using h

/-- In a state that validates its input, a message other than `cancel` that
fails the validation leaves every session state as it is and stores no
record. -/
theorem validation_failure_keeps_state (now : Nat) (s : BotState) (msg : Message)
    (st : UserState)
    (hst : s.userStates (Key.num msg.chatId) = some st)
    (hc : isCancel msg.text = false)
    (hf : validationFails st msg) :
    (onMessage now s msg).userStates = s.userStates ∧
    (onMessage now s msg).transactions.length = s.transactions.length := by
  have hm : onMessage now s msg = onStart (onRejectReasonMessage (onPaymentDetailsMessage
      (onAdminSettingsMessage (onGiftUploadMessage (onGiftDetailsMessage (onSellMessage
        (onProofMessage (onAmountMessage now s msg) msg) msg) msg) msg) msg) msg) msg) msg := rfl
  have e1 : onAmountMessage now s msg = { s with userMessageCounts :=
      (checkRateLimit s.userMessageCounts (Key.num msg.chatId) now).2 } := by
    unfold onAmountMessage
    dsimp only
    split
    · rfl
    · cases st with
      | waiting_amount ct type =>
        obtain ⟨text, ht, hv⟩ := hf
        have hnc := not_cancel_of_isCancel msg text hc (truthy_some _ _ ht)
        simp only [hst, ht, amountInput, if_neg hnc, hv, if_true]
      | waiting_amount_sell ct type =>
        obtain ⟨text, ht, hv⟩ := hf
        have hnc := not_cancel_of_isCancel msg text hc (truthy_some _ _ ht)
        simp only [hst, ht, amountInput, if_neg hnc, hv, if_true]
      | waiting_proof _ _ _ _ _ => simp only [hst]
      | waiting_gift_details _ => simp only [hst]
      | waiting_tx_sell _ _ _ => exact absurd hf (by simp [validationFails])
      | waiting_gift_upload _ _ _ _ => exact absurd hf (by simp [validationFails])
      | waiting_payment_details _ => exact absurd hf (by simp [validationFails])
  have hst1 : (onAmountMessage now s msg).userStates (Key.num msg.chatId) = some st := by
    rw [e1]; exact hst
  have hu1 : (onAmountMessage now s msg).userStates = s.userStates := by rw [e1]
  have ht1 : (onAmountMessage now s msg).transactions = s.transactions := by rw [e1]
  generalize onAmountMessage now s msg = s1 at hm hst1 hu1 ht1
  have e2 : onProofMessage s1 msg = s1 := by
    unfold onProofMessage
    dsimp only
    cases st <;> simp only [hst1, hc, Bool.false_eq_true, if_false]
    simp only [validationFails] at hf
    split
    · rename_i hv
      exact absurd hv hf
    · rfl
  have e3 : onSellMessage s1 msg = s1 := by
    unfold onSellMessage
    dsimp only
    cases st <;> simp only [hst1]
    exact absurd hf (by simp [validationFails])
  have e4 : onGiftDetailsMessage s1 msg = s1 := by
    unfold onGiftDetailsMessage
    dsimp only
    cases st with
    | waiting_gift_details g =>
      obtain ⟨text, ht, hcase⟩ := hf
      have hnc := not_cancel_of_isCancel msg text hc (truthy_some _ _ ht)
      simp only [hst1, ht, if_neg hnc]
      rcases hcase with hn | ⟨before, m, after, hn, hr | hcur⟩
      · simp only [hn]
      · simp only [hn, hr, if_true]
      · simp only [hn, hcur, if_true]
        split <;> rfl
    | waiting_amount _ _ => simp only [hst1]
    | waiting_amount_sell _ _ => simp only [hst1]
    | waiting_proof _ _ _ _ _ => simp only [hst1]
    | waiting_tx_sell _ _ _ => simp only [hst1]
    | waiting_gift_upload _ _ _ _ => simp only [hst1]
    | waiting_payment_details _ => simp only [hst1]
  have e5 : onGiftUploadMessage s1 msg = s1 := by
    unfold onGiftUploadMessage
    dsimp only
    cases st <;> simp only [hst1]
    exact absurd hf (by simp [validationFails])
  rw [hm, e2, e3, e4, e5]
  have hx : ∀ txId, s1.userStates (Key.num msg.chatId) ≠
      some (UserState.waiting_payment_details txId) := by
    intro txId hh
    rw [hst1] at hh
    simp only [Option.some.injEq] at hh
    rw [hh] at hf
    exact hf
  obtain ⟨t1, t2⟩ := tail_keeps s1 msg hx
  exact ⟨by rw [t1, hu1], by rw [t2, ht1]⟩

/-! ## Claim on validation failures -/

/-- C21 (counterexample): the word `cancel` fails each validation and removes
the session entry.  In `waiting_amount` it is a text that `validateAmount`
rejects, in `waiting_proof` a message that `validateFileUpload` rejects, in
`waiting_gift_details` a text with no number; after the message the session of
chat `42` is gone in all three. -/
theorem validation_failure_cancel_counterexample :
    (validateAmount (sanitizeText (some "cancel".toList)) = false ∧
      (run demoConfig demoBoot
        [Event.callbackQuery (press 42 "buy_btc".toList)]).userStates (Key.num 42) =
        some (UserState.waiting_amount "BTC".toList "buy".toList) ∧
      (onMessage 1000 (run demoConfig demoBoot [Event.callbackQuery (press 42 "buy_btc".toList)])
        (textMessage 42 "cancel".toList)).userStates (Key.num 42) = none) ∧
    (validateFileUpload (textMessage 42 "cancel".toList) = some false ∧
      (run demoConfig demoBoot
        [Event.callbackQuery (press 42 "buy_btc".toList),
         Event.message 1000 (textMessage 42 "0.5".toList)]).userStates (Key.num 42) =
        some (UserState.waiting_proof "BTC".toList "buy".toList (JSNum.fin 5 1)
          (some (JSNum.fin 50000 0)) (JSNum.fin 250000 1)) ∧
      (onMessage 2000 (run demoConfig demoBoot
        [Event.callbackQuery (press 42 "buy_btc".toList),
         Event.message 1000 (textMessage 42 "0.5".toList)])
        (textMessage 42 "cancel".toList)).userStates (Key.num 42) = none) ∧
    (numberMatch (trim "cancel".toList) = none ∧
      (run demoConfig demoBoot
        [Event.callbackQuery (press 42 "sell_amazon".toList)]).userStates (Key.num 42) =
        some (UserState.waiting_gift_details "Amazon".toList) ∧
      (onMessage 1000 (run demoConfig demoBoot
        [Event.callbackQuery (press 42 "sell_amazon".toList)])
        (textMessage 42 "cancel".toList)).userStates (Key.num 42) = none) := by
  refine ⟨⟨by decide, by decide, by decide⟩, ⟨by decide, by decide, by decide⟩,
    ⟨by decide, by decide, by decide⟩⟩

/-- C21 (amended): a message other than the word `cancel` that fails the
validation of its state leaves the session store exactly as it was and adds no
Transaction, whatever the other listeners do with the same message: in
`waiting_amount` and `waiting_amount_sell` a text that `validateAmount`
rejects, in `waiting_proof` a message that `validateFileUpload` does not
accept, in `waiting_gift_details` a text with no number, with a number out of
range or with no currency beside the number.  The texts `abc`, `-5`, `hello`,
`USD`, `0 USD` and `50` are such messages in their states, and `abc` leaves a
session that has just chosen to buy BTC in `waiting_amount` for BTC. -/
theorem validation_failure_preserves_dialogue :
    (∀ (now : Nat) (s : BotState) (msg : Message) (st : UserState),
      s.userStates (Key.num msg.chatId) = some st →
      isCancel msg.text = false →
      validationFails st msg →
      (onMessage now s msg).userStates = s.userStates ∧
      (onMessage now s msg).transactions.length = s.transactions.length) ∧
    (validationFails (UserState.waiting_amount "BTC".toList "buy".toList)
        (textMessage 42 "abc".toList) ∧
      validationFails (UserState.waiting_amount_sell "BTC".toList "sell".toList)
        (textMessage 42 "-5".toList) ∧
      validationFails (UserState.waiting_proof "BTC".toList "buy".toList (JSNum.fin 5 1)
        (some (JSNum.fin 50000 0)) (JSNum.fin 250000 1)) (textMessage 42 "hello".toList) ∧
      validationFails (UserState.waiting_gift_details "Amazon".toList)
        (textMessage 42 "USD".toList) ∧
      validationFails (UserState.waiting_gift_details "Amazon".toList)
        (textMessage 42 "0 USD".toList) ∧
      validationFails (UserState.waiting_gift_details "Amazon".toList)
        (textMessage 42 "50".toList)) ∧
    ((onMessage 1000 (run demoConfig demoBoot [Event.callbackQuery (press 42 "buy_btc".toList)])
        (textMessage 42 "abc".toList)).userStates (Key.num 42) =
        some (UserState.waiting_amount "BTC".toList "buy".toList) ∧
      (onMessage 1000 (run demoConfig demoBoot [Event.callbackQuery (press 42 "buy_btc".toList)])
        (textMessage 42 "abc".toList)).transactions = []) := by
  refine ⟨?_, ⟨?_, ?_, ?_, ?_, ?_, ?_⟩, ⟨by decide, by decide⟩⟩
  · intro now s msg st hst hc hf
    exact validation_failure_keeps_state now s msg st hst hc hf
  · exact ⟨"abc".toList, by decide, by decide⟩
  · exact ⟨"-5".toList, by decide, by decide⟩
  · have h : validateFileUpload (textMessage 42 "hello".toList) ≠ some true := by decide
    exact h
  · exact ⟨"USD".toList, by decide, Or.inl (by decide)⟩
  · exact ⟨"0 USD".toList, by decide,
      Or.inr ⟨[], "0".toList, " USD".toList, by decide, Or.inl (by decide)⟩⟩
  · exact ⟨"50".toList, by decide,
      Or.inr ⟨[], "50".toList, [], by decide, Or.inr (by decide)⟩⟩

/-! ## Claim on the parsing of gift-card details -/

theorem digitChar_ne_slash_lt : ∀ d : Fin 10, '/' ≠ digitChar d ∧ digitChar d ≠ '<' := by
  decide

theorem numeral_text_facts (d0 : Fin 10) (ip fp : List (Fin 10)) (rest : Str) :
    startsWith (decimalText false d0 ip fp ++ rest) "/".toList = false ∧
      sanitizeText (some (decimalText false d0 ip fp ++ rest)) ≠ [] := by
  obtain ⟨tl, h⟩ := numeral_head d0 ip fp
  obtain ⟨h1, h2⟩ := digitChar_ne_slash_lt d0
  rw [h]
  constructor
  · simp [startsWith, List.isPrefixOf, h1]
  · simp [sanitizeText, stripTags, stripTagsAux, h2]

theorem numeral_isCancel (msg : Message) (d0 : Fin 10) (ip fp : List (Fin 10)) (rest : Str)
    (htext : msg.text = some (decimalText false d0 ip fp ++ rest)) :
    isCancel msg.text = false := by
  simp only [isCancel, htext]
  exact decide_eq_false (numeral_not_cancel d0 ip fp rest)

theorem numeral_truthy (msg : Message) (d0 : Fin 10) (ip fp : List (Fin 10)) (rest : Str)
    (htext : msg.text = some (decimalText false d0 ip fp ++ rest)) :
    truthy msg.text = some (decimalText false d0 ip fp ++ rest) := by
  obtain ⟨tl, h⟩ := numeral_head d0 ip fp
  have hne : decimalText false d0 ip fp ++ rest ≠ [] := by
    rw [h]
    simp
  simp only [truthy, htext]
  rw [if_neg hne]

/-- C13 fails on the code: the details text that the fourth listener accepts
is handled once more by the fifth listener, which ends the dialogue.
(1) In `waiting_gift_details`, for a text made of a decimal number that
`validateAmount` accepts, white space and a token of ASCII characters, the
fourth listener sets `waiting_gift_upload` with the Number value of the number
as card value and the token in upper case as country; but after all listeners
have handled the message the session is idle, not in `waiting_gift_upload`, and
with no admin dialogue open no record is stored.
(2) So it is, on the booted bot after user `42` has registered and chosen to
sell an Amazon card, with the texts `50 USD`, `100 EUR` and `25.50 CAD`: the
fourth listener gives 50/USD, 100/EUR and 25.5/CAD, and after the message the
session is gone.
(3) The rejections hold: a text with no digit other than the word `cancel`,
a text that is only a number, and a number that `validateAmount` rejects
followed by white space and a token each leave every session as it was and add
no record. -/
theorem gift_details_text_ends_dialogue :
    (∀ (now : Nat) (s : BotState) (msg : Message) (giftType : Str) (d0 : Fin 10)
        (ip fp : List (Fin 10)) (ws token : Str),
      s.userStates (Key.num msg.chatId) = some (UserState.waiting_gift_details giftType) →
      msg.text = some (decimalText false d0 ip fp ++ ws ++ token) →
      ws ≠ [] → (∀ c ∈ ws, isWhiteSpace c = true) →
      token ≠ [] → (∀ c ∈ token, isWhiteSpace c = false) →
      (∀ c ∈ token, c.toNat < 128) →
      validateAmount (decimalText false d0 ip fp) = true →
      (∃ payout : JSNum,
        (onGiftDetailsMessage s msg).userStates (Key.num msg.chatId) =
          some (UserState.waiting_gift_upload giftType (parseFloat (decimalText false d0 ip fp))
            (toUpperCase token) payout)) ∧
      (onMessage now s msg).userStates (Key.num msg.chatId) = none ∧
      (s.adminStates (Key.num msg.chatId) = none →
        (onMessage now s msg).transactions = s.transactions)) ∧
    ((run demoConfig demoBoot [Event.message 0 (textMessage 42 "/start".toList),
        Event.callbackQuery (press 42 "sell_amazon".toList)]).userStates (Key.num 42) =
        some (UserState.waiting_gift_details "Amazon".toList) ∧
      (∃ payout : JSNum,
        (onGiftDetailsMessage
          (run demoConfig demoBoot [Event.message 0 (textMessage 42 "/start".toList),
            Event.callbackQuery (press 42 "sell_amazon".toList)])
          (textMessage 42 "50 USD".toList)).userStates (Key.num 42) =
          some (UserState.waiting_gift_upload "Amazon".toList (JSNum.fin 50 0) "USD".toList
            payout)) ∧
      (∃ payout : JSNum,
        (onGiftDetailsMessage
          (run demoConfig demoBoot [Event.message 0 (textMessage 42 "/start".toList),
            Event.callbackQuery (press 42 "sell_amazon".toList)])
          (textMessage 42 "100 EUR".toList)).userStates (Key.num 42) =
          some (UserState.waiting_gift_upload "Amazon".toList (JSNum.fin 100 0) "EUR".toList
            payout)) ∧
      (∃ payout : JSNum,
        (onGiftDetailsMessage
          (run demoConfig demoBoot [Event.message 0 (textMessage 42 "/start".toList),
            Event.callbackQuery (press 42 "sell_amazon".toList)])
          (textMessage 42 "25.50 CAD".toList)).userStates (Key.num 42) =
          some (UserState.waiting_gift_upload "Amazon".toList (JSNum.fin 255 1) "CAD".toList
            payout)) ∧
      JSNum.toRat (JSNum.fin 255 1) = some (25.5 : ℚ) ∧
      (∀ text ∈ ["50 USD".toList, "100 EUR".toList, "25.50 CAD".toList],
        (onMessage 1000
          (run demoConfig demoBoot [Event.message 0 (textMessage 42 "/start".toList),
            Event.callbackQuery (press 42 "sell_amazon".toList)])
          (textMessage 42 text)).userStates (Key.num 42) = none ∧
        (onMessage 1000
          (run demoConfig demoBoot [Event.message 0 (textMessage 42 "/start".toList),
            Event.callbackQuery (press 42 "sell_amazon".toList)])
          (textMessage 42 text)).transactions = [])) ∧
    (∀ (now : Nat) (s : BotState) (msg : Message) (giftType text : Str),
      s.userStates (Key.num msg.chatId) = some (UserState.waiting_gift_details giftType) →
      msg.text = some text → text ≠ [] →
      (∀ c ∈ text, isDigit c = false) →
      toLowerCase text ≠ "cancel".toList →
      (onMessage now s msg).userStates = s.userStates ∧
      (onMessage now s msg).transactions.length = s.transactions.length) ∧
    (∀ (now : Nat) (s : BotState) (msg : Message) (giftType : Str) (d0 : Fin 10)
        (ip fp : List (Fin 10)),
      s.userStates (Key.num msg.chatId) = some (UserState.waiting_gift_details giftType) →
      msg.text = some (decimalText false d0 ip fp) →
      (onMessage now s msg).userStates = s.userStates ∧
      (onMessage now s msg).transactions.length = s.transactions.length) ∧
    (∀ (now : Nat) (s : BotState) (msg : Message) (giftType : Str) (d0 : Fin 10)
        (ip fp : List (Fin 10)) (ws token : Str),
      s.userStates (Key.num msg.chatId) = some (UserState.waiting_gift_details giftType) →
      msg.text = some (decimalText false d0 ip fp ++ ws ++ token) →
      ws ≠ [] → (∀ c ∈ ws, isWhiteSpace c = true) →
      token ≠ [] → (∀ c ∈ token, isWhiteSpace c = false) →
      validateAmount (decimalText false d0 ip fp) = false →
      (onMessage now s msg).userStates = s.userStates ∧
      (onMessage now s msg).transactions.length = s.transactions.length) := by
  refine ⟨?_, ⟨by decide, ⟨JSNum.fin 4250 2, by decide⟩, ⟨JSNum.fin 8500 2, by decide⟩,
    ⟨JSNum.fin 21675 3, by decide⟩, ?_, by decide⟩, ?_, ?_, ?_⟩
  · intro now s msg giftType d0 ip fp ws token hst htext hws1 hws2 ht1 ht2 _ hvalid
    have hacc := onGiftDetailsMessage_accepts s msg giftType d0 ip fp ws token hst htext hws1
      hws2 ht1 ht2 hvalid
    have hstate : (onGiftDetailsMessage s msg).userStates (Key.num msg.chatId) =
        some (UserState.waiting_gift_upload giftType (parseFloat (decimalText false d0 ip fp))
          (toUpperCase token)
          (mulUndef (parseFloat (decimalText false d0 ip fp))
            (s.globalSettings.giftCardRates.lookup giftType))) := by
      rw [hacc, setUser_userStates, JSMap.set_same]
    have htext2 : msg.text = some (decimalText false d0 ip fp ++ (ws ++ token)) := by
      rw [htext, List.append_assoc]
    obtain ⟨f1, f2⟩ := numeral_text_facts d0 ip fp (ws ++ token)
    exact ⟨⟨_, hstate⟩,
      gift_text_cascade now s msg giftType _ _ _ _ _ hst htext2
        hstate f1 f2⟩
  · simp only [JSNum.toRat]
    norm_num
  · intro now s msg giftType text hst htext hne hnd hnc
    have hc : isCancel msg.text = false := by
      simp only [isCancel, htext]
      exact decide_eq_false hnc
    have ht : truthy msg.text = some text := by
      simp only [truthy, htext]
      rw [if_neg hne]
    exact validation_failure_keeps_state now s msg _ hst hc
      ⟨text, ht, Or.inl (numberMatch_none_of_no_digit _
        (fun c hc => hnd c (mem_of_mem_trim c text hc)))⟩
  · intro now s msg giftType d0 ip fp hst htext
    have htext2 : msg.text = some (decimalText false d0 ip fp ++ []) := by
      rw [htext, List.append_nil]
    have hc := numeral_isCancel msg d0 ip fp [] htext2
    have ht := numeral_truthy msg d0 ip fp [] htext2
    rw [List.append_nil] at ht
    have htrim : trim (decimalText false d0 ip fp) = decimalText false d0 ip fp :=
      trim_of_clean _ (numeral_no_whiteSpace d0 ip fp)
    have hnm : numberMatch (decimalText false d0 ip fp) =
        some ([], decimalText false d0 ip fp, []) := by
      have := numberMatch_numeral d0 ip fp [] (Or.inl rfl)
      simpa using this
    exact validation_failure_keeps_state now s msg _ hst hc
      ⟨_, ht, Or.inr ⟨[], _, [], by rw [htrim]; exact hnm, Or.inr (by decide)⟩⟩
  · intro now s msg giftType d0 ip fp ws token hst htext hws1 hws2 ht1 ht2 hinvalid
    have htext2 : msg.text = some (decimalText false d0 ip fp ++ (ws ++ token)) := by
      rw [htext, List.append_assoc]
    have hc := numeral_isCancel msg d0 ip fp (ws ++ token) htext2
    have ht := numeral_truthy msg d0 ip fp (ws ++ token) htext2
    rw [← List.append_assoc] at ht
    obtain ⟨htrim, hnm⟩ := numeral_token_match d0 ip fp ws token hws1 hws2 ht1 ht2
    have hrange : amountInRange (parseFloat (decimalText false d0 ip fp)) = false := hinvalid
    exact validation_failure_keeps_state now s msg _ hst hc
      ⟨_, ht, Or.inr ⟨[], _, ws ++ token, by rw [htrim]; exact hnm, Or.inl hrange⟩⟩

end CardKyng
